import Mathlib

/-! # Provisioning service: leases, boot environments, machines and the DHCP handler

A shallow embedding of `backend/lease.go`, `backend/bootenv.go`,
`backend/machines.go`, the indexes of `backend/plugins.go` and
`midlayer/dhcp.go`, followed by theorems about it.

Conventions of the embedding:
* a Go `net.IP` is the list of its bytes, `[]` standing for `nil`;
* a Go `error` result is an `Option Error`, `none` standing for `nil`;
* a method with a pointer receiver that mutates the receiver returns the new
  receiver next to its result;
* a store of the data tracker is the list of its items, in store order;
* behaviour of code that is declared outside the embedded files (template
  parsing, the file system, helpers of other packages) is a field of `Env` or
  of `LeaseBackend`, or an argument of the function that calls it;
* a value of type `interface{}` is an `Option Value`, `none` standing for `nil`,
  and a failed type assertion or conversion makes the result `none`;
* a Go string is compared by the bytes of its UTF-8 encoding.
-/

set_option autoImplicit false

namespace Provision

/-! ## `net.IP` and `net.IPNet` (Go standard library) -/

/-- A `net.IP`: the bytes of the address, `[]` for `nil`. -/
abbrev IP := List Nat

/-- A `net.IPNet`: an address and a mask. -/
structure IPNet where
  IP : IP
  Mask : List Nat
deriving DecidableEq, Repr

def IPv4len : Nat := 4

def IPv6len : Nat := 16

def v4InV6Prefix : List Nat := [0, 0, 0, 0, 0, 0, 0, 0, 0, 0, 0xff, 0xff]

/-- The 16-byte form of `a.b.c.d`, as `net.IPv4` builds it. -/
def IPv4 (a b c d : Nat) : IP := v4InV6Prefix ++ [a, b, c, d]

def IPv4zero : IP := IPv4 0 0 0 0

def IPv4bcast : IP := IPv4 255 255 255 255

def IPv6unspecified : IP := List.replicate 16 0

def IPv6loopback : IP := List.replicate 15 0 ++ [1]

/-- `ip.To4()`: the 4-byte form of an IPv4 address, `nil` otherwise. -/
def IP.To4 (ip : IP) : IP :=
  if ip.length = IPv4len then ip
  else if ip.length = IPv6len ∧ ip.take 12 = v4InV6Prefix then ip.drop 12
  else []

/-- `ip.To16()`: the 16-byte form of an address, `nil` otherwise. -/
def IP.To16 (ip : IP) : IP :=
  if ip.length = IPv4len then v4InV6Prefix ++ ip
  else if ip.length = IPv6len then ip
  else []

/-- `ip.Equal(x)`: equality up to the 4-byte / 16-byte form of IPv4. -/
def IP.Equal (ip x : IP) : Bool :=
  if ip.length = x.length then decide (ip = x)
  else if ip.length = IPv4len ∧ x.length = IPv6len then
    decide (x.take 12 = v4InV6Prefix) && decide (ip = x.drop 12)
  else if ip.length = IPv6len ∧ x.length = IPv4len then
    decide (ip.take 12 = v4InV6Prefix) && decide (ip.drop 12 = x)
  else false

def IP.IsUnspecified (ip : IP) : Bool :=
  IP.Equal ip IPv4zero || IP.Equal ip IPv6unspecified

def IP.IsLoopback (ip : IP) : Bool :=
  if IP.To4 ip ≠ [] then (IP.To4 ip).getD 0 0 == 127
  else IP.Equal ip IPv6loopback

def IP.IsMulticast (ip : IP) : Bool :=
  if IP.To4 ip ≠ [] then (IP.To4 ip).getD 0 0 &&& 0xf0 == 0xe0
  else ip.length == IPv6len && ip.getD 0 0 == 0xff

def IP.IsLinkLocalUnicast (ip : IP) : Bool :=
  if IP.To4 ip ≠ [] then (IP.To4 ip).getD 0 0 == 169 && (IP.To4 ip).getD 1 0 == 254
  else ip.length == IPv6len && ip.getD 0 0 == 0xfe && ip.getD 1 0 &&& 0xc0 == 0x80

def IP.IsGlobalUnicast (ip : IP) : Bool :=
  (ip.length == IPv4len || ip.length == IPv6len) &&
    !IP.Equal ip IPv4bcast &&
    !IP.IsUnspecified ip &&
    !IP.IsLoopback ip &&
    !IP.IsMulticast ip &&
    !IP.IsLinkLocalUnicast ip

/-- The pair `networkNumberAndMask(n)` of `net`, `none` when it is `nil, nil`. -/
def networkNumberAndMask (n : IPNet) : Option (IP × List Nat) :=
  let ip4 := IP.To4 n.IP
  if ip4 = [] ∧ n.IP.length ≠ IPv6len then none
  else
    let ip := if ip4 = [] then n.IP else ip4
    if n.Mask.length = IPv4len then
      if ip.length ≠ IPv4len then none else some (ip, n.Mask)
    else if n.Mask.length = IPv6len then
      if ip.length = IPv4len then some (ip, n.Mask.drop 12) else some (ip, n.Mask)
    else none

/-- `n.Contains(ip)`: the address lies in the network. -/
def IPNet.Contains (n : IPNet) (ip : Provision.IP) : Bool :=
  match networkNumberAndMask n with
  | none => false
  | some (nn, m) =>
    let x := if Provision.IP.To4 ip ≠ [] then Provision.IP.To4 ip else ip
    x.length == nn.length &&
      (List.range x.length).all
        (fun i => nn.getD i 0 &&& m.getD i 0 == x.getD i 0 &&& m.getD i 0)

/-! ## `Hexaddr` (lease.go) -/

def hexDigit : List Char :=
  ['0', '1', '2', '3', '4', '5', '6', '7', '8', '9', 'A', 'B', 'C', 'D', 'E', 'F']

/-- The two hexadecimal digits of every byte of `addr.To4()`. -/
def Hexaddr (addr : IP) : String :=
  String.mk ((IP.To4 addr).flatMap
    (fun tn => [hexDigit.getD ((tn % 256) >>> 4) '0', hexDigit.getD ((tn % 256) &&& 0xf) '0']))

/-! ## Errors -/

def ValidationError : String := "ValidationError"

def StillInUseError : String := "StillInUseError"

/-- The `Error` of the backend: a code, a type and the recorded messages. -/
structure Error where
  Code : Nat := 0
  Typ : String := ""
  Messages : List String := []
  containsError : Bool := false
deriving DecidableEq, Repr

/-- Modelled from the spec: `Error.Errorf` is declared outside the embedded
files; it records one more message (already formatted here) and marks the error
as containing one. -/
def Error.Errorf (e : Error) (msg : String) : Error :=
  { e with Messages := e.Messages ++ [msg], containsError := true }

/-- Several `Errorf` calls in a row. -/
def Error.addAll (e : Error) (msgs : List String) : Error :=
  msgs.foldl Error.Errorf e

/-- Modelled from the spec: `Error.Merge` is declared outside the embedded
files; a `nil` source changes nothing, otherwise the messages of the source are
recorded. -/
def Error.Merge (e : Error) (src : Option Error) : Error :=
  match src with
  | none => e
  | some o => { e with Messages := e.Messages ++ o.Messages, containsError := true }

def Error.ContainsError (e : Error) : Bool := e.containsError

/-- Modelled from the spec: `Error.OrNil` is declared outside the embedded
files; it is the error itself when something was recorded and `nil` otherwise. -/
def Error.OrNil (e : Error) : Option Error :=
  if e.containsError then some e else none

/-- An error is well formed when it is marked as containing an error exactly
when a message is recorded; `Errorf` keeps errors well formed. -/
def Error.wf (e : Error) : Prop := e.containsError = true ↔ e.Messages ≠ []

/-! ## Entities -/

/-- A point in time (`time.Time`), in nanoseconds. -/
abbrev Time := Int

/-- One second, as a `time.Duration`. -/
def Second : Int := 1000000000

/-- The `Lease` of lease.go. -/
structure Lease where
  Addr : IP := []
  Token : String := ""
  ExpireTime : Time := 0
  Strategy : String := ""
deriving DecidableEq, Repr

/-- A DHCP option directive of a subnet or reservation: a code and a value
template. -/
structure DhcpOption where
  Code : Nat
  Value : String
deriving DecidableEq, Repr

/-- Modelled from the spec: the `Reservation` type is declared outside the
embedded files; it is a bound Addr, Token, Strategy, NextServer and Options,
keyed by `Hexaddr Addr`. -/
structure Reservation where
  Addr : IP := []
  Token : String := ""
  Strategy : String := ""
  NextServer : IP := []
  Options : List DhcpOption := []
deriving DecidableEq, Repr

/-- Modelled from the spec: the `Subnet` type is declared outside the embedded
files; it is a CIDR (`Cidr`, kept parsed, as `subnet()` returns it), the active range
`ActiveStart..ActiveEnd`, a next server, the option directives and the lease
times. -/
structure Subnet where
  Name : String := ""
  Cidr : IPNet := { IP := [], Mask := [] }
  ActiveStart : IP := []
  ActiveEnd : IP := []
  ActiveLeaseTime : Nat := 0
  ReservedLeaseTime : Nat := 0
  NextServer : IP := []
  Options : List DhcpOption := []
  Strategy : String := ""
deriving DecidableEq, Repr

/-- The parsed network of the subnet. -/
def Subnet.subnet (s : Provision.Subnet) : IPNet := s.Cidr

/-- The bytes of an address of up to four bytes read as one big-endian
number. -/
def ipNumber (ip : IP) : Nat := ip.foldl (fun acc b => acc * 256 + b % 256) 0

/-- The network address of an IPv4 network: the address bytes under the mask. -/
def IPNet.network (n : IPNet) : Provision.IP :=
  match networkNumberAndMask n with
  | none => []
  | some (nn, m) => (List.range nn.length).map (fun i => nn.getD i 0 &&& m.getD i 0)

/-- The broadcast address of an IPv4 network: the host bits all set. -/
def IPNet.broadcast (n : IPNet) : Provision.IP :=
  match networkNumberAndMask n with
  | none => []
  | some (nn, m) =>
    (List.range nn.length).map (fun i => (nn.getD i 0 &&& m.getD i 0) ||| (255 - m.getD i 0 % 256))

/-- Modelled from the spec: `Subnet.InSubnetRange` is declared outside the
embedded files; the predicate "excludes network and broadcast": the address lies
in the subnet and is neither its network nor its broadcast address. -/
def Subnet.InSubnetRange (s : Provision.Subnet) (ip : IP) : Bool :=
  s.subnet.Contains ip &&
    !IP.Equal ip s.subnet.network && !IP.Equal ip s.subnet.broadcast

/-- Modelled from the spec: `Subnet.InActiveRange` is declared outside the
embedded files; the address lies in `ActiveStart..ActiveEnd`, both ends
included. -/
def Subnet.InActiveRange (s : Provision.Subnet) (ip : IP) : Bool :=
  IP.To4 ip != [] &&
    decide (ipNumber (IP.To4 s.ActiveStart) ≤ ipNumber (IP.To4 ip)) &&
    decide (ipNumber (IP.To4 ip) ≤ ipNumber (IP.To4 s.ActiveEnd))

/-- One template of a boot environment (`TemplateInfo`); `pathTmpl` holds the
source of the compiled path template once it has been compiled. -/
structure TemplateInfo where
  Name : String := ""
  Path : String := ""
  ID : String := ""
  Contents : String := ""
  pathTmpl : Option String := none
deriving DecidableEq, Repr

def TemplateInfo.id (ti : TemplateInfo) : String :=
  if ti.ID = "" then ti.Name else ti.ID

/-- The `OsInfo` of bootenv.go. -/
structure OsInfo where
  Name : String := ""
  Family : String := ""
  Codename : String := ""
  Version : String := ""
  IsoFile : String := ""
  IsoSha256 : String := ""
  IsoUrl : String := ""
deriving DecidableEq, Repr

/-- A parsed template tree (`*template.Template`): the names it defines. -/
abbrev TemplateSet := List String

/-- The root template of a boot environment: the clone of the common root and
the text of the inline templates parsed into it. -/
structure RootTemplate where
  common : TemplateSet
  inline : String
deriving DecidableEq, Repr

/-- The `BootEnv` of bootenv.go. `Tasks` is the field that machines.go reads;
`bootParamsTmpl` and `rootTemplate` hold the compiled templates. -/
structure BootEnv where
  Name : String := ""
  Description : String := ""
  OS : OsInfo := {}
  Templates : List TemplateInfo := []
  Kernel : String := ""
  Initrds : List String := []
  BootParams : String := ""
  RequiredParams : List String := []
  OptionalParams : List String := []
  Available : Bool := false
  Errors : List String := []
  OnlyUnknown : Bool := false
  Tasks : List String := []
  bootParamsTmpl : Option String := none
  rootTemplate : Option RootTemplate := none
deriving DecidableEq, Repr

/-- A parameter value (`interface{}` holding a decoded value); `other` stands
for every value that is not a string, a bool or an int. -/
inductive Value where
  | string (s : String)
  | bool (b : Bool)
  | int (i : Int)
  | other (tag : Nat)
deriving DecidableEq, Repr

/-- Modelled from the spec: the `Profile` type is declared outside the embedded
files; a name, a parameter map and the tasks machines.go reads from it. The map
is kept as an association list, a key holding `none` when its value is `nil`. -/
structure Profile where
  Name : String := ""
  Params : List (String × Option Value) := []
  Tasks : List String := []
deriving DecidableEq, Repr

/-- Modelled from the spec: the `Task` type is declared outside the embedded
files; a named entity. -/
structure Task where
  Name : String := ""
deriving DecidableEq, Repr

/-- The `Machine` of machines.go; `Uuid` is `none` for a nil uuid and holds the
textual form otherwise. -/
structure Machine where
  Name : String := ""
  Description : String := ""
  Uuid : Option String := none
  CurrentJob : Option String := none
  Address : IP := []
  BootEnv : String := ""
  Errors : List String := []
  Profiles : List String := []
  Profile : Profile := {}
  Tasks : List String := []
  CurrentTask : Int := 0
  Runnable : Bool := false
  oldBootEnv : String := ""
deriving DecidableEq, Repr

def Machine.UUID (n : Machine) : String := n.Uuid.getD ""

def Machine.Key (n : Machine) : String := n.UUID

/-- A rendered template: the template id and the path it is served at. -/
structure RenderedTemplate where
  id : String := ""
  path : String := ""
deriving DecidableEq, Repr

/-- The `renderers` of one render: one slot per template, `none` for a slot that
was left unset. -/
abbrev Renderers := List (Option RenderedTemplate)

/-- An operation on the virtual filesystem. -/
inductive FSOp where
  | register (rts : Renderers)
  | deregister (rts : Renderers)
deriving DecidableEq, Repr

/-- The data tracker: the stores, the preferences and the configured values the
embedded code reads. -/
structure DataTracker where
  leases : List Lease := []
  reservations : List Reservation := []
  subnets : List Subnet := []
  bootenvs : List BootEnv := []
  machines : List Machine := []
  profiles : List Profile := []
  tasks : List Task := []
  prefs : List (String × String) := []
  defaultBootEnv : String := ""
  GlobalProfileName : String := ""
  FileRoot : String := ""
  OurAddress : IP := []
  rootTemplate : Option TemplateSet := none

/-- The result of `os.Stat`. -/
inductive StatResult where
  | notExist
  | failed
  | found (regular : Bool)
deriving DecidableEq, Repr

/-- The result of opening an ISO file and hashing its contents. -/
inductive IsoRead where
  | openFailed (err : String)
  | readFailed (err : String)
  | hash (sha : String)
deriving DecidableEq, Repr

/-- Behaviour of what lies outside the embedded files: helpers of other files of
the backend, the Go standard library and the operating system. Every theorem
holds for every `Env` unless it names one. -/
structure Env where
  /-- Messages `validateIP4(e, addr)` records. -/
  validateIP4 : IP → List String
  /-- Messages `validateMaybeZeroIP4(e, addr)` records. -/
  validateMaybeZeroIP4 : IP → List String
  /-- Result of `index.CheckUnique(n, items)`. -/
  checkUnique : Machine → List Machine → Option Error
  /-- Text of `addr.String()`. -/
  ipString : IP → String
  /-- Text of `%#v` of a machine. -/
  machineRepr : Machine → String
  /-- Error of `commonRoot.Clone()`. -/
  cloneErr : Option String
  /-- Error of `template.New(name).Parse(text)`. -/
  parseErr : String → String → Option String
  /-- Error of `res.Parse(text)` on the cloned root. -/
  parseInlineErr : TemplateSet → String → Option String
  /-- Result of `path.Join`. -/
  pathJoin : List String → String
  /-- Result of `path.Clean`. -/
  pathClean : String → String
  /-- Result of `bytes.TrimSpace`. -/
  trimSpace : String → String
  /-- Result of `ioutil.ReadFile`, `none` on error. -/
  readFile : String → Option String
  /-- Result of `os.Stat`. -/
  stat : String → StatResult
  /-- Result of opening and hashing a file. -/
  isoRead : String → IsoRead
  /-- Result of running a command: the output, and the error if it failed. -/
  exec : String → List String → String × Option String
  /-- Result of `r.ParamExists(param)` on the render data of a machine and a
  boot environment. -/
  paramExists : DataTracker → Option Machine → BootEnv → String → Bool
  /-- Result of executing the path template of a template entry: the rendered
  text or the error. -/
  execPath : DataTracker → Option Machine → BootEnv → TemplateInfo → Except String String

/-! ## lease.go -/

def Lease.Key (l : Lease) : String := Hexaddr l.Addr

def Reservation.Key (r : Reservation) : String := Hexaddr r.Addr

/-- `l.Subnet()`: the first subnet that contains the address. -/
def Lease.Subnet (p : DataTracker) (l : Lease) : Option Subnet :=
  p.subnets.find? (fun s => s.subnet.Contains l.Addr)

/-- `l.Reservation()`: the reservation keyed by the address. -/
def Lease.Reservation (p : DataTracker) (l : Lease) : Option Reservation :=
  p.reservations.find? (fun r => r.Key == Hexaddr l.Addr)

/-- The loop of `OnCreate` over the stored leases: leases at the same address
are skipped, the first other lease with the same token and strategy is recorded
and ends the loop. -/
def Lease.OnCreate.scan (l : Lease) (e : Error) : List Lease → Error
  | [] => e
  | x :: rest =>
    if IP.Equal x.Addr l.Addr then Lease.OnCreate.scan l e rest
    else if x.Token = l.Token ∧ x.Strategy = l.Strategy then
      e.Errorf ("Lease " ++ x.Key ++ " alreay has Strategy " ++ l.Strategy ++ ": Token " ++ l.Token)
    else Lease.OnCreate.scan l e rest

/-- The first part of `OnCreate`: the checks of the address, the token and the
strategy. -/
def Lease.OnCreate.fields (env : Env) (l : Lease) : Error :=
  let e : Error := { Code := 422, Typ := ValidationError }
  let e := e.addAll (env.validateIP4 l.Addr)
  let e := if l.Token = "" then e.Errorf "Lease Token cannot be empty!" else e
  if l.Strategy = "" then e.Errorf "Lease Strategy cannot be empty!" else e

/-- The last part of `OnCreate`: the check of the address against the subnet
that contains it. -/
def Lease.OnCreate.range (env : Env) (p : DataTracker) (l : Lease) (e : Error) : Error :=
  match Lease.Subnet p l with
  | none => e.Errorf "Cannot create Lease without a reservation or a subnet"
  | some s =>
    if !s.InSubnetRange l.Addr then
      e.Errorf ("Address " ++ env.ipString l.Addr ++
        " is a network or broadcast address for subnet " ++ s.Name)
    else e

/-- `l.OnCreate()`. -/
def Lease.OnCreate (env : Env) (p : DataTracker) (l : Lease) : Option Error :=
  let e := Lease.OnCreate.fields env l
  if (Lease.Reservation p l).isSome then none
  else if e.containsError then some e
  else
    let e := Lease.OnCreate.scan l e p.leases
    if e.containsError then some e
    else (Lease.OnCreate.range env p l e).OrNil

/-- `l.OnChange(old)`. -/
def Lease.OnChange (l old : Lease) : Option Error :=
  let e : Error := { Code := 422, Typ := ValidationError }
  let e := if l.Token ≠ old.Token then e.Errorf "Token cannot change" else e
  let e := if l.Strategy ≠ old.Strategy then e.Errorf "Strategy cannot change" else e
  e.OrNil

/-- `l.Expired()`, the clock reading `now`. -/
def Lease.Expired (now : Time) (l : Lease) : Bool := decide (l.ExpireTime < now)

/-- `l.Expire()`, the clock reading `now`. -/
def Lease.Expire (now : Time) (l : Lease) : Lease := { l with ExpireTime := now }

/-- `l.Invalidate()`, the clock reading `now`. -/
def Lease.Invalidate (now : Time) (l : Lease) : Lease :=
  { l with ExpireTime := now + 2 * Second, Token := "", Strategy := "" }

/-! ## bootenv.go -/

def BootEnv.Key (b : BootEnv) : String := b.Name

/-- `b.pathFor(f)`. -/
def BootEnv.pathFor (env : Env) (b : BootEnv) (f : String) : String :=
  let res := b.OS.Name
  let res := if b.Name.endsWith "-install" then env.pathJoin [res, "install"] else res
  env.pathClean (env.pathJoin [res, f])

/-- `b.localPathFor(f)`. -/
def BootEnv.localPathFor (env : Env) (p : DataTracker) (b : BootEnv) (f : String) : String :=
  env.pathJoin [p.FileRoot, b.pathFor env f]

/-- One round of the loop of `genRoot` over the templates: entry `i` is checked,
its path template compiled, and its inline contents appended to the buffer. -/
def BootEnv.genRoot.entry (env : Env) (res : TemplateSet) (i : Nat) (ti : TemplateInfo)
    (e : Error) (buf : String) : TemplateInfo × Error × String :=
  if ti.Name = "" then
    (ti, e.Errorf ("Templates[" ++ toString i ++ "] has no Name"), buf)
  else if ti.Path = "" then
    (ti, e.Errorf ("Templates[" ++ toString i ++ "] has no Path"), buf)
  else
    match env.parseErr ti.Name ti.Path with
    | some err =>
      (ti, e.Errorf ("Error compiling path template " ++ ti.Name ++ " (" ++ ti.Path ++ "): " ++ err),
        buf)
    | none =>
      if ti.ID ≠ "" then
        ({ ti with pathTmpl := some ti.Path },
          if res.contains ti.ID then e
          else e.Errorf ("Templates[" ++ toString i ++ "]: No common template for " ++ ti.ID),
          buf)
      else
        ({ ti with pathTmpl := some ti.Path },
          if ti.Contents = "" then
            e.Errorf ("Templates[" ++ toString i ++ "] has both an empty ID and contents")
          else e,
          buf ++ "\x7b\x7bdefine \"" ++ ti.Name ++ "\"\x7d\x7d" ++ ti.Contents ++
            "\x7b\x7bend\x7d\x7d\\n")

/-- The faults of a template entry that `genRoot` records: no name, no path, a
path template that does not parse, an ID that names no common template, or
neither an ID nor contents. -/
def TemplateInfo.faulty (env : Env) (res : TemplateSet) (ti : TemplateInfo) : Bool :=
  ti.Name == "" || ti.Path == "" || (env.parseErr ti.Name ti.Path).isSome ||
    (ti.ID != "" && !res.contains ti.ID) || (ti.ID == "" && ti.Contents == "")

/-- The loop of `genRoot` over the templates, from index `i` on. -/
def BootEnv.genRoot.loop (env : Env) (res : TemplateSet) :
    Nat → List TemplateInfo → Error → String → List TemplateInfo × Error × String
  | _, [], e, buf => ([], e, buf)
  | i, ti :: rest, e, buf =>
    let r := BootEnv.genRoot.entry env res i ti e buf
    let r2 := BootEnv.genRoot.loop env res (i + 1) rest r.2.1 r.2.2
    (r.1 :: r2.1, r2.2.1, r2.2.2)

/-- The result of `genRoot`: the receiver, the error and the returned root. -/
structure GenRoot where
  b : BootEnv
  e : Error
  root : Option RootTemplate

/-- The part of `genRoot` that compiles the boot parameters. -/
def BootEnv.genRoot.bootParams (env : Env) (b : BootEnv) (e : Error) : BootEnv × Error :=
  if b.BootParams ≠ "" then
    match env.parseErr "machine" b.BootParams with
    | some err => (b, e.Errorf ("Error compiling boot parameter template: " ++ err))
    | none => ({ b with bootParamsTmpl := some b.BootParams }, e)
  else (b, e)

/-- `b.genRoot(commonRoot, e)`. -/
def BootEnv.genRoot (env : Env) (commonRoot : Option TemplateSet) (b : BootEnv) (e : Error) :
    GenRoot :=
  if commonRoot.isSome ∧ env.cloneErr.isSome then
    { b := b, e := e.Errorf ("Error cloning commonRoot: " ++ env.cloneErr.getD ""), root := none }
  else
    let res : TemplateSet := commonRoot.getD []
    let r := BootEnv.genRoot.loop env res 0 b.Templates e ""
    let b1 : BootEnv := { b with Templates := r.1 }
    match env.parseInlineErr res r.2.2 with
    | some err =>
      { b := b1, e := r.2.1.Errorf ("Error parsing inline templates: " ++ err), root := none }
    | none =>
      let bp := BootEnv.genRoot.bootParams env b1 r.2.1
      if bp.2.containsError then { b := bp.1, e := bp.2, root := none }
      else { b := bp.1, e := bp.2, root := some { common := res, inline := r.2.2 } }

/-- The text of the inline templates that `genRoot` parses into the root. -/
def BootEnv.genRoot.inline (env : Env) (res : TemplateSet) (b : BootEnv) : String :=
  (BootEnv.genRoot.loop env res 0 b.Templates {} "").2.2

/-- The template errors of a boot environment, the common root being `cr`: the
common root cannot be cloned, an entry is faulty, the inline templates do not
parse, or the boot parameters do not parse. -/
def BootEnv.templateErrors (env : Env) (cr : Option TemplateSet) (b : BootEnv) : Bool :=
  (cr.isSome && env.cloneErr.isSome) ||
    b.Templates.any (fun ti => ti.faulty env (cr.getD [])) ||
    (env.parseInlineErr (cr.getD []) (BootEnv.genRoot.inline env (cr.getD []) b)).isSome ||
    (b.BootParams != "" && (env.parseErr "machine" b.BootParams).isSome)

/-- `b.OnLoad()`. -/
def BootEnv.OnLoad (env : Env) (p : DataTracker) (b : BootEnv) : BootEnv × Option Error :=
  let g := BootEnv.genRoot env p.rootTemplate b {}
  ({ g.b with rootTemplate := g.root, Errors := g.e.Messages, Available := !g.e.containsError },
    none)

/-- `b.explodeIso(e)`. -/
def BootEnv.explodeIso (env : Env) (p : DataTracker) (b : BootEnv) (e : Error) :
    BootEnv × Error :=
  if b.OS.IsoFile = "" then (b, e)
  else
    let canaryPath := b.localPathFor env p ("." ++ b.OS.Name ++ ".rebar_canary")
    let canaryOk : Bool :=
      match env.readFile canaryPath with
      | none => false
      | some buf => buf.length != 0 && env.trimSpace buf == b.OS.IsoSha256
    if canaryOk then (b, e)
    else
      let isoPath := env.pathJoin [p.FileRoot, "isos", b.OS.IsoFile]
      if env.stat isoPath = StatResult.notExist then
        let e := e.Errorf ("Explode ISO: iso doesn't exist: " ++ isoPath ++ "\n")
        (b, if b.OS.IsoUrl ≠ "" then
              e.Errorf ("You can download the required ISO from " ++ b.OS.IsoUrl)
            else e)
      else
        match env.isoRead isoPath with
        | IsoRead.openFailed err =>
          (b, e.Errorf ("Explode ISO: failed to open iso file " ++ isoPath ++ ": " ++ err))
        | IsoRead.readFailed err =>
          (b, e.Errorf ("Explode ISO: failed to read iso file " ++ isoPath ++ ": " ++ err))
        | IsoRead.hash hash =>
          let b : BootEnv :=
            if b.OS.IsoSha256 = "" then { b with OS := { b.OS with IsoSha256 := hash } } else b
          if hash ≠ b.OS.IsoSha256 then
            (b, e.Errorf ("Explode ISO: SHA256 bad. actual: " ++ hash ++ " expected: " ++
              b.OS.IsoSha256))
          else
            let cmdName := env.pathJoin [p.FileRoot, "explode_iso.sh"]
            let cmdArgs := [b.OS.Name, p.FileRoot, isoPath, b.localPathFor env p "", b.OS.IsoSha256]
            match env.exec cmdName cmdArgs with
            | (out, some err) =>
              (b, (e.Errorf ("Explode ISO: explode_iso.sh failed for " ++ b.Name ++ ": " ++ err)).Errorf
                ("Command output:\n" ++ out))
            | (_, none) => (b, e)

/-- Whether some template of the boot environment has the given name. -/
def BootEnv.seen (b : BootEnv) (name : String) : Bool :=
  b.Templates.any (fun template => template.Name == name)

/-- The part of `BeforeSave` that asks for an iPXE template, or a PXELinux and
an eLILO template. -/
def BootEnv.BeforeSave.bootLoaders (b : BootEnv) (e : Error) : Error :=
  if !b.seen "ipxe" then
    if !(b.seen "pxelinux" && b.seen "elilo") then
      e.Errorf "bootenv: Missing elilo or pxelinux template"
    else e
  else e

/-- The part of `BeforeSave` that checks the kernel. -/
def BootEnv.BeforeSave.kernel (env : Env) (p : DataTracker) (b : BootEnv) (e : Error) : Error :=
  if b.Kernel ≠ "" then
    let kPath := b.localPathFor env p b.Kernel
    match env.stat kPath with
    | StatResult.found regular =>
      if !regular then
        e.Errorf ("bootenv: " ++ b.Name ++ ": invalid kernel " ++ b.Kernel ++ " (" ++ kPath ++ ")")
      else e
    | _ => e.Errorf ("bootenv: " ++ b.Name ++ ": missing kernel " ++ b.Kernel ++ " (" ++ kPath ++ ")")
  else e

/-- The part of `BeforeSave` that checks one initrd. -/
def BootEnv.BeforeSave.initrd (env : Env) (p : DataTracker) (b : BootEnv) (e : Error)
    (initrd : String) : Error :=
  let iPath := b.localPathFor env p initrd
  match env.stat iPath with
  | StatResult.found regular =>
    if !regular then
      e.Errorf ("bootenv: " ++ b.Name ++ ": invalid initrd " ++ initrd ++ " (" ++ iPath ++ ")")
    else e
  | _ => e.Errorf ("bootenv: " ++ b.Name ++ ": missing initrd " ++ initrd ++ " (" ++ iPath ++ ")")

/-- The checks of `BeforeSave` that follow a successful `genRoot`. -/
def BootEnv.BeforeSave.checks (env : Env) (p : DataTracker) (b : BootEnv) (e : Error) :
    BootEnv × Error :=
  let e := BootEnv.BeforeSave.bootLoaders b e
  let r := if b.OS.IsoFile ≠ "" then b.explodeIso env p e else (b, e)
  let e := BootEnv.BeforeSave.kernel env p r.1 r.2
  (r.1, b.Initrds.foldl (BootEnv.BeforeSave.initrd env p r.1) e)

/-- `b.BeforeSave()`. -/
def BootEnv.BeforeSave (env : Env) (p : DataTracker) (b : BootEnv) : BootEnv × Option Error :=
  let g := BootEnv.genRoot env p.rootTemplate b { Code := 422, Typ := ValidationError }
  match g.root with
  | none => (g.b, some g.e)
  | some root =>
    let r := BootEnv.BeforeSave.checks env p { g.b with rootTemplate := some root } g.e
    ({ r.1 with Errors := r.2.Messages, Available := decide (r.2.Messages.length = 0) }, none)

/-- The loop of `Render` over the templates: the path of every entry is
rendered; an entry whose path fails to render is recorded and leaves its slot
unset. -/
def BootEnv.Render.paths (env : Env) (p : DataTracker) (m : Option Machine) (b : BootEnv) :
    List TemplateInfo → Error → Renderers × Error
  | [], e => ([], e)
  | ti :: rest, e =>
    match env.execPath p m b ti with
    | Except.error err =>
      let r := BootEnv.Render.paths env p m b rest
        (e.Errorf ("Error rendering template " ++ ti.Name ++ " path " ++ ti.Path ++ ": " ++ err))
      (none :: r.1, r.2)
    | Except.ok out =>
      let r := BootEnv.Render.paths env p m b rest e
      (some { id := ti.id, path := env.pathClean ("/" ++ out) } :: r.1, r.2)

/-- `b.Render(m, e)`: the renderers of the boot environment for the machine,
`[]` standing for `nil`. -/
def BootEnv.Render (env : Env) (p : DataTracker) (b : BootEnv) (m : Option Machine) (e : Error) :
    Renderers × Error :=
  if b.RequiredParams.length > 0 ∧ m = none then
    ([], e.Errorf "Machine is nil or does not have params")
  else
    let missingParams := b.RequiredParams.filter (fun param => !env.paramExists p m b param)
    let e :=
      if missingParams.length > 0 then
        e.Errorf ("missing required machine params for " ++ (m.map Machine.Name).getD "" ++
          ":\n [" ++ " ".intercalate missingParams ++ "]")
      else e
    BootEnv.Render.paths env p m b b.Templates e

/-- The result of a hook that works on the virtual filesystem and on the
machines store: the receiver, the machines and the filesystem operations. -/
structure FollowUp where
  b : BootEnv
  machines : List Machine
  ops : List FSOp

/-- The loop of `followUpSave` over the machines: every machine that uses the
boot environment is rendered; a failed render is recorded on the machine. -/
def BootEnv.followUpSave.machines (env : Env) (p : DataTracker) (b : BootEnv) :
    List Machine → List Machine × List FSOp
  | [] => ([], [])
  | machine :: rest =>
    let r := BootEnv.followUpSave.machines env p b rest
    if machine.BootEnv ≠ b.Name then (machine :: r.1, r.2)
    else
      let rd := b.Render env p (some machine) {}
      if rd.2.ContainsError then ({ machine with Errors := rd.2.Messages } :: r.1, r.2)
      else (machine :: r.1, FSOp.register rd.1 :: r.2)

/-- `b.followUpSave()`. -/
def BootEnv.followUpSave (env : Env) (p : DataTracker) (b : BootEnv) : FollowUp :=
  if b.OnlyUnknown then
    let rd := b.Render env p none {}
    if rd.2.ContainsError then
      { b := { b with Errors := rd.2.Messages }, machines := p.machines, ops := [] }
    else { b := b, machines := p.machines, ops := [FSOp.register rd.1] }
  else
    let r := BootEnv.followUpSave.machines env p b p.machines
    { b := b, machines := r.1, ops := r.2 }

/-- `b.AfterDelete()`. -/
def BootEnv.AfterDelete (env : Env) (p : DataTracker) (b : BootEnv) : FollowUp :=
  if b.OnlyUnknown then
    let rd := b.Render env p none {}
    if rd.2.ContainsError then
      { b := { b with Errors := rd.2.Messages }, machines := p.machines, ops := [] }
    else { b := b, machines := p.machines, ops := [FSOp.deregister rd.1] }
  else { b := b, machines := p.machines, ops := [] }

/-! ## machines.go -/

def Profile.Key (pr : Profile) : String := pr.Name

def Task.Key (t : Task) : String := t.Name

/-- `bootenvs.Find(key)`. -/
def DataTracker.findBootEnv (p : DataTracker) (key : String) : Option BootEnv :=
  p.bootenvs.find? (fun b => b.Key == key)

/-- `profiles.Find(key)`. -/
def DataTracker.findProfile (p : DataTracker) (key : String) : Option Profile :=
  p.profiles.find? (fun pr => pr.Key == key)

/-- `tasks.Find(key)`. -/
def DataTracker.findTask (p : DataTracker) (key : String) : Option Task :=
  p.tasks.find? (fun t => t.Key == key)

/-- The first part of `Validate`: the checks of the uuid and the name. -/
def Machine.Validate.fields (env : Env) (n : Machine) (e : Error) : Error :=
  let e :=
    if n.Uuid = none then
      e.Errorf ("Machine " ++ env.machineRepr n ++ " was not assigned a uuid!")
    else e
  if n.Name = "" then e.Errorf ("Machine " ++ n.UUID ++ " must have a name") else e

/-- The assignment of the default boot environment in `Validate`. -/
def Machine.Validate.defaulted (p : DataTracker) (n : Machine) : Machine :=
  if n.BootEnv = "" then { n with BootEnv := p.defaultBootEnv } else n

/-- The loop of `Validate` over the profiles, from index `i` on;
`wantedProfiles` maps the names seen so far to their index. -/
def Machine.Validate.profiles (p : DataTracker) :
    Nat → List String → List (String × Nat) → Error → Error
  | _, [], _, e => e
  | i, profileName :: rest, wantedProfiles, e =>
    match p.findProfile profileName with
    | none =>
      Machine.Validate.profiles p (i + 1) rest wantedProfiles
        (e.Errorf ("Profile " ++ profileName ++ " (at " ++ toString i ++ ") does not exist"))
    | some _ =>
      match wantedProfiles.lookup profileName with
      | some alreadyAt =>
        Machine.Validate.profiles p (i + 1) rest wantedProfiles
          (e.Errorf ("Duplicate profile " ++ profileName ++ ": at " ++ toString alreadyAt ++
            " and " ++ toString i))
      | none =>
        Machine.Validate.profiles p (i + 1) rest ((profileName, i) :: wantedProfiles) e

/-- The loop of `Validate` over the tasks, from index `i` on. -/
def Machine.Validate.tasks (p : DataTracker) : Nat → List String → Error → Error
  | _, [], e => e
  | i, taskName :: rest, e =>
    Machine.Validate.tasks p (i + 1) rest
      (if (p.findTask taskName).isNone then
        e.Errorf ("Task " ++ taskName ++ " (at " ++ toString i ++ ") does not exist")
       else e)

/-- The last part of `Validate`: the boot environment must exist. -/
def Machine.Validate.bootEnv (p : DataTracker) (n : Machine) (e : Error) : Error :=
  if (p.findBootEnv n.BootEnv).isNone then
    e.Errorf ("Bootenv " ++ n.BootEnv ++ " does not exist")
  else e

/-- The error `Validate` has built when it returns. -/
def Machine.Validate.error (env : Env) (p : DataTracker) (n : Machine) : Error :=
  let e : Error := { Code := 422, Typ := ValidationError }
  let e := Machine.Validate.fields env n e
  let n := Machine.Validate.defaulted p n
  let e := e.addAll (env.validateMaybeZeroIP4 n.Address)
  let e := e.Merge (env.checkUnique n p.machines)
  let e := Machine.Validate.profiles p 0 n.Profiles [] e
  let e := Machine.Validate.tasks p 0 n.Tasks e
  Machine.Validate.bootEnv p n e

/-- `n.Validate()`: the machine, with its boot environment defaulted, and the
error. -/
def Machine.Validate (env : Env) (p : DataTracker) (n : Machine) : Machine × Option Error :=
  (Machine.Validate.defaulted p n, (Machine.Validate.error env p n).OrNil)

/-- The result of `Machine.BeforeSave`: the machine, the operations on the
virtual filesystem and the error. -/
structure Saved where
  n : Machine
  ops : List FSOp
  err : Option Error

/-- The part of `BeforeSave` that checks the flags of the boot environment. -/
def Machine.BeforeSave.flags (n : Machine) (env_ : Provision.BootEnv) (e : Error) : Error :=
  let e :=
    if env_.OnlyUnknown then
      e.Errorf ("BootEnv " ++ env_.Name ++
        " does not allow Machine assignments, it has the OnlyUnknown flag.")
    else e
  if !env_.Available then
    e.Errorf ("Machine " ++ n.UUID ++ " wants BootEnv " ++ n.BootEnv ++ ", which is not available")
  else e

/-- The part of `BeforeSave` that renders: nothing when the old boot environment
exists and has the name of the new one, the old renders deregistered and the
new ones registered when the names differ, the new ones registered when there is
no old boot environment. -/
def Machine.BeforeSave.render (env : Env) (p : DataTracker) (n : Machine)
    (env_ : Provision.BootEnv) (oldEnv : Option Provision.BootEnv) (e : Error) :
    List FSOp × Error :=
  match oldEnv with
  | some oldEnv =>
    if oldEnv.Name ≠ env_.Name then
      let r1 := oldEnv.Render env p (some n) e
      let r2 := env_.Render env p (some n) r1.2
      ([FSOp.deregister r1.1, FSOp.register r2.1], r2.2)
    else ([], e)
  | none =>
    let r := env_.Render env p (some n) e
    ([FSOp.register r.1], r.2)

/-- `n.BeforeSave()`. -/
def Machine.BeforeSave (env : Env) (p : DataTracker) (n : Machine) : Saved :=
  match Machine.Validate env p n with
  | (n, some err) => { n := n, ops := [], err := some err }
  | (n, none) =>
    let e : Error := { Code := 422, Typ := ValidationError }
    match p.findBootEnv n.BootEnv with
    | none =>
      { n := n, ops := [], err := some (e.Errorf ("Bootenv " ++ n.BootEnv ++ " does not exist")) }
    | some env_ =>
      let oldEnv := p.findBootEnv n.oldBootEnv
      let e := Machine.BeforeSave.flags n env_ e
      if !e.ContainsError then
        let r := Machine.BeforeSave.render env p n env_ oldEnv e
        { n := n, ops := r.1, err := r.2.OrNil }
      else { n := n, ops := [], err := e.OrNil }

/-- `n.OnChange(old)`. -/
def Machine.OnChange (n old : Machine) : Machine × Option Error :=
  ({ n with oldBootEnv := old.BootEnv }, none)

/-- `n.OnCreate()`. -/
def Machine.OnCreate (n : Machine) : Machine × Option Error :=
  ({ n with Runnable := true }, none)

/-- The reference faults of a machine: a profile that does not exist, a profile
listed twice, a task that does not exist, or a boot environment (the default
one when the machine names none) that does not exist. -/
def Machine.referenceFault (p : DataTracker) (n : Machine) : Prop :=
  (∃ name ∈ n.Profiles, p.findProfile name = none) ∨ ¬n.Profiles.Nodup ∨
    (∃ name ∈ n.Tasks, p.findTask name = none) ∨
    p.findBootEnv (Machine.Validate.defaulted p n).BootEnv = none

/-! ## dhcp.go -/

/-- The options of a packet (`dhcp.Options`): a map from code to value, kept as
an association list without repeated codes. -/
abbrev Options := List (Nat × List Nat)

/-- `o[c] = v` on a map of options. -/
def Options.set (o : Options) (c : Nat) (v : List Nat) : Options :=
  if (o.lookup c).isSome then o.map (fun kv => if kv.1 == c then (c, v) else kv)
  else o ++ [(c, v)]

/-- A DHCP packet (`dhcp.Packet`): the fixed fields the handler reads or writes
and the options in wire order. -/
structure Packet where
  OpCode : Nat := 1
  HLen : Nat := 6
  XId : List Nat := [0, 0, 0, 0]
  Flags : List Nat := [0, 0]
  CIAddr : IP := [0, 0, 0, 0]
  YIAddr : IP := [0, 0, 0, 0]
  SIAddr : IP := [0, 0, 0, 0]
  GIAddr : IP := [0, 0, 0, 0]
  CHAddr : List Nat := []
  Options : List (Nat × List Nat) := []
deriving DecidableEq, Repr

/-- `p.ParseOptions()`: the options of the packet as a map, a later occurrence
of a code replacing an earlier one. -/
def Packet.ParseOptions (p : Packet) : Provision.Options :=
  p.Options.foldl (fun m kv => Options.set m kv.1 kv.2) []

/-- `p.Broadcast()`: the broadcast flag. -/
def Packet.Broadcast (p : Packet) : Bool := decide (p.Flags.getD 0 0 > 127)

/-- The message type a reply was built with: its first option 53. -/
def Packet.MessageType (p : Packet) : Option (List Nat) := p.Options.lookup 53

def BootReply : Nat := 2

def Discover : Nat := 1

def Offer : Nat := 2

def Request : Nat := 3

def Decline : Nat := 4

def ACK : Nat := 5

def NAK : Nat := 6

def Release : Nat := 7

def Inform : Nat := 8

def OptionRequestedIPAddress : Nat := 50

def OptionIPAddressLeaseTime : Nat := 51

def OptionDHCPMessageType : Nat := 53

def OptionServerIdentifier : Nat := 54

def OptionParameterRequestList : Nat := 55

def OptionRenewalTimeValue : Nat := 58

def OptionRebindingTimeValue : Nat := 59

/-- The four bytes a 4-byte field of a packet holds after `copy(field, ip)` on a
fresh packet. -/
def copy4 (ip : IP) : IP := (ip ++ [0, 0, 0, 0]).take 4

/-- The four bytes an address field of a fresh packet holds after one of the
setters `SetYIAddr`, `SetSIAddr`, `SetGIAddr`, which copy `ip.To4()`. -/
def setAddr (ip : IP) : IP := copy4 (IP.To4 ip)

/-- `binary.BigEndian.PutUint32`: the four bytes of a 32-bit number. -/
def putUint32 (v : Nat) : List Nat :=
  [v / 16777216 % 256, v / 65536 % 256, v / 256 % 256, v % 256]

/-- `o.SelectOrder(order)`. -/
def Options.SelectOrder (o : Provision.Options) (order : List Nat) : List (Nat × List Nat) :=
  order.filterMap (fun v => (o.lookup v).map (fun data => (v, data)))

/-- `o.SelectOrderOrAll(order)`, `none` standing for a `nil` order; the order of
"all" is the order of the association list. -/
def Options.SelectOrderOrAll (o : Provision.Options) (order : Option (List Nat)) :
    List (Nat × List Nat) :=
  match order with
  | none => o
  | some order => Options.SelectOrder o order

/-- `dhcp.ReplyPacket(req, mt, serverId, yIAddr, leaseDuration, options)`, the
lease duration in seconds. -/
def ReplyPacket (req : Packet) (mt : Nat) (serverId yIAddr : IP) (leaseDuration : Nat)
    (options : List (Nat × List Nat)) : Packet :=
  { OpCode := BootReply
    XId := req.XId
    Flags := req.Flags
    YIAddr := setAddr yIAddr
    GIAddr := setAddr req.GIAddr
    CHAddr := req.CHAddr
    HLen := req.CHAddr.length
    Options :=
      [(OptionDHCPMessageType, [mt % 256]), (OptionServerIdentifier, serverId)] ++
        (if leaseDuration > 0 then [(OptionIPAddressLeaseTime, putUint32 leaseDuration)] else []) ++
        options }

/-- `reply.SetSIAddr(ip)`. -/
def Packet.SetSIAddr (p : Packet) (ip : IP) : Packet := { p with SIAddr := setAddr ip }

/-- What `FindLease` and `FindOrCreateLease` return, with the tracker they
leave. -/
structure FindResult where
  lease : Option Lease := none
  subnet : Option Subnet := none
  reservation : Option Reservation := none
  err : Option String := none
  bk : DataTracker

/-- Behaviour of the lease helpers of the backend and of the option helpers,
which are declared outside the embedded files. Every theorem holds for every
`LeaseBackend` unless it names one. -/
structure LeaseBackend where
  /-- Result of `backend.FindLease(dt, strat, token, req)`, the clock reading
  `now`. -/
  FindLease : Time → DataTracker → String → String → IP → FindResult
  /-- Result of `backend.FindOrCreateLease(dt, strat, token, req, via)`, the
  clock reading `now`. -/
  FindOrCreateLease : Time → DataTracker → String → String → IP → List IP → FindResult
  /-- Result of `s.LeaseTimeFor(addr)`, a duration in nanoseconds. -/
  LeaseTimeFor : Subnet → IP → Int
  /-- Result of `opt.RenderToDHCP(srcOpts)` for the options of the request: the
  code and value, or the error. -/
  RenderToDHCP : DhcpOption → Provision.Options → Except String (Nat × List Nat)

/-- Modelled from the spec: `FindLease` is declared outside the embedded files.
The lease keyed by the requested address is looked up; when absent nothing is
returned; when it is not expired and its strategy or token is not the
requester's the call fails with a conflict; otherwise the lease is returned with
the subnet that contains it and the reservation keyed by its address. -/
def FindLease (now : Time) (dt : DataTracker) (strat token : String) (req : IP) : FindResult :=
  match dt.leases.find? (fun l => l.Key == Hexaddr req) with
  | none => { bk := dt }
  | some l =>
    if !l.Expired now && (l.Token != token || l.Strategy != strat) then
      { lease := some l, err := some ("Lease for " ++ l.Key ++ " owned by " ++ l.Strategy ++ ":" ++
          l.Token), bk := dt }
    else
      { lease := some l, subnet := Lease.Subnet dt l, reservation := Lease.Reservation dt l,
        bk := dt }

/-- A `Strategy`: a name and the function from a packet and its options to a
token. -/
structure Strategy where
  Name : String
  GenToken : Packet → Provision.Options → String

/-- `MacStrategy`: the hardware address, in the text form of `CHAddr().String()`
(two lowercase hexadecimal digits per byte, separated by colons). -/
def MacStrategy (p : Packet) (_options : Provision.Options) : String :=
  ":".intercalate (p.CHAddr.map (fun b =>
    String.mk [(Nat.toDigits 16 (b % 256 / 16)).getD 0 '0', (Nat.toDigits 16 (b % 16)).getD 0 '0']))

/-- The `DhcpHandler`: the strategies, the data tracker, and `addrs`, the
networks `listenAddrs()` returns for the interface the packet came in on (each
with the address of the interface as its IP). -/
structure DhcpHandler where
  ifs : List String := []
  strats : List Strategy := []
  bk : DataTracker := {}
  addrs : List IPNet := []

def DhcpHandler.listenAddrs (h : DhcpHandler) : List IPNet := h.addrs

/-- `h.listenIPs()`. -/
def DhcpHandler.listenIPs (h : DhcpHandler) : List IP :=
  h.listenAddrs.map (fun addr => IP.To4 addr.IP)

/-- `h.respondFrom(testAddr)`. -/
def DhcpHandler.respondFrom (h : DhcpHandler) (testAddr : IP) : IP :=
  match h.listenAddrs.find? (fun addr => addr.Contains testAddr) with
  | some addr => IP.To4 addr.IP
  | none =>
    match h.listenAddrs with
    | addr :: _ => IP.To4 addr.IP
    | [] => IP.To4 h.bk.OurAddress

/-- `h.listenOn(testAddr)`. -/
def DhcpHandler.listenOn (h : DhcpHandler) (testAddr : IP) : Bool :=
  h.listenAddrs.any (fun addr => addr.Contains testAddr)

/-- `h.Strategy(name)`. -/
def DhcpHandler.Strategy (h : DhcpHandler) (name : String) :
    Option (Packet → Provision.Options → String) :=
  (h.strats.find? (fun s => s.Name == name)).map (fun s => s.GenToken)

/-- `h.nak(p, addr)`. -/
def DhcpHandler.nak (p : Packet) (addr : IP) : Packet := ReplyPacket p NAK addr [] 0 []

def reqInit : Nat := 0

def reqSelecting : Nat := 1

def reqInitReboot : Nat := 2

def reqRenewing : Nat := 3

/-- `reqAddr(p, msgType, options)`. -/
def reqAddr (p : Packet) (msgType : Nat) (options : Provision.Options) : IP × Nat :=
  let addr :=
    match options.lookup OptionRequestedIPAddress with
    | some reqBytes => reqBytes
    | none => p.CIAddr
  let haveReq := (options.lookup OptionRequestedIPAddress).isSome
  let haveSI := (options.lookup OptionServerIdentifier).isSome
  let state :=
    if msgType = Request then
      if haveSI then reqSelecting else if haveReq then reqInitReboot else reqRenewing
    else reqInit
  (addr, state)

/-- The loop of `buildOptions` over the option directives of a subnet or a
reservation: a directive with an empty value or one that fails to render is
skipped, the others are set. -/
def DhcpHandler.buildOptions.overlay (lb : LeaseBackend) (srcOpts : Provision.Options) :
    List DhcpOption → Provision.Options → Provision.Options
  | [], opts => opts
  | opt :: rest, opts =>
    if opt.Value = "" then DhcpHandler.buildOptions.overlay lb srcOpts rest opts
    else
      match lb.RenderToDHCP opt srcOpts with
      | Except.error _ => DhcpHandler.buildOptions.overlay lb srcOpts rest opts
      | Except.ok (c, v) => DhcpHandler.buildOptions.overlay lb srcOpts rest (Options.set opts c v)

/-- The lease time of `buildOptions`, in seconds, as a 32-bit number. -/
def DhcpHandler.buildOptions.leaseTime (lb : LeaseBackend) (l : Lease) (s : Option Subnet) : Nat :=
  match s with
  | none => 7200
  | some s => (Int.tdiv (lb.LeaseTimeFor s l.Addr) Second % 4294967296).toNat

/-- `h.buildOptions(p, l, s, r)`: the options, the lease duration in seconds and
the next server. -/
def DhcpHandler.buildOptions (lb : LeaseBackend) (h : DhcpHandler) (p : Packet) (l : Lease)
    (s : Option Subnet) (r : Option Reservation) : Provision.Options × Nat × IP :=
  let leaseTime := DhcpHandler.buildOptions.leaseTime lb l s
  let srcOpts := p.ParseOptions
  let opts : Provision.Options := []
  let opts := Options.set opts OptionRenewalTimeValue (putUint32 (leaseTime / 2))
  let opts := Options.set opts OptionRebindingTimeValue (putUint32 (leaseTime * 3 % 4294967296 / 4))
  let nextServer := h.respondFrom l.Addr
  let opts :=
    match s with
    | none => opts
    | some s => DhcpHandler.buildOptions.overlay lb srcOpts s.Options opts
  let nextServer :=
    match s with
    | none => nextServer
    | some s => if IP.IsGlobalUnicast s.NextServer then s.NextServer else nextServer
  let opts :=
    match r with
    | none => opts
    | some r => DhcpHandler.buildOptions.overlay lb srcOpts r.Options opts
  let nextServer :=
    match r with
    | none => nextServer
    | some r => if IP.IsGlobalUnicast r.NextServer then r.NextServer else nextServer
  (opts, leaseTime, nextServer)

/-- The outcome of the loop of the Request case over the strategies. -/
inductive Found where
  | failed (lease : Option Lease) (err : String) (bk : DataTracker)
  | lease (l : Lease) (subnet : Option Subnet) (reservation : Option Reservation)
      (bk : DataTracker)
  | nothing (bk : DataTracker)

/-- The loop of the Request case over the strategies: the first strategy for
which `FindLease` fails ends the loop with the failure, the first for which it
returns a lease ends it with the lease. -/
def DhcpHandler.ServeDHCP.findLease (lb : LeaseBackend) (now : Time) (p : Packet)
    (options : Provision.Options) (req : IP) : List Provision.Strategy → DataTracker → Found
  | [], bk => Found.nothing bk
  | s :: rest, bk =>
    let r := lb.FindLease now bk s.Name (s.GenToken p options) req
    match r.err with
    | some err => Found.failed r.lease err r.bk
    | none =>
      match r.lease with
      | some l => Found.lease l r.subnet r.reservation r.bk
      | none => DhcpHandler.ServeDHCP.findLease lb now p options req rest r.bk

/-- The Request case of `ServeDHCP`. -/
def DhcpHandler.ServeDHCP.request (lb : LeaseBackend) (h : DhcpHandler) (now : Time) (p : Packet)
    (options : Provision.Options) (req : IP) (reqState : Nat) : Option Packet × DataTracker :=
  let ok := (options.lookup OptionServerIdentifier).isSome
  let server : IP := (options.lookup OptionServerIdentifier).getD []
  if ok && !h.listenOn server then (none, h.bk)
  else if !IP.IsGlobalUnicast req then (some (DhcpHandler.nak p (h.respondFrom req)), h.bk)
  else
    match DhcpHandler.ServeDHCP.findLease lb now p options req h.strats h.bk with
    | Found.failed _ _ bk => (some (DhcpHandler.nak p (h.respondFrom req)), bk)
    | Found.nothing bk =>
      if reqState = reqInitReboot then (none, bk)
      else (some (DhcpHandler.nak p (h.respondFrom req)), bk)
    | Found.lease lease subnet reservation bk =>
      let b := DhcpHandler.buildOptions lb h p lease subnet reservation
      let reply := ReplyPacket p ACK (h.respondFrom lease.Addr) lease.Addr b.2.1
        (Options.SelectOrderOrAll b.1 (b.1.lookup OptionParameterRequestList))
      (some (if IP.IsGlobalUnicast b.2.2 then reply.SetSIAddr b.2.2 else reply), bk)

/-- The leases after the first lease keyed `key`, the one `Find` returns, has
been changed in place. -/
def updateFound (key : String) (f : Lease → Lease) : List Lease → List Lease
  | [] => []
  | l :: rest => if l.Key == key then f l :: rest else l :: updateFound key f rest

/-- The tracker after the lease keyed `key` has been changed in place: `Find`
returns the stored lease itself, so what `Invalidate` and `Expire` assign is
what the store holds; what `Save` persists is not part of the model. -/
def DataTracker.updateLease (bk : DataTracker) (key : String) (f : Lease → Lease) : DataTracker :=
  { bk with leases := updateFound key f bk.leases }

/-- The Decline and Release cases of `ServeDHCP`: the lease keyed by the address
is changed by `change` when its strategy is configured and gives the token of
the lease for the packet. -/
def DhcpHandler.ServeDHCP.giveUp (h : DhcpHandler) (p : Packet) (options : Provision.Options)
    (req : IP) (change : Lease → Lease) : Option Packet × DataTracker :=
  match h.bk.leases.find? (fun l => l.Key == Hexaddr req) with
  | none => (none, h.bk)
  | some lease =>
    match h.Strategy lease.Strategy with
    | some stratfn =>
      if stratfn p options = lease.Token then (none, h.bk.updateLease (Hexaddr req) change)
      else (none, h.bk)
    | none => (none, h.bk)

/-- The Discover case of `ServeDHCP`: the first strategy for which
`FindOrCreateLease` returns a lease answers with an Offer. -/
def DhcpHandler.ServeDHCP.discover (lb : LeaseBackend) (h : DhcpHandler) (now : Time) (p : Packet)
    (options : Provision.Options) (req : IP) : List Provision.Strategy → DataTracker →
    Option Packet × DataTracker
  | [], bk => (none, bk)
  | s :: rest, bk =>
    let via : List IP :=
      if p.GIAddr = [] ∨ IP.IsUnspecified p.GIAddr then h.listenIPs else [p.GIAddr]
    let r := lb.FindOrCreateLease now bk s.Name (s.GenToken p options) req via
    match r.lease with
    | some lease =>
      let b := DhcpHandler.buildOptions lb h p lease r.subnet r.reservation
      (some (ReplyPacket p Offer (h.respondFrom lease.Addr) lease.Addr b.2.1
        (Options.SelectOrderOrAll b.1 (b.1.lookup OptionParameterRequestList))), r.bk)
    | none => DhcpHandler.ServeDHCP.discover lb h now p options req rest r.bk

/-- `h.ServeDHCP(p, msgType, options)`, the clock reading `now`: the reply, if
any, and the tracker the handler leaves. -/
def DhcpHandler.ServeDHCP (lb : LeaseBackend) (h : DhcpHandler) (now : Time) (p : Packet)
    (msgType : Nat) (options : Provision.Options) : Option Packet × DataTracker :=
  let ra := reqAddr p msgType options
  if msgType = Decline then
    DhcpHandler.ServeDHCP.giveUp h p options ra.1 (Lease.Invalidate now)
  else if msgType = Release then
    DhcpHandler.ServeDHCP.giveUp h p options ra.1 (Lease.Expire now)
  else if msgType = Request then
    DhcpHandler.ServeDHCP.request lb h now p options ra.1 ra.2
  else if msgType = Discover then
    DhcpHandler.ServeDHCP.discover lb h now p options ra.1 h.strats h.bk
  else (none, h.bk)

/-! ## `HexAddress`, the option map, the reply destination and `AfterSave` -/

/-- `n.HexAddress()`. -/
def Machine.HexAddress (n : Machine) : String := Hexaddr n.Address

/-- The uppercase hexadecimal digit of a number below 16, by its character
code: `0`..`9` are 48..57 and `A`..`F` are 65..70. -/
def hexChar (k : Nat) : Char := if k < 10 then Char.ofNat (48 + k) else Char.ofNat (55 + k)

/-- The condition under which the Decline and Release cases change the lease:
the lease keyed by the address exists, its strategy is a configured one, and
that strategy gives the token of the lease for the packet. -/
def DhcpHandler.ownsLease (h : DhcpHandler) (p : Packet) (options : Provision.Options)
    (a : IP) : Bool :=
  match h.bk.leases.find? (fun l => l.Key == Hexaddr a) with
  | none => false
  | some lease =>
    match h.strats.find? (fun s => s.Name == lease.Strategy) with
    | none => false
    | some s => s.GenToken p options == lease.Token

/-- The value the directives of a subnet or a reservation give to the code `c`:
the value of the last directive with a non-empty value that renders without
error to the code `c`, if there is one. -/
def DhcpHandler.buildOptions.rendered (lb : LeaseBackend) (srcOpts : Provision.Options) :
    List DhcpOption → Nat → Option (List Nat)
  | [], _ => none
  | opt :: rest, c =>
    match DhcpHandler.buildOptions.rendered lb srcOpts rest c with
    | some v => some v
    | none =>
      if opt.Value = "" then none
      else
        match lb.RenderToDHCP opt srcOpts with
        | Except.error _ => none
        | Except.ok (c', v) => if c' = c then some v else none

/-- The values `buildOptions` derives from the lease time `leaseTime`, a 32-bit
number of seconds: the renewal time for code 58 and the rebinding time for code
59. -/
def DhcpHandler.buildOptions.derived (leaseTime : Nat) (c : Nat) : Option (List Nat) :=
  if c = OptionRenewalTimeValue then some (putUint32 (leaseTime / 2))
  else if c = OptionRebindingTimeValue then some (putUint32 (leaseTime * 3 % 4294967296 / 4))
  else none

/-- The next server as the specification words it: the next server of the
reservation if there is a reservation and its next server is a global unicast
address, otherwise that of the subnet if there is a subnet and its next server
is a global unicast address, otherwise the listen address for the lease. -/
def DhcpHandler.chosenNextServer (h : DhcpHandler) (l : Lease) (s : Option Subnet)
    (r : Option Reservation) : IP :=
  match r with
  | some res =>
    if IP.IsGlobalUnicast res.NextServer then res.NextServer
    else
      match s with
      | some sub =>
        if IP.IsGlobalUnicast sub.NextServer then sub.NextServer else h.respondFrom l.Addr
      | none => h.respondFrom l.Addr
  | none =>
    match s with
    | some sub =>
      if IP.IsGlobalUnicast sub.NextServer then sub.NextServer else h.respondFrom l.Addr
    | none => h.respondFrom l.Addr

/-- A `net.UDPAddr`: an address and a port. -/
structure UDPAddr where
  IP : IP
  Port : Nat
deriving DecidableEq, Repr

/-- What one `ReadFrom` of `Serve` returns: the number of bytes read, the packet
they hold, the source address and the name of the interface the packet came in
on. -/
structure Datagram where
  cnt : Nat
  req : Packet
  srcAddr : UDPAddr
  ifName : String

/-- The destination of a reply in `Serve`: the relay when the packet came
through one, the broadcast address when the source address is unspecified or
the client asks for a broadcast, the source of the packet otherwise. -/
def DhcpHandler.Serve.destination (srcAddr : UDPAddr) (req : Packet) : UDPAddr :=
  if Provision.IP.Equal req.GIAddr IPv4zero then
    if Provision.IP.Equal srcAddr.IP IPv4zero || req.Broadcast then
      { IP := IPv4bcast, Port := srcAddr.Port }
    else srcAddr
  else { IP := req.GIAddr, Port := srcAddr.Port }

/-- One round of the loop of `Serve` on a datagram that was read without error:
short packets, packets with a long hardware address, packets without a message
type from Discover to Inform and packets from an interface that is not served
are dropped; the reply of `ServeDHCP`, if any, is sent to the destination. -/
def DhcpHandler.Serve.step (env : Env) (lb : LeaseBackend) (h : DhcpHandler) (now : Time)
    (d : Datagram) : Option (Packet × UDPAddr) × DataTracker :=
  if d.cnt < 240 then (none, h.bk)
  else if d.req.HLen > 16 then (none, h.bk)
  else
    let options := d.req.ParseOptions
    match options.lookup OptionDHCPMessageType with
    | some [reqType] =>
      if reqType < Discover ∨ reqType > Inform then (none, h.bk)
      else if h.ifs.length > 0 ∧ !h.ifs.any (fun ifName => env.trimSpace ifName == d.ifName) then
        (none, h.bk)
      else
        match DhcpHandler.ServeDHCP lb h now d.req reqType options with
        | (some res, bk) => (some (res, DhcpHandler.Serve.destination d.srcAddr d.req), bk)
        | (none, bk) => (none, bk)
    | _ => (none, h.bk)

/-- `AsBootEnv(o)` of bootenv.go: the type assertion `o.(*BootEnv)`, which fails
when the object is `nil`. -/
abbrev AsBootEnv (o : Option BootEnv) : Option BootEnv := o

/-- Modelled from the spec: `AsProfile` is declared outside the embedded files;
like `AsBootEnv`, `AsMachine`, `AsLease` and `AsPlugin` of the embedded files it
is the type assertion `o.(*Profile)`, which fails when the object is `nil`. -/
abbrev AsProfile (o : Option Profile) : Option Profile := o

/-- The tasks of the profiles named in the list, in list order; `none` when a
profile of the list does not exist (`AsProfile` of a missing profile fails). -/
def Machine.AfterSave.profileTasks (p : DataTracker) : List String → Option (List String)
  | [] => some []
  | pname :: rest =>
    match AsProfile (p.findProfile pname) with
    | none => none
    | some prof =>
      match Machine.AfterSave.profileTasks p rest with
      | none => none
      | some tasks => some (prof.Tasks ++ tasks)

/-- What `AfterSave` leaves: the machine, and whether it saved the machine
again. -/
structure AfterSaved where
  n : Machine
  resave : Bool
deriving DecidableEq, Repr

/-- `n.AfterSave()`: `none` when it fails, which it does when the boot
environment, a profile of the list or the global profile does not exist (the
conversion of a missing object fails). -/
def Machine.AfterSave (p : DataTracker) (n : Machine) : Option AfterSaved :=
  if n.oldBootEnv ≠ n.BootEnv then
    match AsBootEnv (p.findBootEnv n.BootEnv) with
    | none => none
    | some env =>
      match Machine.AfterSave.profileTasks p n.Profiles with
      | none => none
      | some profileTasks =>
        match AsProfile (p.findProfile p.GlobalProfileName) with
        | none => none
        | some gprof =>
          let taskList := [] ++ env.Tasks ++ profileTasks ++ gprof.Tasks
          some
            { n := { n with
                Tasks := taskList
                CurrentTask := if taskList.length = 0 then 0 else -1
                oldBootEnv := n.BootEnv }
              resave := true }
  else some { n := n, resave := false }

/-- The value the configuration gives to the code `c`: the value the directives
of the reservation render for it, or else the value the directives of the
subnet render for it. -/
def DhcpHandler.buildOptions.configured (lb : LeaseBackend) (srcOpts : Provision.Options)
    (s : Option Subnet) (r : Option Reservation) (c : Nat) : Option (List Nat) :=
  match r.bind (fun res => DhcpHandler.buildOptions.rendered lb srcOpts res.Options c) with
  | some v => some v
  | none => s.bind (fun sub => DhcpHandler.buildOptions.rendered lb srcOpts sub.Options c)

/-! ## Saving a machine -/

/-- Modelled from the spec: the machines store is declared outside the embedded
files; persisting a machine replaces the stored machine with its key, or adds
the machine when the key is new. -/
def DataTracker.storeMachine (p : DataTracker) (n : Machine) : DataTracker :=
  { p with
    machines :=
      if p.machines.any (fun m => m.Key == n.Key) then
        p.machines.map (fun m => if m.Key == n.Key then n else m)
      else p.machines ++ [n] }

/-- How the saves of a machine end. -/
inductive SaveOutcome where
  /-- The saves are over: the machine they leave, the number of calls of `Save`,
  the operations on the virtual filesystem and the error of the outermost
  call. -/
  | ended (n : Machine) (saves : Nat) (ops : List FSOp) (err : Option Error)
  /-- A hook failed. -/
  | failed
  /-- The saves nest deeper than the bound allows. -/
  | unfinished
deriving DecidableEq, Repr

/-- Modelled from the spec: `DataTracker.Save` is declared outside the embedded
files; a save runs `BeforeSave` (which validates), ends there when the machine
is rejected, and otherwise persists the machine and runs `AfterSave`. The call
of `Save` at the end of `AfterSave` is the next, nested, save on the same
machine; its error is logged and dropped. `fuel` bounds the depth of the
nesting. -/
def Machine.Save (env : Env) : Nat → DataTracker → Machine → SaveOutcome
  | 0, _, _ => SaveOutcome.unfinished
  | fuel + 1, p, n =>
    let s := Machine.BeforeSave env p n
    match s.err with
    | some e => SaveOutcome.ended s.n 1 s.ops (some e)
    | none =>
      match Machine.AfterSave (p.storeMachine s.n) s.n with
      | none => SaveOutcome.failed
      | some r =>
        if r.resave then
          match Machine.Save env fuel (p.storeMachine s.n) r.n with
          | SaveOutcome.ended m k ops _ => SaveOutcome.ended m (k + 1) (s.ops ++ ops) none
          | SaveOutcome.failed => SaveOutcome.failed
          | SaveOutcome.unfinished => SaveOutcome.unfinished
        else SaveOutcome.ended r.n 1 s.ops none

/-! ## `BeforeDelete` (bootenv.go) -/

/-- The check of one preference in `BeforeDelete`; `pref` is the result of
`b.p.Pref(name)`, `none` when it returns an error. -/
def BootEnv.BeforeDelete.active (pref : String → Option String) (b : BootEnv) (name : String)
    (e : Error) : Error :=
  match pref name with
  | some v =>
    if v = b.Name then
      e.Errorf ("BootEnv " ++ v ++ " is the active " ++ name ++ ", cannot remove it")
    else e
  | none => e

/-- The loop of `BeforeDelete` over the machines: every machine that uses the
boot environment is recorded. -/
def BootEnv.BeforeDelete.machines (b : BootEnv) (e : Error) : List Machine → Error
  | [] => e
  | machine :: rest =>
    if machine.BootEnv ≠ b.Name then BootEnv.BeforeDelete.machines b e rest
    else
      BootEnv.BeforeDelete.machines b
        (e.Errorf ("Bootenv " ++ b.Name ++ " in use by Machine " ++ machine.Name)) rest

/-- `b.BeforeDelete()`; `pref` gives the result of `b.p.Pref(name)`, which is
declared outside the embedded files: the value of the preference, `none` when
the call returns an error. -/
def BootEnv.BeforeDelete (pref : String → Option String) (p : DataTracker) (b : BootEnv) :
    Option Error :=
  let e : Error := { Code := 409, Typ := StillInUseError }
  if b.OnlyUnknown then
    (BootEnv.BeforeDelete.active pref b "unknownBootEnv" e).OrNil
  else
    let e := BootEnv.BeforeDelete.active pref b "defaultBootEnv" e
    (BootEnv.BeforeDelete.machines b e p.machines).OrNil

/-- What blocks the deletion of a boot environment: for one with OnlyUnknown
set, being the active unknownBootEnv preference; for one without, being the
active defaultBootEnv preference or the boot environment of a stored machine. -/
def BootEnv.inUse (pref : String → Option String) (p : DataTracker) (b : BootEnv) : Prop :=
  if b.OnlyUnknown then pref "unknownBootEnv" = some b.Name
  else pref "defaultBootEnv" = some b.Name ∨ ∃ m ∈ p.machines, m.BootEnv = b.Name

/-! ## Parameters and indexes (machines.go, plugins.go) -/

/-- The bytes of a Go string: the UTF-8 encoding of its text. -/
def stringBytes (s : String) : List Nat :=
  s.toList.flatMap (fun c => (String.utf8EncodeChar c).map UInt8.toNat)

/-- The comparison of two byte sequences, byte by byte, a proper prefix coming
first: the comparison the operators of Go on strings compute. -/
def compareBytes : List Nat → List Nat → Ordering
  | [], [] => Ordering.eq
  | [], _ :: _ => Ordering.lt
  | _ :: _, [] => Ordering.gt
  | a :: as, b :: bs =>
    if a < b then Ordering.lt else if b < a then Ordering.gt else compareBytes as bs

/-- The Go expression `a < b` on strings. -/
def strLess (a b : String) : Bool := compareBytes (stringBytes a) (stringBytes b) == Ordering.lt

/-- The Go expression `a >= b` on strings. -/
def strGreaterEq (a b : String) : Bool :=
  compareBytes (stringBytes a) (stringBytes b) != Ordering.lt

/-- The Go expression `a > b` on strings. -/
def strGreater (a b : String) : Bool := compareBytes (stringBytes a) (stringBytes b) == Ordering.gt

/-- The index expression `v, found := m[key]` on a parameter map. -/
def mapIndex (m : List (String × Option Value)) (key : String) : Option Value × Bool :=
  match m.lookup key with
  | some v => (v, true)
  | none => (none, false)

/-- `n.GetParams()`; the empty map stands for the `nil` one. -/
def Machine.GetParams (n : Machine) : List (String × Option Value) := n.Profile.Params

/-- `n.getProfile(d, key)`. -/
def Machine.getProfile (p : DataTracker) (key : String) : Option Provision.Profile :=
  match p.findProfile key with
  | some prof => some prof
  | none => none

/-- The loop of `GetParam` over the profiles of the machine: the first existing
profile whose `GetParam(key, false)` reports the key ends the loop; `none` when
the loop runs to its end. `profileGetParam` gives the result of
`Profile.GetParam`, which is declared outside the embedded files. -/
def Machine.GetParam.profiles (profileGetParam : Provision.Profile → String → Bool → Option Value × Bool)
    (p : DataTracker) (key : String) : List String → Option (Option Value × Bool)
  | [] => none
  | e :: rest =>
    match Machine.getProfile p e with
    | some prof =>
      if (profileGetParam prof key false).2 then some ((profileGetParam prof key false).1, true)
      else Machine.GetParam.profiles profileGetParam p key rest
    | none => Machine.GetParam.profiles profileGetParam p key rest

/-- `n.GetParam(d, key, searchProfiles)`. -/
def Machine.GetParam (profileGetParam : Provision.Profile → String → Bool → Option Value × Bool)
    (p : DataTracker) (n : Machine) (key : String) (searchProfiles : Bool) :
    Option Value × Bool :=
  match n.GetParams.lookup key with
  | some v => (v, true)
  | none =>
    if searchProfiles then
      match Machine.GetParam.profiles profileGetParam p key n.Profiles with
      | some r => r
      | none =>
        match Machine.getProfile p p.GlobalProfileName with
        | some gp =>
          match gp.Params.lookup key with
          | some v => (v, true)
          | none => (none, false)
        | none => (none, false)
    else (none, false)

/-- The places a parameter of a machine is looked for, in order, each with what
it gives for the key: the parameters of the machine itself, the profiles of the
list that exist, and the global profile if it exists. -/
def Machine.GetParam.sources (profileGetParam : Provision.Profile → String → Bool → Option Value × Bool)
    (p : DataTracker) (n : Machine) (key : String) : List (Option Value × Bool) :=
  [mapIndex n.Profile.Params key] ++
    (n.Profiles.filterMap p.findProfile).map (fun prof => profileGetParam prof key false) ++
    (p.findProfile p.GlobalProfileName).toList.map (fun gp => mapIndex gp.Params key)

/-- The value of the first place that defines the key, and `(nil, false)` when
none does. -/
def Machine.GetParam.firstDefined (srcs : List (Option Value × Bool)) : Option Value × Bool :=
  match srcs.find? (fun r => r.2) with
  | some r => (r.1, true)
  | none => (none, false)

/-- The type assertion `v.(string)`; `none` when it fails. -/
def Value.assertString (v : Option Value) : Option String :=
  match v with
  | some (Value.string s) => some s
  | _ => none

/-- The type assertion `v.(bool)`; `none` when it fails. -/
def Value.assertBool (v : Option Value) : Option Bool :=
  match v with
  | some (Value.bool b) => some b
  | _ => none

/-- The type assertion `v.(int)`; `none` when it fails. -/
def Value.assertInt (v : Option Value) : Option Int :=
  match v with
  | some (Value.int i) => some i
  | _ => none

/-- The comparator of `ParameterMaker` on the values `GetParam` gave for the two
machines; `none` when a type assertion fails. -/
def Machine.ParameterMaker.less.values (ip jp : Option Value) : Option Bool :=
  if ip = none ∧ jp = none then some false
  else if ip = none then
    match jp with
    | some (Value.bool b) => some b
    | _ => some true
  else if jp = none then some false
  else
    match ip with
    | some (Value.string a) => (Value.assertString jp).map (fun b => strLess a b)
    | some (Value.bool a) => (Value.assertBool jp).map (fun b => b && !a)
    | some (Value.int a) => (Value.assertInt jp).map (fun b => decide (a < b))
    | _ => some false

/-- The test `gte` of `ParameterMaker` on the value `ip` of the tested machine
and the value `jp` of the reference; `||` and `&&` evaluate their right operand,
and so its type assertion, only when the left one does not decide. -/
def Machine.ParameterMaker.gte.values (ip jp : Option Value) : Option Bool :=
  if ip = none ∧ jp = none then some true
  else if ip = none then
    match jp with
    | some (Value.bool b) => some (!b)
    | _ => some false
  else if jp = none then some true
  else
    match ip with
    | some (Value.string a) => (Value.assertString jp).map (fun b => strGreaterEq a b)
    | some (Value.bool a) =>
      if a then some true else (Value.assertBool jp).map (fun b => a || a == b)
    | some (Value.int a) => (Value.assertInt jp).map (fun b => decide (a ≥ b))
    | _ => some false

/-- The test `gt` of `ParameterMaker` on the value `ip` of the tested machine and
the value `jp` of the reference. -/
def Machine.ParameterMaker.gt.values (ip jp : Option Value) : Option Bool :=
  if ip = none ∧ jp = none then some false
  else if ip = none then some false
  else if jp = none then
    match ip with
    | some (Value.bool b) => some b
    | _ => some true
  else
    match ip with
    | some (Value.string a) => (Value.assertString jp).map (fun b => strGreater a b)
    | some (Value.bool a) =>
      if a then (Value.assertBool jp).map (fun b => a && !b) else some false
    | some (Value.int a) => (Value.assertInt jp).map (fun b => decide (a > b))
    | _ => some false

/-- What `index.Make` is given, the parser of the index apart: whether the index
is unique, the name of its type, the comparator and the builder of the range
tests `(gte, gt)` for a reference. The results are of type `β`: `Bool`, or
`Option Bool` for functions whose type assertions can fail. -/
structure Maker (α : Type) (β : Type) where
  Unique : Bool
  Typ : String
  less : α → α → β
  tests : α → (α → β) × (α → β)

/-- The maker `n.ParameterMaker(d, parameter)` returns when the parameter is
defined. -/
def Machine.ParameterMaker (profileGetParam : Provision.Profile → String → Bool → Option Value × Bool)
    (p : DataTracker) (parameter : String) : Maker Machine (Option Bool) :=
  { Unique := false
    Typ := "parameter"
    less := fun i j =>
      Machine.ParameterMaker.less.values
        (Machine.GetParam profileGetParam p i parameter true).1
        (Machine.GetParam profileGetParam p j parameter true).1
    tests := fun ref =>
      let jp := (Machine.GetParam profileGetParam p ref parameter true).1
      (fun s =>
        Machine.ParameterMaker.gte.values (Machine.GetParam profileGetParam p s parameter true).1 jp,
       fun s =>
        Machine.ParameterMaker.gt.values (Machine.GetParam profileGetParam p s parameter true).1 jp) }

/-- The number `big.Int.SetBytes` reads from the 16-byte form of an address. -/
def addressNumber (ip : IP) : Nat := ipNumber (IP.To16 ip)

/-- The entry "Uuid" of `Machine.Indexes`. -/
def Machine.Indexes.Uuid : Maker Machine Bool :=
  { Unique := true
    Typ := "UUID string"
    less := fun i j => strLess i.UUID j.UUID
    tests := fun ref =>
      (fun s => strGreaterEq s.UUID ref.UUID, fun s => strGreater s.UUID ref.UUID) }

/-- The entry "Name" of `Machine.Indexes`. -/
def Machine.Indexes.Name : Maker Machine Bool :=
  { Unique := true
    Typ := "string"
    less := fun i j => strLess i.Name j.Name
    tests := fun ref =>
      (fun s => strGreaterEq s.Name ref.Name, fun s => strGreater s.Name ref.Name) }

/-- The entry "BootEnv" of `Machine.Indexes`. -/
def Machine.Indexes.BootEnv : Maker Machine Bool :=
  { Unique := false
    Typ := "string"
    less := fun i j => strLess i.BootEnv j.BootEnv
    tests := fun ref =>
      (fun s => strGreaterEq s.BootEnv ref.BootEnv, fun s => strGreater s.BootEnv ref.BootEnv) }

/-- The result of `x.Cmp(y)` on two numbers: -1, 0 or 1. -/
def bigCmp (x y : Nat) : Int := if x < y then -1 else if y < x then 1 else 0

/-- The entry "Address" of `Machine.Indexes`. -/
def Machine.Indexes.Address : Maker Machine Bool :=
  { Unique := false
    Typ := "IP Address"
    less := fun i j => decide (bigCmp (addressNumber i.Address) (addressNumber j.Address) = -1)
    tests := fun ref =>
      (fun s => decide (bigCmp (addressNumber s.Address) (addressNumber ref.Address) ≠ -1),
       fun s => decide (bigCmp (addressNumber s.Address) (addressNumber ref.Address) = 1)) }

/-- The entry "Runnable" of `Machine.Indexes`. -/
def Machine.Indexes.Runnable : Maker Machine Bool :=
  { Unique := false
    Typ := "boolean"
    less := fun i j => !i.Runnable && j.Runnable
    tests := fun ref =>
      (fun s => s.Runnable || s.Runnable == ref.Runnable, fun s => s.Runnable && !ref.Runnable) }

/-- The `Plugin` of plugins.go. -/
structure Plugin where
  Name : String := ""
  Description : String := ""
  Params : List (String × Option Value) := []
  Provider : String := ""
  Errors : List String := []
deriving DecidableEq, Repr

/-- The entry "Name" of `Plugin.Indexes`. -/
def Plugin.Indexes.Name : Maker Plugin Bool :=
  { Unique := true
    Typ := "string"
    less := fun i j => strLess i.Name j.Name
    tests := fun ref =>
      (fun s => strGreaterEq s.Name ref.Name, fun s => strGreater s.Name ref.Name) }

/-- The entry "Provider" of `Plugin.Indexes`. -/
def Plugin.Indexes.Provider : Maker Plugin Bool :=
  { Unique := false
    Typ := "string"
    less := fun i j => strLess i.Provider j.Provider
    tests := fun ref =>
      (fun s => strGreaterEq s.Provider ref.Provider, fun s => strGreater s.Provider ref.Provider) }

/-- The types of the values a parameter index orders. -/
inductive ValueType where
  | string
  | bool
  | int
deriving DecidableEq, Repr

/-- Whether a value is `nil` or of the given type. -/
def Value.nilOr (t : ValueType) (v : Option Value) : Bool :=
  match v, t with
  | none, _ => true
  | some (Value.string _), ValueType.string => true
  | some (Value.bool _), ValueType.bool => true
  | some (Value.int _), ValueType.int => true
  | _, _ => false

/-- The value `GetParam(d, parameter, true)` gives for a machine: what the
comparator and the tests of `ParameterMaker` call `ip` and `jp`. -/
def Machine.ParameterMaker.value
    (profileGetParam : Provision.Profile → String → Bool → Option Value × Bool)
    (p : DataTracker) (parameter : String) (n : Machine) : Option Value :=
  (Machine.GetParam profileGetParam p n parameter true).1

/-- The range tests of a maker agree with its comparator: for every reference
and every tested entity, `gte` holds exactly when the entity is not less than
the reference, and `gt` holds exactly when the reference is less than the
entity. -/
def Maker.testsAgree {α : Type} (m : Maker α Bool) : Prop :=
  ∀ ref s : α, (m.tests ref).1 s = (!m.less s ref) ∧ (m.tests ref).2 s = m.less ref s

/-! ## Concrete states used by the evaluations below -/

/-- An environment in which no helper reports anything: addresses validate,
keys are unique, templates parse, files exist and are regular. -/
def Env.quiet : Env where
  validateIP4 := fun _ => []
  validateMaybeZeroIP4 := fun _ => []
  checkUnique := fun _ _ => none
  ipString := fun ip => Hexaddr ip
  machineRepr := fun n => n.Name
  cloneErr := none
  parseErr := fun _ _ => none
  parseInlineErr := fun _ _ => none
  pathJoin := fun parts => "/".intercalate parts
  pathClean := fun s => s
  trimSpace := fun s => s
  readFile := fun _ => none
  stat := fun _ => StatResult.found true
  isoRead := fun _ => IsoRead.hash ""
  exec := fun _ _ => ("", none)
  paramExists := fun _ _ _ _ => true
  execPath := fun _ _ _ ti => Except.ok ti.Path

/-- The subnet 10.0.0.0/24 with the active range 10.0.0.10 .. 10.0.0.20. -/
def Example.subnet24 : Subnet :=
  { Name := "local"
    Cidr := { IP := [10, 0, 0, 0], Mask := [255, 255, 255, 0] }
    ActiveStart := [10, 0, 0, 10]
    ActiveEnd := [10, 0, 0, 20]
    ActiveLeaseTime := 60
    ReservedLeaseTime := 7200
    Strategy := "MAC" }

/-- A tracker with a reservation for 10.0.0.5 and a stored lease of the same
client at 10.0.0.9. -/
def Example.reservedTracker : DataTracker :=
  { leases := [{ Addr := [10, 0, 0, 9], Token := "aa:bb:cc:dd:ee:ff", Strategy := "MAC" }]
    reservations := [{ Addr := [10, 0, 0, 5], Token := "aa:bb:cc:dd:ee:ff", Strategy := "MAC" }]
    subnets := [Example.subnet24] }

/-- The lease the reservation asks for. -/
def Example.reservedLease : Lease :=
  { Addr := [10, 0, 0, 5], Token := "aa:bb:cc:dd:ee:ff", Strategy := "MAC" }

/-- A tracker with one subnet, no reservation and no lease. -/
def Example.subnetTracker : DataTracker :=
  { subnets := [Example.subnet24] }

/-- A lease inside the subnet and outside its active range. -/
def Example.outsideLease : Lease :=
  { Addr := [10, 0, 0, 200], Token := "aa:bb:cc:dd:ee:ff", Strategy := "MAC" }

/-- A boot environment with a PXELinux and an eLILO template and no iPXE
template. -/
def Example.ubuntu : BootEnv :=
  { Name := "ubuntu-install"
    OS := { Name := "ubuntu" }
    Templates :=
      [{ Name := "pxelinux", Path := "pxelinux.cfg/default", Contents := "DEFAULT ubuntu" },
       { Name := "elilo", Path := "elilo.conf", Contents := "default=ubuntu" }] }

/-- The same boot environment without its eLILO template. -/
def Example.ubuntuNoElilo : BootEnv :=
  { Example.ubuntu with
    Templates :=
      [{ Name := "pxelinux", Path := "pxelinux.cfg/default", Contents := "DEFAULT ubuntu" }] }

/-- A boot environment for unknown machines that requires a parameter. -/
def Example.unknownEnv : BootEnv :=
  { Name := "ignore"
    OS := { Name := "ignore" }
    OnlyUnknown := true
    RequiredParams := ["provisioner-url"]
    Templates := [{ Name := "ipxe", Path := "default.ipxe", Contents := "chain" }] }

/-- A tracker whose boot environments are an available one and the one for
unknown machines, with one profile and one task. -/
def Example.machineTracker : DataTracker :=
  { bootenvs :=
      [{ Example.ubuntu with Available := true },
       { Example.unknownEnv with Available := true }]
    profiles := [{ Name := "global" }, { Name := "rack1" }]
    tasks := [{ Name := "install" }]
    defaultBootEnv := "ubuntu-install"
    GlobalProfileName := "global" }

/-- A machine that names no boot environment. -/
def Example.m1 : Machine :=
  { Name := "m1.example.com"
    Uuid := some "3e7031fe-3062-45f1-835c-92541bc9cbd3"
    Address := [10, 0, 0, 5]
    Profiles := ["rack1"]
    Tasks := ["install"] }

/-- A machine that asks for the boot environment for unknown machines. -/
def Example.m2 : Machine :=
  { Example.m1 with BootEnv := "ignore" }

/-- A lease backend whose `FindLease` is the one modelled from the spec, whose
allocator has no address to give, whose lease time is the active lease time of
the subnet and which renders no option. -/
def Example.backend : LeaseBackend where
  FindLease := FindLease
  FindOrCreateLease := fun _ dt _ _ _ _ => { bk := dt }
  LeaseTimeFor := fun s _ => s.ActiveLeaseTime * Second
  RenderToDHCP := fun _ _ => Except.error "not rendered"

/-- A handler that listens on 10.0.0.1/24 with the MAC strategy; its tracker
holds the subnet 10.0.0.0/24 and the lease of aa:bb:cc:dd:ee:ff at 10.0.0.12,
which expires at second 1000. -/
def Example.handler : DhcpHandler :=
  { strats := [{ Name := "MAC", GenToken := MacStrategy }]
    addrs := [{ IP := [10, 0, 0, 1], Mask := [255, 255, 255, 0] }]
    bk :=
      { subnets := [Example.subnet24]
        leases := [{ Addr := [10, 0, 0, 12], Token := "aa:bb:cc:dd:ee:ff", Strategy := "MAC",
                     ExpireTime := 1000 * Second }] } }

/-- A packet of the client aa:bb:cc:dd:ee:ff with ciaddr 10.0.0.12. -/
def Example.packet : Packet :=
  { CIAddr := [10, 0, 0, 12], CHAddr := [0xaa, 0xbb, 0xcc, 0xdd, 0xee, 0xff] }

/-- The options of a Request that selects the server 10.0.0.77 and asks for
10.0.0.12. -/
def Example.selectingOther : Options :=
  [(53, [3]), (54, [10, 0, 0, 77]), (50, [10, 0, 0, 12])]

/-- The options of a Request that selects this server, 10.0.0.1, and asks for
10.0.0.12. -/
def Example.selectingUs : Options :=
  [(53, [3]), (54, [10, 0, 0, 1]), (50, [10, 0, 0, 12])]

/-- The number a string of decimal digits writes. -/
def Example.decimal (s : String) : Nat :=
  s.toList.foldl (fun n c => n * 10 + (c.toNat - 48)) 0

/-- A lease backend like `Example.backend` that renders every directive to the
four bytes of the number its value writes. -/
def Example.renderBackend : LeaseBackend :=
  { Example.backend with
    RenderToDHCP := fun opt _ => Except.ok (opt.Code, putUint32 (Example.decimal opt.Value)) }

/-- The subnet 10.0.0.0/24 with a directive for option 58 (600 seconds) and one
for option 6. -/
def Example.tunedSubnet : Subnet :=
  { Example.subnet24 with
    Options := [{ Code := 58, Value := "600" }, { Code := 6, Value := "167772161" }] }

/-- A reservation for 10.0.0.12 with a directive for option 58 (600 seconds). -/
def Example.tunedReservation : Reservation :=
  { Addr := [10, 0, 0, 12], Token := "aa:bb:cc:dd:ee:ff", Strategy := "MAC",
    Options := [{ Code := 58, Value := "600" }] }

/-- The lease of aa:bb:cc:dd:ee:ff at 10.0.0.12. -/
def Example.lease12 : Lease :=
  { Addr := [10, 0, 0, 12], Token := "aa:bb:cc:dd:ee:ff", Strategy := "MAC",
    ExpireTime := 1000 * Second }

/-- The subnet 10.0.0.0/24 with the next server 10.0.0.1. -/
def Example.bootSubnet : Subnet :=
  { Example.subnet24 with NextServer := [10, 0, 0, 1] }

/-- A lease backend whose allocator hands the first address of the active range
of the first subnet to the client, for the active lease time of the subnet. -/
def Example.offerBackend : LeaseBackend :=
  { Example.backend with
    FindOrCreateLease := fun now dt strat token _ _ =>
      match dt.subnets with
      | [] => { bk := dt }
      | sub :: _ =>
        { lease := some { Addr := sub.ActiveStart, Token := token, Strategy := strat,
                          ExpireTime := now + sub.ActiveLeaseTime * Second }
          subnet := some sub
          bk := { dt with leases :=
                    dt.leases ++ [{ Addr := sub.ActiveStart, Token := token, Strategy := strat,
                                    ExpireTime := now + sub.ActiveLeaseTime * Second }] } } }

/-- A handler that listens on 10.0.0.1/24 with the MAC strategy; its tracker
holds the subnet 10.0.0.0/24 with the next server 10.0.0.1 and no lease. -/
def Example.bootHandler : DhcpHandler :=
  { strats := [{ Name := "MAC", GenToken := MacStrategy }]
    addrs := [{ IP := [10, 0, 0, 1], Mask := [255, 255, 255, 0] }]
    bk := { subnets := [Example.bootSubnet] } }

/-- The datagram of a Request of the client of the lease of 10.0.0.12, sent from
0.0.0.0 port 68 to this server. -/
def Example.datagram : Datagram :=
  { cnt := 300
    req := { Example.packet with Options := Example.selectingUs }
    srcAddr := { IP := [0, 0, 0, 0], Port := 68 }
    ifName := "eth0" }

/-- A tracker whose boot environments and profiles have tasks. -/
def Example.taskTracker : DataTracker :=
  { bootenvs :=
      [{ Example.ubuntu with Available := true, Tasks := ["partition", "install"] },
       { Name := "local", Available := true }]
    profiles :=
      [{ Name := "global", Tasks := ["report"] }, { Name := "rack1", Tasks := ["raid"] },
       { Name := "gpu", Tasks := ["driver", "burnin"] }]
    tasks := [{ Name := "install" }]
    defaultBootEnv := "ubuntu-install"
    GlobalProfileName := "global" }

/-- A machine that was moved from the boot environment local to
ubuntu-install. -/
def Example.m3 : Machine :=
  { Example.m1 with
    BootEnv := "ubuntu-install", oldBootEnv := "local", Profiles := ["gpu", "rack1"],
    Tasks := ["old"], CurrentTask := 3 }

/-- A lease for the reserved address 10.0.0.5 with an empty token and an empty
strategy. -/
def Example.emptyLease : Lease :=
  { Addr := [10, 0, 0, 5], Token := "", Strategy := "" }

/-- The tracker with the tasks, without its global profile: the name of the
global profile is configured and no profile has it. -/
def Example.noGlobalTracker : DataTracker :=
  { Example.taskTracker with
    profiles :=
      [{ Name := "rack1", Tasks := ["raid"] }, { Name := "gpu", Tasks := ["driver", "burnin"] }] }

/-- A machine with valid references that was moved from the boot environment
local to ubuntu-install. -/
def Example.m4 : Machine :=
  { Example.m1 with
    BootEnv := "ubuntu-install", oldBootEnv := "local", Profiles := ["gpu", "rack1"],
    Tasks := ["install"], CurrentTask := 3 }

/-- The tracker with the tasks, every task of its boot environments and profiles
being stored. -/
def Example.fullTracker : DataTracker :=
  { Example.taskTracker with
    tasks :=
      [{ Name := "install" }, { Name := "partition" }, { Name := "driver" },
       { Name := "burnin" }, { Name := "raid" }, { Name := "report" }] }

/-- The preferences of a tracker whose default boot environment is local and
whose boot environment for unknown machines is ignore. -/
def Example.prefs (name : String) : Option String :=
  [("defaultBootEnv", "local"), ("unknownBootEnv", "ignore")].lookup name

/-- The `GetParam` of a profile as the one of a plugin in plugins.go is: the
value of the key in the parameters of the profile itself. -/
def Example.profileGetParam (prof : Profile) (key : String) (_searchProfiles : Bool) :
    Option Value × Bool :=
  mapIndex prof.Params key

/-- A tracker whose profiles define parameters: rack1 defines rack and ntp, gpu
defines ntp, and the global profile defines ntp and dns. -/
def Example.paramTracker : DataTracker :=
  { profiles :=
      [{ Name := "global",
         Params := [("ntp", some (Value.string "pool.example.com")),
                    ("dns", some (Value.string "10.0.0.2"))] },
       { Name := "rack1",
         Params := [("rack", some (Value.string "r1")), ("ntp", some (Value.string "ntp1"))] },
       { Name := "gpu", Params := [("ntp", some (Value.string "ntp2"))] }]
    GlobalProfileName := "global" }

/-- A machine with the profiles gpu, a missing one and rack1, which defines the
parameter asset itself. -/
def Example.m5 : Machine :=
  { Example.m1 with
    Profiles := ["gpu", "missing", "rack1"],
    Profile := { Params := [("asset", some (Value.int 42))] } }

/-- A machine whose parameter asset is a string. -/
def Example.m6 : Machine :=
  { Example.m1 with Profile := { Params := [("asset", some (Value.string "x"))] } }

/-- A machine whose parameter asset is the bool false. -/
def Example.m7 : Machine :=
  { Example.m1 with Profile := { Params := [("asset", some (Value.bool false))] } }

/-- A handler whose interface has the addresses 192.168.1.1/24 and 10.0.0.1/24,
with the tracker of `Example.handler` and the global address 172.16.0.1. -/
def Example.twoAddrHandler : DhcpHandler :=
  { Example.handler with
    addrs := [{ IP := [192, 168, 1, 1], Mask := [255, 255, 255, 0] },
              { IP := [10, 0, 0, 1], Mask := [255, 255, 255, 0] }]
    bk := { Example.handler.bk with OurAddress := [172, 16, 0, 1] } }

/-! # Theorems -/

/-! ## Errors -/

theorem Error.Errorf_containsError (e : Error) (msg : String) :
    (e.Errorf msg).containsError = true := rfl

theorem Error.Errorf_code (e : Error) (msg : String) :
    (e.Errorf msg).Code = e.Code ∧ (e.Errorf msg).Typ = e.Typ := ⟨rfl, rfl⟩

theorem Error.Errorf_messages_ne_nil (e : Error) (msg : String) :
    (e.Errorf msg).Messages ≠ [] := by
  simp [Error.Errorf]

theorem Error.OrNil_eq_none (e : Error) : e.OrNil = none ↔ e.containsError = false := by
  unfold Error.OrNil
  cases e.containsError <;> simp

theorem Error.OrNil_eq_some (e f : Error) :
    e.OrNil = some f ↔ e.containsError = true ∧ f = e := by
  unfold Error.OrNil
  cases e.containsError <;> simp [eq_comm]

theorem Error.wf_Errorf (e : Error) (msg : String) : (e.Errorf msg).wf := by
  simp [Error.wf, Error.Errorf]

theorem Error.wf_init (c : Nat) (t : String) : Error.wf { Code := c, Typ := t } := by
  simp [Error.wf]

theorem Error.wf_ite (c : Prop) [Decidable c] (e : Error) (msg : String) (h : e.wf) :
    (if c then e.Errorf msg else e).wf := by
  split
  · exact Error.wf_Errorf e msg
  · exact h

/-! ## lease.go -/

/-- The scan of the stored leases leaves the error untouched exactly when no
stored lease at another address has the token and the strategy of the new
lease. -/
theorem Lease.OnCreate.scan_containsError (l : Lease) (e : Error) (h : e.containsError = false)
    (ls : List Lease) :
    (Lease.OnCreate.scan l e ls).containsError = false ↔
      ∀ x ∈ ls, IP.Equal x.Addr l.Addr = false → ¬(x.Token = l.Token ∧ x.Strategy = l.Strategy) := by
  induction ls with
  | nil => simp [Lease.OnCreate.scan, h]
  | cons x rest ih =>
    unfold Lease.OnCreate.scan
    by_cases heq : IP.Equal x.Addr l.Addr = true
    · simp [heq, ih]
    · by_cases hts : x.Token = l.Token ∧ x.Strategy = l.Strategy
      · simp [heq, hts, Error.Errorf]
      · simp only [heq, hts]
        simp only [Bool.false_eq_true, if_false, ih, List.mem_cons, forall_eq_or_imp]
        constructor
        · intro hr
          exact ⟨fun _ => hts, hr⟩
        · intro hr
          exact hr.2

/-- Without a reservation for its address, a lease that `OnCreate` accepts
shares its token and strategy with no stored lease at another address. -/
theorem Lease.OnCreate_unique_of_no_reservation (env : Env) (p : DataTracker) (l : Lease)
    (hres : Lease.Reservation p l = none) (hok : Lease.OnCreate env p l = none) :
    ∀ x ∈ p.leases, IP.Equal x.Addr l.Addr = false →
      ¬(x.Token = l.Token ∧ x.Strategy = l.Strategy) := by
  unfold Lease.OnCreate at hok
  simp only [hres, Option.isSome_none, Bool.false_eq_true, if_false] at hok
  by_cases h1 : (Lease.OnCreate.fields env l).containsError = true
  · simp [h1] at hok
  · by_cases h2 : (Lease.OnCreate.scan l (Lease.OnCreate.fields env l) p.leases).containsError = true
    · simp [h1, h2] at hok
    · exact (Lease.OnCreate.scan_containsError l _ (by simpa using h1) p.leases).1
        (by simpa using h2)

/-- C1, evaluated: with a reservation for 10.0.0.5 in the store, `OnCreate`
accepts a lease for 10.0.0.5 although the stored lease at 10.0.0.9 has the same
strategy and token; this holds whatever the address validation reports. -/
theorem Lease.OnCreate_reservation_skips_uniqueness (env : Env) :
    Lease.OnCreate env Example.reservedTracker Example.reservedLease = none ∧
      ∃ x ∈ Example.reservedTracker.leases,
        IP.Equal x.Addr Example.reservedLease.Addr = false ∧
          x.Token = Example.reservedLease.Token ∧
          x.Strategy = Example.reservedLease.Strategy := by
  refine ⟨?_, ?_⟩
  · have h : (Lease.Reservation Example.reservedTracker Example.reservedLease).isSome = true := by
      decide
    simp [Lease.OnCreate, h]
  · exact ⟨_, List.mem_cons_self _ _, by decide, rfl, rfl⟩

/-- C2, evaluated: with no reservation and the subnet 10.0.0.0/24 whose active
range is 10.0.0.10 .. 10.0.0.20, `OnCreate` accepts a lease for 10.0.0.200,
which lies in no subnet's active range. -/
theorem Lease.OnCreate_accepts_outside_active_range :
    Lease.OnCreate Env.quiet Example.subnetTracker Example.outsideLease = none ∧
      Lease.Reservation Example.subnetTracker Example.outsideLease = none ∧
      ∀ s ∈ Example.subnetTracker.subnets, s.InActiveRange Example.outsideLease.Addr = false := by
  refine ⟨by decide, by decide, by decide⟩

/-- C3: `OnChange` accepts the change exactly when the token and the strategy
are those of the old lease, and otherwise returns an error with code 422 and
type ValidationError; whatever the address and the expiry time become, a lease
that keeps the token and the strategy is accepted. -/
theorem Lease.OnChange_error_iff (l old : Lease) :
    ((∃ e, Lease.OnChange l old = some e ∧ e.Code = 422 ∧ e.Typ = ValidationError ∧
        e.Messages ≠ []) ↔ (l.Token ≠ old.Token ∨ l.Strategy ≠ old.Strategy)) ∧
    (Lease.OnChange l old = none ↔ (l.Token = old.Token ∧ l.Strategy = old.Strategy)) ∧
    (∀ (a : IP) (t : Time),
      Lease.OnChange { old with Addr := a, ExpireTime := t } old = none) := by
  refine ⟨?_, ?_, ?_⟩
  · by_cases ht : l.Token = old.Token <;> by_cases hs : l.Strategy = old.Strategy <;>
      simp [Lease.OnChange, Error.OrNil, Error.Errorf, ht, hs]
  · by_cases ht : l.Token = old.Token <;> by_cases hs : l.Strategy = old.Strategy <;>
      simp [Lease.OnChange, Error.OrNil, Error.Errorf, ht, hs]
  · intro a t
    simp [Lease.OnChange, Error.OrNil]

/-! ## bootenv.go: `genRoot` -/

theorem BootEnv.genRoot.entry_containsError (env : Env) (res : TemplateSet) (i : Nat)
    (ti : TemplateInfo) (e : Error) (buf : String) :
    (BootEnv.genRoot.entry env res i ti e buf).2.1.containsError =
      (e.containsError || ti.faulty env res) := by
  unfold BootEnv.genRoot.entry TemplateInfo.faulty
  by_cases hn : ti.Name = ""
  · simp [hn, Error.Errorf]
  · by_cases hp : ti.Path = ""
    · simp [hn, hp, Error.Errorf]
    · cases hpe : env.parseErr ti.Name ti.Path with
      | some err => simp [hn, hp, hpe, Error.Errorf]
      | none =>
        by_cases hid : ti.ID = ""
        · by_cases hc : ti.Contents = "" <;> simp [hn, hp, hpe, hid, hc, Error.Errorf]
        · by_cases hl : ti.ID ∈ res <;> simp [hn, hp, hpe, hid, hl, Error.Errorf]

theorem BootEnv.genRoot.entry_wf (env : Env) (res : TemplateSet) (i : Nat)
    (ti : TemplateInfo) (e : Error) (buf : String) (h : e.wf) :
    (BootEnv.genRoot.entry env res i ti e buf).2.1.wf := by
  unfold BootEnv.genRoot.entry
  split
  · exact Error.wf_Errorf _ _
  · split
    · exact Error.wf_Errorf _ _
    · split
      · exact Error.wf_Errorf _ _
      · split
        · dsimp only
          split
          · exact h
          · exact Error.wf_Errorf _ _
        · exact Error.wf_ite _ _ _ h

theorem BootEnv.genRoot.entry_name (env : Env) (res : TemplateSet) (i : Nat)
    (ti : TemplateInfo) (e : Error) (buf : String) :
    (BootEnv.genRoot.entry env res i ti e buf).1.Name = ti.Name := by
  unfold BootEnv.genRoot.entry
  split
  · rfl
  · split
    · rfl
    · split
      · rfl
      · split <;> rfl

theorem BootEnv.genRoot.loop_containsError (env : Env) (res : TemplateSet) (tis : List TemplateInfo) :
    ∀ (i : Nat) (e : Error) (buf : String),
      (BootEnv.genRoot.loop env res i tis e buf).2.1.containsError =
        (e.containsError || tis.any (fun ti => ti.faulty env res)) := by
  induction tis with
  | nil => intro i e buf; simp [BootEnv.genRoot.loop]
  | cons ti rest ih =>
    intro i e buf
    simp only [BootEnv.genRoot.loop, ih, BootEnv.genRoot.entry_containsError, List.any_cons,
      Bool.or_assoc]

theorem BootEnv.genRoot.loop_wf (env : Env) (res : TemplateSet) (tis : List TemplateInfo) :
    ∀ (i : Nat) (e : Error) (buf : String), e.wf →
      (BootEnv.genRoot.loop env res i tis e buf).2.1.wf := by
  induction tis with
  | nil => intro i e buf h; simpa [BootEnv.genRoot.loop] using h
  | cons ti rest ih =>
    intro i e buf h
    simp only [BootEnv.genRoot.loop]
    exact ih _ _ _ (BootEnv.genRoot.entry_wf env res i ti e buf h)

theorem BootEnv.genRoot.loop_names (env : Env) (res : TemplateSet) (tis : List TemplateInfo) :
    ∀ (i : Nat) (e : Error) (buf : String),
      (BootEnv.genRoot.loop env res i tis e buf).1.map TemplateInfo.Name =
        tis.map TemplateInfo.Name := by
  induction tis with
  | nil => intro i e buf; simp [BootEnv.genRoot.loop]
  | cons ti rest ih =>
    intro i e buf
    simp only [BootEnv.genRoot.loop, List.map_cons, ih, BootEnv.genRoot.entry_name]

theorem BootEnv.seen_eq_of_names (b c : BootEnv)
    (h : c.Templates.map TemplateInfo.Name = b.Templates.map TemplateInfo.Name) (name : String) :
    c.seen name = b.seen name := by
  have key : ∀ l : List TemplateInfo,
      l.any (fun template => template.Name == name) =
        (l.map TemplateInfo.Name).any (fun n => n == name) := by
    intro l
    induction l with
    | nil => rfl
    | cons x xs ih => simp [List.any_cons, ih]
  unfold BootEnv.seen
  rw [key, key, h]


theorem BootEnv.genRoot.bootParams_wf (env : Env) (b : BootEnv) (e : Error) (h : e.wf) :
    (BootEnv.genRoot.bootParams env b e).2.wf := by
  unfold BootEnv.genRoot.bootParams
  split
  · split
    · exact Error.wf_Errorf _ _
    · exact h
  · exact h

theorem BootEnv.genRoot.bootParams_mono (env : Env) (b : BootEnv) (e : Error)
    (h : e.containsError = true) :
    (BootEnv.genRoot.bootParams env b e).2.containsError = true := by
  unfold BootEnv.genRoot.bootParams
  split
  · split
    · rfl
    · exact h
  · exact h

/-- The fields of the boot environment that `bootParams` leaves alone. -/
theorem BootEnv.genRoot.bootParams_fields (env : Env) (b : BootEnv) (e : Error) :
    (BootEnv.genRoot.bootParams env b e).1 =
      { b with bootParamsTmpl := (BootEnv.genRoot.bootParams env b e).1.bootParamsTmpl } := by
  unfold BootEnv.genRoot.bootParams
  split
  · split <;> rfl
  · rfl

/-- `genRoot` returns no root exactly when its error contains an error. -/
theorem BootEnv.genRoot_root_eq_none (env : Env) (cr : Option TemplateSet) (b : BootEnv)
    (e : Error) :
    (BootEnv.genRoot env cr b e).root = none ↔
      (BootEnv.genRoot env cr b e).e.containsError = true := by
  unfold BootEnv.genRoot
  split
  · simp [Error.Errorf]
  · dsimp only
    split
    · simp [Error.Errorf]
    · split
      · rename_i h; simp [h]
      · rename_i h; simp [h]

theorem BootEnv.genRoot_wf (env : Env) (cr : Option TemplateSet) (b : BootEnv) (e : Error)
    (h : e.wf) : (BootEnv.genRoot env cr b e).e.wf := by
  unfold BootEnv.genRoot
  split
  · exact Error.wf_Errorf _ _
  · dsimp only
    split
    · exact Error.wf_Errorf _ _
    · split <;>
        exact BootEnv.genRoot.bootParams_wf _ _ _ (BootEnv.genRoot.loop_wf _ _ _ _ _ _ h)

/-- What `genRoot` changes of its receiver: the compiled path templates of the
entries and the compiled boot parameters, nothing else. -/
theorem BootEnv.genRoot_receiver (env : Env) (cr : Option TemplateSet) (b : BootEnv) (e : Error) :
    (BootEnv.genRoot env cr b e).b =
        { b with Templates := (BootEnv.genRoot env cr b e).b.Templates,
                 bootParamsTmpl := (BootEnv.genRoot env cr b e).b.bootParamsTmpl } ∧
      (BootEnv.genRoot env cr b e).b.Templates.map TemplateInfo.Name =
        b.Templates.map TemplateInfo.Name := by
  have hn := BootEnv.genRoot.loop_names env (cr.getD []) b.Templates 0 e ""
  unfold BootEnv.genRoot
  split
  · exact ⟨rfl, rfl⟩
  · dsimp only
    split
    · exact ⟨rfl, hn⟩
    · have hb := BootEnv.genRoot.bootParams_fields env
        { b with Templates := (BootEnv.genRoot.loop env (cr.getD []) 0 b.Templates e "").1 }
        (BootEnv.genRoot.loop env (cr.getD []) 0 b.Templates e "").2.1
      split
      · dsimp only
        refine ⟨?_, ?_⟩
        · rw [hb]
        · rw [hb]; exact hn
      · dsimp only
        refine ⟨?_, ?_⟩
        · rw [hb]
        · rw [hb]; exact hn

/-- A faulty template entry makes `genRoot` record an error. -/
theorem BootEnv.genRoot_fault (env : Env) (cr : Option TemplateSet) (b : BootEnv) (e : Error)
    (h : b.Templates.any (fun ti => ti.faulty env (cr.getD [])) = true) :
    (BootEnv.genRoot env cr b e).e.containsError = true := by
  have hl : (BootEnv.genRoot.loop env (cr.getD []) 0 b.Templates e "").2.1.containsError = true := by
    rw [BootEnv.genRoot.loop_containsError, h, Bool.or_true]
  unfold BootEnv.genRoot
  split
  · rfl
  · dsimp only
    split
    · rfl
    · split <;> exact BootEnv.genRoot.bootParams_mono _ _ _ hl


theorem BootEnv.genRoot.entry_buf (env : Env) (res : TemplateSet) (i : Nat)
    (ti : TemplateInfo) (e e' : Error) (buf : String) :
    (BootEnv.genRoot.entry env res i ti e buf).2.2 =
      (BootEnv.genRoot.entry env res i ti e' buf).2.2 := by
  unfold BootEnv.genRoot.entry
  split
  · rfl
  · split
    · rfl
    · split
      · rfl
      · split <;> rfl

theorem BootEnv.genRoot.loop_buf (env : Env) (res : TemplateSet) (tis : List TemplateInfo) :
    ∀ (i : Nat) (e e' : Error) (buf : String),
      (BootEnv.genRoot.loop env res i tis e buf).2.2 =
        (BootEnv.genRoot.loop env res i tis e' buf).2.2 := by
  induction tis with
  | nil => intro i e e' buf; rfl
  | cons ti rest ih =>
    intro i e e' buf
    simp only [BootEnv.genRoot.loop]
    rw [BootEnv.genRoot.entry_buf env res i ti e e' buf]
    exact ih _ _ _ _

theorem BootEnv.genRoot.bootParams_containsError (env : Env) (b : BootEnv) (e : Error) :
    (BootEnv.genRoot.bootParams env b e).2.containsError =
      (e.containsError || (b.BootParams != "" && (env.parseErr "machine" b.BootParams).isSome)) := by
  unfold BootEnv.genRoot.bootParams
  by_cases hb : b.BootParams = ""
  · simp [hb]
  · cases hp : env.parseErr "machine" b.BootParams <;> simp [hb, hp, Error.Errorf]

/-- Started on an error that contains none, `genRoot` records an error exactly
when the boot environment has a template error. -/
theorem BootEnv.genRoot_containsError (env : Env) (cr : Option TemplateSet) (b : BootEnv)
    (e : Error) (h0 : e.containsError = false) :
    (BootEnv.genRoot env cr b e).e.containsError = b.templateErrors env cr := by
  have hbuf : (BootEnv.genRoot.loop env (cr.getD []) 0 b.Templates e "").2.2 =
      BootEnv.genRoot.inline env (cr.getD []) b :=
    BootEnv.genRoot.loop_buf env (cr.getD []) b.Templates 0 e {} ""
  unfold BootEnv.genRoot BootEnv.templateErrors
  by_cases hc : cr.isSome = true ∧ env.cloneErr.isSome = true
  · simp [hc, Error.Errorf]
  · have hc' : (cr.isSome && env.cloneErr.isSome) = false := by
      simpa [Bool.and_eq_true] using hc
    simp only [hc, if_false, hc', Bool.false_or]
    rw [hbuf]
    cases hp : env.parseInlineErr (cr.getD []) (BootEnv.genRoot.inline env (cr.getD []) b) with
    | some err => simp [Error.Errorf]
    | none =>
      have hbp := BootEnv.genRoot.bootParams_containsError env
        { b with Templates := (BootEnv.genRoot.loop env (cr.getD []) 0 b.Templates e "").1 }
        (BootEnv.genRoot.loop env (cr.getD []) 0 b.Templates e "").2.1
      rw [BootEnv.genRoot.loop_containsError, h0] at hbp
      dsimp only
      split <;> simp [hbp]


/-! ## bootenv.go: `BeforeSave`, `OnLoad`, `followUpSave`, `AfterDelete` -/

theorem BootEnv.BeforeSave_of_root_none (env : Env) (p : DataTracker) (b : BootEnv)
    (h : (BootEnv.genRoot env p.rootTemplate b { Code := 422, Typ := ValidationError }).root = none) :
    BootEnv.BeforeSave env p b =
      ((BootEnv.genRoot env p.rootTemplate b { Code := 422, Typ := ValidationError }).b,
        some (BootEnv.genRoot env p.rootTemplate b { Code := 422, Typ := ValidationError }).e) := by
  unfold BootEnv.BeforeSave
  simp only [h]

theorem BootEnv.BeforeSave_of_root_some (env : Env) (p : DataTracker) (b : BootEnv)
    (root : RootTemplate)
    (h : (BootEnv.genRoot env p.rootTemplate b { Code := 422, Typ := ValidationError }).root =
      some root) :
    BootEnv.BeforeSave env p b =
      ({ (BootEnv.BeforeSave.checks env p
            { (BootEnv.genRoot env p.rootTemplate b { Code := 422, Typ := ValidationError }).b with
              rootTemplate := some root }
            (BootEnv.genRoot env p.rootTemplate b { Code := 422, Typ := ValidationError }).e).1 with
          Errors := (BootEnv.BeforeSave.checks env p
            { (BootEnv.genRoot env p.rootTemplate b { Code := 422, Typ := ValidationError }).b with
              rootTemplate := some root }
            (BootEnv.genRoot env p.rootTemplate b { Code := 422, Typ := ValidationError }).e).2.Messages
          Available := decide ((BootEnv.BeforeSave.checks env p
            { (BootEnv.genRoot env p.rootTemplate b { Code := 422, Typ := ValidationError }).b with
              rootTemplate := some root }
            (BootEnv.genRoot env p.rootTemplate b { Code := 422, Typ := ValidationError }).e).2.Messages.length
              = 0) },
        none) := by
  unfold BootEnv.BeforeSave
  simp only [h]

/-- A save that `BeforeSave` lets through leaves the boot environment available
exactly when no error is recorded on it. -/
theorem BootEnv.BeforeSave_available_iff_no_errors (env : Env) (p : DataTracker) (b : BootEnv)
    (h : (BootEnv.BeforeSave env p b).2 = none) :
    (BootEnv.BeforeSave env p b).1.Available = true ↔ (BootEnv.BeforeSave env p b).1.Errors = [] := by
  cases hr : (BootEnv.genRoot env p.rootTemplate b { Code := 422, Typ := ValidationError }).root with
  | none =>
    rw [BootEnv.BeforeSave_of_root_none env p b hr] at h
    exact absurd h (by simp)
  | some root =>
    rw [BootEnv.BeforeSave_of_root_some env p b root hr]
    simp [List.length_eq_zero]

/-- After `OnLoad` the boot environment is available exactly when no error is
recorded on it. -/
theorem BootEnv.OnLoad_available_iff_no_errors (env : Env) (p : DataTracker) (b : BootEnv) :
    (BootEnv.OnLoad env p b).1.Available = true ↔ (BootEnv.OnLoad env p b).1.Errors = [] := by
  have hwf := BootEnv.genRoot_wf env p.rootTemplate b {} (Error.wf_init 0 "")
  unfold Error.wf at hwf
  unfold BootEnv.OnLoad
  dsimp only
  cases hc : (BootEnv.genRoot env p.rootTemplate b {}).e.containsError
  · simp only [Bool.not_false, true_iff]
    by_contra hne
    have := hwf.2 hne
    simp [hc] at this
  · simp only [Bool.not_true, Bool.false_eq_true, false_iff]
    exact hwf.1 hc

/-- C6, evaluated: the boot environment for unknown machines that requires a
parameter is saved as available with no errors; `followUpSave` then records the
render error in Errors and leaves Available true, and so does `AfterDelete`. -/
theorem BootEnv.followUpSave_records_errors_keeps_available :
    (BootEnv.BeforeSave Env.quiet {} Example.unknownEnv).2 = none ∧
    (BootEnv.BeforeSave Env.quiet {} Example.unknownEnv).1.Available = true ∧
    (BootEnv.followUpSave Env.quiet {}
        (BootEnv.BeforeSave Env.quiet {} Example.unknownEnv).1).b.Errors =
      ["Machine is nil or does not have params"] ∧
    (BootEnv.followUpSave Env.quiet {}
        (BootEnv.BeforeSave Env.quiet {} Example.unknownEnv).1).b.Available = true ∧
    (BootEnv.AfterDelete Env.quiet {}
        (BootEnv.BeforeSave Env.quiet {} Example.unknownEnv).1).b.Errors =
      ["Machine is nil or does not have params"] ∧
    (BootEnv.AfterDelete Env.quiet {}
        (BootEnv.BeforeSave Env.quiet {} Example.unknownEnv).1).b.Available = true := by
  refine ⟨by decide, by decide, by decide, by decide, by decide, by decide⟩


theorem BootEnv.BeforeSave.checks_plain (env : Env) (p : DataTracker) (b : BootEnv) (e : Error)
    (hk : b.Kernel = "") (hi : b.Initrds = []) (hiso : b.OS.IsoFile = "") :
    BootEnv.BeforeSave.checks env p b e = (b, BootEnv.BeforeSave.bootLoaders b e) := by
  unfold BootEnv.BeforeSave.checks BootEnv.BeforeSave.kernel
  simp [hk, hi, hiso]

theorem BootEnv.BeforeSave.bootLoaders_messages (b : BootEnv) (e : Error) :
    (BootEnv.BeforeSave.bootLoaders b e).Messages =
      if b.seen "ipxe" || (b.seen "pxelinux" && b.seen "elilo") then e.Messages
      else e.Messages ++ ["bootenv: Missing elilo or pxelinux template"] := by
  unfold BootEnv.BeforeSave.bootLoaders
  cases b.seen "ipxe" <;> cases b.seen "pxelinux" <;> cases b.seen "elilo" <;>
    simp [Error.Errorf]

/-- The scan of `BeforeSave` over the templates sees a name exactly when a
template of the boot environment has it. -/
theorem BootEnv.seen_iff (b : BootEnv) (name : String) :
    b.seen name = true ↔ ∃ ti ∈ b.Templates, ti.Name = name := by
  unfold BootEnv.seen
  simp [List.any_eq_true]

/-- C7: for a boot environment without template errors, kernel, initrds and ISO
file, `BeforeSave` returns no error; the boot environment is then available
exactly when one of its templates is named ipxe, or one is named pxelinux and
one is named elilo; its Errors are then empty, and otherwise they are the one
message "bootenv: Missing elilo or pxelinux template". -/
theorem BootEnv.BeforeSave_available_iff_boot_loaders (env : Env) (p : DataTracker) (b : BootEnv)
    (hc : b.templateErrors env p.rootTemplate = false) (hk : b.Kernel = "")
    (hi : b.Initrds = []) (hiso : b.OS.IsoFile = "") :
    (BootEnv.BeforeSave env p b).2 = none ∧
    ((BootEnv.BeforeSave env p b).1.Available = true ↔
      ((∃ ti ∈ b.Templates, ti.Name = "ipxe") ∨
        ((∃ ti ∈ b.Templates, ti.Name = "pxelinux") ∧ ∃ ti ∈ b.Templates, ti.Name = "elilo"))) ∧
    ((BootEnv.BeforeSave env p b).1.Available = true →
      (BootEnv.BeforeSave env p b).1.Errors = []) ∧
    ((BootEnv.BeforeSave env p b).1.Available = false →
      (BootEnv.BeforeSave env p b).1.Errors =
        ["bootenv: Missing elilo or pxelinux template"]) := by
  have hce : (BootEnv.genRoot env p.rootTemplate b
      { Code := 422, Typ := ValidationError }).e.containsError = false := by
    rw [BootEnv.genRoot_containsError env p.rootTemplate b _ rfl]; exact hc
  have hroot : (BootEnv.genRoot env p.rootTemplate b
      { Code := 422, Typ := ValidationError }).root ≠ none := by
    intro hn
    have := (BootEnv.genRoot_root_eq_none env p.rootTemplate b _).1 hn
    simp [hce] at this
  obtain ⟨root, hr⟩ := Option.ne_none_iff_exists'.1 hroot
  have hwf := BootEnv.genRoot_wf env p.rootTemplate b _ (Error.wf_init 422 ValidationError)
  have hmsgs : (BootEnv.genRoot env p.rootTemplate b
      { Code := 422, Typ := ValidationError }).e.Messages = [] := by
    by_contra hne
    have := hwf.2 hne
    simp [hce] at this
  have hrec := BootEnv.genRoot_receiver env p.rootTemplate b { Code := 422, Typ := ValidationError }
  have hK : (BootEnv.genRoot env p.rootTemplate b
      { Code := 422, Typ := ValidationError }).b.Kernel = b.Kernel := by
    have h := congrArg BootEnv.Kernel hrec.1
    exact h
  have hI : (BootEnv.genRoot env p.rootTemplate b
      { Code := 422, Typ := ValidationError }).b.Initrds = b.Initrds := by
    have h := congrArg BootEnv.Initrds hrec.1
    exact h
  have hO : (BootEnv.genRoot env p.rootTemplate b
      { Code := 422, Typ := ValidationError }).b.OS = b.OS := by
    have h := congrArg BootEnv.OS hrec.1
    exact h
  have hseen : ∀ name, BootEnv.seen
      { (BootEnv.genRoot env p.rootTemplate b { Code := 422, Typ := ValidationError }).b with
        rootTemplate := some root } name = b.seen name :=
    fun name => BootEnv.seen_eq_of_names b _ hrec.2 name
  have hchk := BootEnv.BeforeSave.checks_plain env p
    { (BootEnv.genRoot env p.rootTemplate b { Code := 422, Typ := ValidationError }).b with
      rootTemplate := some root }
    (BootEnv.genRoot env p.rootTemplate b { Code := 422, Typ := ValidationError }).e
    (hK.trans hk) (hI.trans hi) ((congrArg OsInfo.IsoFile hO).trans hiso)
  rw [BootEnv.BeforeSave_of_root_some env p b root hr, hchk]
  simp only [BootEnv.BeforeSave.bootLoaders_messages, hseen, hmsgs, List.nil_append]
  have hiff : ∀ name : String, (∃ ti ∈ b.Templates, ti.Name = name) ↔ b.seen name = true := by
    intro name
    unfold BootEnv.seen
    simp [List.any_eq_true]
  rw [hiff, hiff, hiff]
  refine ⟨trivial, ?_, ?_, ?_⟩
  · cases b.seen "ipxe" <;> cases b.seen "pxelinux" <;> cases b.seen "elilo" <;> simp
  · cases b.seen "ipxe" <;> cases b.seen "pxelinux" <;> cases b.seen "elilo" <;> simp
  · cases b.seen "ipxe" <;> cases b.seen "pxelinux" <;> cases b.seen "elilo" <;> simp

/-- C7 at the boot environment with a PXELinux and an eLILO template and at the
one without its eLILO template: the first is saved as available, without
errors; the second is saved as not available, with the one message. -/
theorem BootEnv.BeforeSave_available_iff_boot_loaders_witness :
    (Example.ubuntu.templateErrors Env.quiet none = false ∧ Example.ubuntu.Kernel = "" ∧
      Example.ubuntu.Initrds = [] ∧ Example.ubuntu.OS.IsoFile = "") ∧
    (BootEnv.BeforeSave Env.quiet {} Example.ubuntu).2 = none ∧
    (BootEnv.BeforeSave Env.quiet {} Example.ubuntu).1.Available = true ∧
    (BootEnv.BeforeSave Env.quiet {} Example.ubuntu).1.Errors = [] ∧
    (BootEnv.BeforeSave Env.quiet {} Example.ubuntuNoElilo).2 = none ∧
    (BootEnv.BeforeSave Env.quiet {} Example.ubuntuNoElilo).1.Available = false ∧
    (BootEnv.BeforeSave Env.quiet {} Example.ubuntuNoElilo).1.Errors =
      ["bootenv: Missing elilo or pxelinux template"] :=
  have h1 := BootEnv.BeforeSave_available_iff_boot_loaders Env.quiet {} Example.ubuntu
    (by decide) rfl rfl rfl
  have h2 := BootEnv.BeforeSave_available_iff_boot_loaders Env.quiet {} Example.ubuntuNoElilo
    (by decide) rfl rfl rfl
  have ha : (BootEnv.BeforeSave Env.quiet {} Example.ubuntu).1.Available = true :=
    h1.2.1.2
      (Or.inr ⟨⟨{ Name := "pxelinux", Path := "pxelinux.cfg/default", Contents := "DEFAULT ubuntu" },
          by decide, rfl⟩,
        ⟨{ Name := "elilo", Path := "elilo.conf", Contents := "default=ubuntu" }, by decide, rfl⟩⟩)
  have hn : (BootEnv.BeforeSave Env.quiet {} Example.ubuntuNoElilo).1.Available = false := by
    cases hv : (BootEnv.BeforeSave Env.quiet {} Example.ubuntuNoElilo).1.Available with
    | false => rfl
    | true =>
      exfalso
      rcases h2.2.1.1 hv with ⟨ti, hti, hname⟩ | ⟨-, ti, hti, hname⟩
      · revert ti
        decide
      · revert ti
        decide
  ⟨⟨by decide, rfl, rfl, rfl⟩, h1.1, ha, h1.2.2.1 ha, h2.1, hn, h2.2.2.2 hn⟩

/-- The first scenario of the specification: with both templates the boot
environment is available; without the eLILO template the save succeeds, the
boot environment is not available and the error is recorded. -/
theorem BootEnv.BeforeSave_boot_loader_scenario :
    (BootEnv.BeforeSave Env.quiet {} Example.ubuntu).2 = none ∧
    (BootEnv.BeforeSave Env.quiet {} Example.ubuntu).1.Available = true ∧
    (BootEnv.BeforeSave Env.quiet {} Example.ubuntuNoElilo).2 = none ∧
    (BootEnv.BeforeSave Env.quiet {} Example.ubuntuNoElilo).1.Available = false ∧
    (BootEnv.BeforeSave Env.quiet {} Example.ubuntuNoElilo).1.Errors =
      ["bootenv: Missing elilo or pxelinux template"] := by
  refine ⟨by decide, by decide, by decide, by decide, by decide⟩

theorem Error.addAll_containsError (msgs : List String) :
    ∀ e : Error, (e.addAll msgs).containsError = true ↔ (e.containsError = true ∨ msgs ≠ []) := by
  induction msgs with
  | nil => intro e; simp [Error.addAll]
  | cons m rest ih =>
    intro e
    have h := ih (e.Errorf m)
    simp only [Error.addAll, List.foldl_cons] at h ⊢
    rw [h]
    simp [Error.Errorf]

theorem Error.addAll_code (msgs : List String) :
    ∀ e : Error, (e.addAll msgs).Code = e.Code ∧ (e.addAll msgs).Typ = e.Typ := by
  induction msgs with
  | nil => intro e; exact ⟨rfl, rfl⟩
  | cons m rest ih =>
    intro e
    have h := ih (e.Errorf m)
    simp only [Error.addAll, List.foldl_cons] at h ⊢
    exact h

theorem Error.Merge_containsError (e : Error) (src : Option Error) :
    (e.Merge src).containsError = true ↔ (e.containsError = true ∨ src ≠ none) := by
  cases src <;> simp [Error.Merge]

theorem Error.Merge_code (e : Error) (src : Option Error) :
    (e.Merge src).Code = e.Code ∧ (e.Merge src).Typ = e.Typ := by
  cases src <;> exact ⟨rfl, rfl⟩

theorem Machine.Validate.fields_containsError (env : Env) (n : Machine) (e : Error) :
    (Machine.Validate.fields env n e).containsError = true ↔
      (e.containsError = true ∨ n.Uuid = none ∨ n.Name = "") := by
  unfold Machine.Validate.fields
  by_cases hu : n.Uuid = none <;> by_cases hn : n.Name = "" <;> simp [hu, hn, Error.Errorf]

theorem Machine.Validate.fields_code (env : Env) (n : Machine) (e : Error) :
    (Machine.Validate.fields env n e).Code = e.Code ∧
      (Machine.Validate.fields env n e).Typ = e.Typ := by
  unfold Machine.Validate.fields
  by_cases hu : n.Uuid = none <;> by_cases hn : n.Name = "" <;> simp [hu, hn, Error.Errorf]

/-- What `Validate` changes of the machine: the boot environment, when the
machine names none. -/
theorem Machine.Validate.defaulted_eq (p : DataTracker) (n : Machine) :
    Machine.Validate.defaulted p n =
      { n with BootEnv := if n.BootEnv = "" then p.defaultBootEnv else n.BootEnv } := by
  unfold Machine.Validate.defaulted
  split <;> rfl

theorem Machine.Validate.profiles_containsError (p : DataTracker) (names : List String) :
    ∀ (i : Nat) (wanted : List (String × Nat)) (e : Error),
      (Machine.Validate.profiles p i names wanted e).containsError = true ↔
        (e.containsError = true ∨ (∃ name ∈ names, p.findProfile name = none) ∨
          (∃ name ∈ names, (wanted.lookup name).isSome = true) ∨ ¬names.Nodup) := by
  induction names with
  | nil => intro i wanted e; simp [Machine.Validate.profiles]
  | cons x rest ih =>
    intro i wanted e
    unfold Machine.Validate.profiles
    cases hf : p.findProfile x with
    | none =>
      simp only [ih, Error.Errorf_containsError, true_or, true_iff]
      exact Or.inr (Or.inl ⟨x, List.mem_cons_self _ _, hf⟩)
    | some pr =>
      cases hw : wanted.lookup x with
      | some at_ =>
        simp only [ih, Error.Errorf_containsError, true_or, true_iff]
        exact Or.inr (Or.inr (Or.inl ⟨x, List.mem_cons_self _ _, by simp [hw]⟩))
      | none =>
        simp only [ih, List.mem_cons, exists_eq_or_imp, hf, hw, List.nodup_cons, List.lookup_cons]
        have hx : ∀ name ∈ rest,
            ((match name == x with
              | true => some i
              | false => List.lookup name wanted).isSome = true) ↔
            (name = x ∨ (List.lookup name wanted).isSome = true) := by
          intro name _
          by_cases hnx : name = x
          · simp [hnx]
          · have : (name == x) = false := by simpa using hnx
            simp [this, hnx]
        constructor
        · rintro (h | ⟨name, hm, hn⟩ | ⟨name, hm, hl⟩ | hnd)
          · exact Or.inl h
          · exact Or.inr (Or.inl (Or.inr ⟨name, hm, hn⟩))
          · rcases (hx name hm).1 hl with h1 | h2
            · exact Or.inr (Or.inr (Or.inr (fun hx' => hx'.1 (h1 ▸ hm))))
            · exact Or.inr (Or.inr (Or.inl (Or.inr ⟨name, hm, h2⟩)))
          · exact Or.inr (Or.inr (Or.inr (fun hx' => hnd hx'.2)))
        · rintro (h | (h | ⟨name, hm, hn⟩) | (h | ⟨name, hm, hl⟩) | hnd)
          · exact Or.inl h
          · simp at h
          · exact Or.inr (Or.inl ⟨name, hm, hn⟩)
          · simp at h
          · exact Or.inr (Or.inr (Or.inl ⟨name, hm, (hx name hm).2 (Or.inr hl)⟩))
          · by_cases hxr : x ∈ rest
            · exact Or.inr (Or.inr (Or.inl ⟨x, hxr, (hx x hxr).2 (Or.inl rfl)⟩))
            · exact Or.inr (Or.inr (Or.inr (fun hr => hnd ⟨hxr, hr⟩)))

theorem Machine.Validate.profiles_code (p : DataTracker) (names : List String) :
    ∀ (i : Nat) (wanted : List (String × Nat)) (e : Error),
      (Machine.Validate.profiles p i names wanted e).Code = e.Code ∧
        (Machine.Validate.profiles p i names wanted e).Typ = e.Typ := by
  induction names with
  | nil => intro i wanted e; exact ⟨rfl, rfl⟩
  | cons x rest ih =>
    intro i wanted e
    unfold Machine.Validate.profiles
    split
    · exact ih _ _ _
    · split
      · exact ih _ _ _
      · exact ih _ _ _

theorem Machine.Validate.tasks_containsError (p : DataTracker) (names : List String) :
    ∀ (i : Nat) (e : Error),
      (Machine.Validate.tasks p i names e).containsError = true ↔
        (e.containsError = true ∨ ∃ name ∈ names, p.findTask name = none) := by
  induction names with
  | nil => intro i e; simp [Machine.Validate.tasks]
  | cons x rest ih =>
    intro i e
    unfold Machine.Validate.tasks
    rw [ih]
    cases hf : p.findTask x <;> simp [hf, Error.Errorf]

theorem Machine.Validate.tasks_code (p : DataTracker) (names : List String) :
    ∀ (i : Nat) (e : Error),
      (Machine.Validate.tasks p i names e).Code = e.Code ∧
        (Machine.Validate.tasks p i names e).Typ = e.Typ := by
  induction names with
  | nil => intro i e; exact ⟨rfl, rfl⟩
  | cons x rest ih =>
    intro i e
    unfold Machine.Validate.tasks
    have h := ih (i + 1) (if (p.findTask x).isNone then
        e.Errorf ("Task " ++ x ++ " (at " ++ toString i ++ ") does not exist") else e)
    refine ⟨h.1.trans ?_, h.2.trans ?_⟩ <;> split <;> rfl

theorem Machine.Validate.bootEnv_containsError (p : DataTracker) (n : Machine) (e : Error) :
    (Machine.Validate.bootEnv p n e).containsError = true ↔
      (e.containsError = true ∨ p.findBootEnv n.BootEnv = none) := by
  unfold Machine.Validate.bootEnv
  cases hf : p.findBootEnv n.BootEnv <;> simp [Error.Errorf]

theorem Machine.Validate.bootEnv_code (p : DataTracker) (n : Machine) (e : Error) :
    (Machine.Validate.bootEnv p n e).Code = e.Code ∧
      (Machine.Validate.bootEnv p n e).Typ = e.Typ := by
  unfold Machine.Validate.bootEnv
  split <;> exact ⟨rfl, rfl⟩


/-- The error of `Validate` contains an error exactly when the uuid is nil, the
name is empty, the address or the key is reported, or a reference is at
fault. -/
theorem Machine.Validate.error_containsError (env : Env) (p : DataTracker) (n : Machine) :
    (Machine.Validate.error env p n).containsError = true ↔
      (n.Uuid = none ∨ n.Name = "" ∨ env.validateMaybeZeroIP4 n.Address ≠ [] ∨
        env.checkUnique (Machine.Validate.defaulted p n) p.machines ≠ none ∨
        Machine.referenceFault p n) := by
  have hP : (Machine.Validate.defaulted p n).Profiles = n.Profiles := by
    rw [Machine.Validate.defaulted_eq]
  have hT : (Machine.Validate.defaulted p n).Tasks = n.Tasks := by
    rw [Machine.Validate.defaulted_eq]
  have hA : (Machine.Validate.defaulted p n).Address = n.Address := by
    rw [Machine.Validate.defaulted_eq]
  unfold Machine.Validate.error Machine.referenceFault
  simp only [Machine.Validate.bootEnv_containsError, Machine.Validate.tasks_containsError,
    Machine.Validate.profiles_containsError, Error.Merge_containsError,
    Error.addAll_containsError, Machine.Validate.fields_containsError, hP, hT, hA]
  simp only [List.lookup_nil, Option.isSome_none, Bool.false_eq_true, and_false, exists_false,
    false_or]
  generalize (∃ name ∈ n.Profiles, p.findProfile name = none) = P1
  generalize (∃ name ∈ n.Tasks, p.findTask name = none) = T1
  tauto

theorem Machine.Validate.error_code (env : Env) (p : DataTracker) (n : Machine) :
    (Machine.Validate.error env p n).Code = 422 ∧
      (Machine.Validate.error env p n).Typ = ValidationError := by
  unfold Machine.Validate.error
  dsimp only
  have h1 := Machine.Validate.bootEnv_code p (Machine.Validate.defaulted p n)
  have h2 := Machine.Validate.tasks_code p (Machine.Validate.defaulted p n).Tasks
  have h3 := Machine.Validate.profiles_code p (Machine.Validate.defaulted p n).Profiles
  have h4 := Error.Merge_code
  have h5 := Error.addAll_code
  have h6 := Machine.Validate.fields_code env n { Code := 422, Typ := ValidationError }
  refine ⟨?_, ?_⟩
  · rw [(h1 _).1, (h2 _ _).1, (h3 _ _ _).1, (h4 _ _).1, (h5 _ _).1, h6.1]
  · rw [(h1 _).2, (h2 _ _).2, (h3 _ _ _).2, (h4 _ _).2, (h5 _ _).2, h6.2]

/-- C5: `Validate` assigns the default boot environment to a machine that names
none and changes nothing else; it returns no error exactly when the uuid is not
nil, the name is not empty, neither the address nor the key is reported, and no
reference is at fault (a profile or a task that does not exist, a profile listed
twice, a boot environment that does not exist); an error it returns has code 422
and type ValidationError. -/
theorem Machine.Validate_references (env : Env) (p : DataTracker) (n : Machine) :
    (Machine.Validate env p n).1 =
      { n with BootEnv := if n.BootEnv = "" then p.defaultBootEnv else n.BootEnv } ∧
    ((Machine.Validate env p n).2 = none ↔
      (n.Uuid ≠ none ∧ n.Name ≠ "" ∧ env.validateMaybeZeroIP4 n.Address = [] ∧
        env.checkUnique (Machine.Validate env p n).1 p.machines = none ∧
        ¬Machine.referenceFault p n)) ∧
    ((Machine.Validate env p n).2 = none ∨
      ∃ e, (Machine.Validate env p n).2 = some e ∧ e.Code = 422 ∧ e.Typ = ValidationError) := by
  refine ⟨Machine.Validate.defaulted_eq p n, ?_, ?_⟩
  · unfold Machine.Validate
    rw [Error.OrNil_eq_none, ← Bool.not_eq_true, Machine.Validate.error_containsError]
    tauto
  · unfold Machine.Validate
    cases h : (Machine.Validate.error env p n).OrNil with
    | none => exact Or.inl rfl
    | some e =>
      refine Or.inr ⟨e, rfl, ?_⟩
      rw [((Error.OrNil_eq_some _ _).1 h).2]
      exact Machine.Validate.error_code env p n

/-- The first scenario of a machine: the machine that names no boot environment
validates and gets the default one; the same machine with a profile listed twice
or with an unknown task does not validate. -/
theorem Machine.Validate_scenario :
    (Machine.Validate Env.quiet Example.machineTracker Example.m1).2 = none ∧
    (Machine.Validate Env.quiet Example.machineTracker Example.m1).1.BootEnv = "ubuntu-install" ∧
    (Machine.Validate Env.quiet Example.machineTracker
      { Example.m1 with Profiles := ["rack1", "rack1"] }).2 =
      some { Code := 422, Typ := ValidationError,
             Messages := ["Duplicate profile rack1: at 0 and 1"], containsError := true } ∧
    (Machine.Validate Env.quiet Example.machineTracker
      { Example.m1 with Tasks := ["install", "burnin"] }).2 =
      some { Code := 422, Typ := ValidationError,
             Messages := ["Task burnin (at 1) does not exist"], containsError := true } := by
  refine ⟨by decide, by decide, by decide, by decide⟩


/-! ## machines.go: `BeforeSave` -/

theorem Machine.BeforeSave.flags_containsError (n : Machine) (be : Provision.BootEnv)
    (e : Error) :
    (Machine.BeforeSave.flags n be e).containsError = true ↔
      (e.containsError = true ∨ be.OnlyUnknown = true ∨ be.Available = false) := by
  unfold Machine.BeforeSave.flags
  cases be.OnlyUnknown <;> cases be.Available <;> simp [Error.Errorf]

theorem Machine.BeforeSave.flags_code (n : Machine) (be : Provision.BootEnv) (e : Error) :
    (Machine.BeforeSave.flags n be e).Code = e.Code ∧
      (Machine.BeforeSave.flags n be e).Typ = e.Typ := by
  unfold Machine.BeforeSave.flags
  cases be.OnlyUnknown <;> cases be.Available <;> simp [Error.Errorf]

/-- The machine `BeforeSave` leaves is the machine `Validate` leaves. -/
theorem Machine.BeforeSave_machine (env : Env) (p : DataTracker) (n : Machine) :
    (Machine.BeforeSave env p n).n = Machine.Validate.defaulted p n := by
  unfold Machine.BeforeSave Machine.Validate
  cases (Machine.Validate.error env p n).OrNil with
  | some err => rfl
  | none =>
    dsimp only
    cases p.findBootEnv (Machine.Validate.defaulted p n).BootEnv with
    | none => rfl
    | some be =>
      dsimp only
      split <;> rfl

/-- C4: when the boot environment of the machine (the default one when the
machine names none) does not exist, has OnlyUnknown set or is not available,
`BeforeSave` returns an error with code 422 and type ValidationError. -/
theorem Machine.BeforeSave_rejects_bad_bootenv (env : Env) (p : DataTracker) (n : Machine)
    (h : ¬∃ be, p.findBootEnv (Machine.Validate.defaulted p n).BootEnv = some be ∧
      be.Available = true ∧ be.OnlyUnknown = false) :
    ∃ e, (Machine.BeforeSave env p n).err = some e ∧ e.Code = 422 ∧ e.Typ = ValidationError := by
  unfold Machine.BeforeSave Machine.Validate
  cases hv : (Machine.Validate.error env p n).OrNil with
  | some err =>
    refine ⟨err, rfl, ?_⟩
    rw [((Error.OrNil_eq_some _ _).1 hv).2]
    exact Machine.Validate.error_code env p n
  | none =>
    dsimp only
    cases hf : p.findBootEnv (Machine.Validate.defaulted p n).BootEnv with
    | none => exact ⟨_, rfl, rfl, rfl⟩
    | some be =>
      dsimp only
      have hbad : (Machine.BeforeSave.flags (Machine.Validate.defaulted p n) be
          { Code := 422, Typ := ValidationError }).containsError = true := by
        rw [Machine.BeforeSave.flags_containsError]
        by_cases ho : be.OnlyUnknown = true
        · exact Or.inr (Or.inl ho)
        · by_cases ha : be.Available = true
          · exact absurd ⟨be, hf, ha, by simpa using ho⟩ h
          · exact Or.inr (Or.inr (by simpa using ha))
      have hcode := Machine.BeforeSave.flags_code (Machine.Validate.defaulted p n) be
        { Code := 422, Typ := ValidationError }
      simp only [Error.ContainsError, hbad, Bool.not_true, Bool.false_eq_true, if_false]
      exact ⟨_, (Error.OrNil_eq_some _ _).2 ⟨hbad, rfl⟩, hcode.1, hcode.2⟩

/-- C4 at the machine that asks for the boot environment for unknown
machines. -/
theorem Machine.BeforeSave_rejects_bad_bootenv_witness :
    (¬∃ be, Example.machineTracker.findBootEnv
        (Machine.Validate.defaulted Example.machineTracker Example.m2).BootEnv = some be ∧
      be.Available = true ∧ be.OnlyUnknown = false) ∧
    ∃ e, (Machine.BeforeSave Env.quiet Example.machineTracker Example.m2).err = some e ∧
      e.Code = 422 ∧ e.Typ = ValidationError :=
  have hbad : ¬∃ be, Example.machineTracker.findBootEnv
        (Machine.Validate.defaulted Example.machineTracker Example.m2).BootEnv = some be ∧
      be.Available = true ∧ be.OnlyUnknown = false := by
    rintro ⟨be, hf, _, ho⟩
    have hfound : Example.machineTracker.findBootEnv
        (Machine.Validate.defaulted Example.machineTracker Example.m2).BootEnv =
        some { Example.unknownEnv with Available := true } := by decide
    rw [hfound] at hf
    cases hf
    exact absurd ho (by decide)
  ⟨hbad, Machine.BeforeSave_rejects_bad_bootenv Env.quiet Example.machineTracker Example.m2 hbad⟩

/-- A machine that `BeforeSave` accepts references an existing boot environment
that is available and does not have OnlyUnknown set. -/
theorem Machine.BeforeSave_accepts_good_bootenv (env : Env) (p : DataTracker) (n : Machine)
    (h : (Machine.BeforeSave env p n).err = none) :
    ∃ be, p.findBootEnv (Machine.BeforeSave env p n).n.BootEnv = some be ∧
      be.Available = true ∧ be.OnlyUnknown = false := by
  rw [Machine.BeforeSave_machine]
  unfold Machine.BeforeSave Machine.Validate at h
  cases hv : (Machine.Validate.error env p n).OrNil with
  | some err => rw [hv] at h; simp at h
  | none =>
    rw [hv] at h
    dsimp only at h
    cases hf : p.findBootEnv (Machine.Validate.defaulted p n).BootEnv with
    | none => rw [hf] at h; simp at h
    | some be =>
      rw [hf] at h
      dsimp only at h
      refine ⟨be, rfl, ?_⟩
      by_contra hbad
      have hflags : (Machine.BeforeSave.flags (Machine.Validate.defaulted p n) be
          { Code := 422, Typ := ValidationError }).containsError = true := by
        rw [Machine.BeforeSave.flags_containsError]
        by_cases ho : be.OnlyUnknown = true
        · exact Or.inr (Or.inl ho)
        · by_cases ha : be.Available = true
          · exact absurd ⟨ha, by simpa using ho⟩ hbad
          · exact Or.inr (Or.inr (by simpa using ha))
      simp [Error.ContainsError, hflags, Error.OrNil] at h

/-- The machine that names no boot environment is accepted with the default
one, and its renders are registered; the machine that asks for the boot
environment for unknown machines is rejected. -/
theorem Machine.BeforeSave_default_and_unknown :
    (Machine.BeforeSave Env.quiet Example.machineTracker Example.m1).err = none ∧
    (Machine.BeforeSave Env.quiet Example.machineTracker Example.m1).n.BootEnv = "ubuntu-install" ∧
    (Machine.BeforeSave Env.quiet Example.machineTracker Example.m2).err =
      some { Code := 422, Typ := ValidationError,
             Messages := ["BootEnv ignore does not allow Machine assignments, " ++
               "it has the OnlyUnknown flag."],
             containsError := true } := by
  refine ⟨by decide, by decide, by decide⟩


/-! ## dhcp.go: the Request case of `ServeDHCP` -/

theorem DhcpHandler.ServeDHCP_request (lb : LeaseBackend) (h : DhcpHandler) (now : Time)
    (p : Packet) (options : Options) :
    DhcpHandler.ServeDHCP lb h now p Request options =
      DhcpHandler.ServeDHCP.request lb h now p options (reqAddr p Request options).1
        (reqAddr p Request options).2 := by
  simp [DhcpHandler.ServeDHCP, Request, Decline, Release]

theorem DhcpHandler.nak_messageType (p : Packet) (addr : IP) :
    (DhcpHandler.nak p addr).MessageType = some [NAK] := by
  simp [DhcpHandler.nak, ReplyPacket, Packet.MessageType, OptionDHCPMessageType, NAK,
    List.lookup]

theorem ReplyPacket_messageType (req : Packet) (mt : Nat) (serverId yIAddr : IP)
    (leaseDuration : Nat) (options : List (Nat × List Nat)) :
    (ReplyPacket req mt serverId yIAddr leaseDuration options).MessageType = some [mt % 256] := by
  simp [ReplyPacket, Packet.MessageType, OptionDHCPMessageType, List.lookup]

theorem Packet.SetSIAddr_messageType (p : Packet) (ip : IP) :
    (p.SetSIAddr ip).MessageType = p.MessageType := rfl

/-- The message type of the reply to a Request whose server identifier, if any,
lies in a network the interface listens on, by the way the loop over the
strategies ends. -/
theorem DhcpHandler.ServeDHCP_request_reply (lb : LeaseBackend) (h : DhcpHandler) (now : Time)
    (p : Packet) (options : Options)
    (hpass : (options.lookup OptionServerIdentifier).isSome = true →
      h.listenOn ((options.lookup OptionServerIdentifier).getD []) = true) :
    (DhcpHandler.ServeDHCP lb h now p Request options).1.map Packet.MessageType =
      if IP.IsGlobalUnicast (reqAddr p Request options).1 then
        match DhcpHandler.ServeDHCP.findLease lb now p options (reqAddr p Request options).1
            h.strats h.bk with
        | Found.failed _ _ _ => some (some [NAK])
        | Found.nothing _ =>
          if (reqAddr p Request options).2 = reqInitReboot then none else some (some [NAK])
        | Found.lease _ _ _ _ => some (some [ACK])
      else some (some [NAK]) := by
  rw [DhcpHandler.ServeDHCP_request]
  unfold DhcpHandler.ServeDHCP.request
  have hgate : ((options.lookup OptionServerIdentifier).isSome &&
      !h.listenOn ((options.lookup OptionServerIdentifier).getD [])) = false := by
    cases hs : (options.lookup OptionServerIdentifier).isSome
    · rfl
    · simp [hpass hs]
  simp only [hgate, Bool.false_eq_true, if_false]
  cases hgu : IP.IsGlobalUnicast (reqAddr p Request options).1
  · simp [DhcpHandler.nak_messageType]
  · simp only [Bool.not_true, Bool.false_eq_true, if_false, if_true]
    cases hf : DhcpHandler.ServeDHCP.findLease lb now p options (reqAddr p Request options).1
        h.strats h.bk with
    | failed l err bk => simp [DhcpHandler.nak_messageType]
    | nothing bk =>
      by_cases hst : (reqAddr p Request options).2 = reqInitReboot
      · simp [hst]
      · simp [hst, DhcpHandler.nak_messageType]
    | lease l s r bk =>
      dsimp only
      split <;> simp [Packet.SetSIAddr_messageType, ReplyPacket_messageType, ACK]

/-- The reply to the Request of the client of the lease of 10.0.0.12 that selects
this server, by the way the loop over the strategies ends. -/
theorem DhcpHandler.ServeDHCP_request_reply_witness :
    ((Example.selectingUs.lookup OptionServerIdentifier).isSome = true →
      Example.handler.listenOn ((Example.selectingUs.lookup OptionServerIdentifier).getD []) =
        true) ∧
    (DhcpHandler.ServeDHCP Example.backend Example.handler 0 Example.packet Request
        Example.selectingUs).1.map Packet.MessageType =
      if IP.IsGlobalUnicast (reqAddr Example.packet Request Example.selectingUs).1 then
        match DhcpHandler.ServeDHCP.findLease Example.backend 0 Example.packet Example.selectingUs
            (reqAddr Example.packet Request Example.selectingUs).1 Example.handler.strats
            Example.handler.bk with
        | Found.failed _ _ _ => some (some [NAK])
        | Found.nothing _ =>
          if (reqAddr Example.packet Request Example.selectingUs).2 = reqInitReboot then none
          else some (some [NAK])
        | Found.lease _ _ _ _ => some (some [ACK])
      else some (some [NAK]) :=
  ⟨by decide, DhcpHandler.ServeDHCP_request_reply Example.backend Example.handler 0
    Example.packet Example.selectingUs (by decide)⟩

theorem DhcpHandler.ServeDHCP.findLease_cons (lb : LeaseBackend) (now : Time) (p : Packet)
    (options : Options) (req : IP) (s : Provision.Strategy) (rest : List Provision.Strategy)
    (bk : DataTracker) :
    DhcpHandler.ServeDHCP.findLease lb now p options req (s :: rest) bk =
      match (lb.FindLease now bk s.Name (s.GenToken p options) req).err with
      | some err =>
        Found.failed (lb.FindLease now bk s.Name (s.GenToken p options) req).lease err
          (lb.FindLease now bk s.Name (s.GenToken p options) req).bk
      | none =>
        match (lb.FindLease now bk s.Name (s.GenToken p options) req).lease with
        | some l =>
          Found.lease l (lb.FindLease now bk s.Name (s.GenToken p options) req).subnet
            (lb.FindLease now bk s.Name (s.GenToken p options) req).reservation
            (lb.FindLease now bk s.Name (s.GenToken p options) req).bk
        | none =>
          DhcpHandler.ServeDHCP.findLease lb now p options req rest
            (lb.FindLease now bk s.Name (s.GenToken p options) req).bk := rfl

/-- The loop over the strategies passes every strategy for which `FindLease`
returns neither an error nor a lease, handing the tracker on. -/
theorem DhcpHandler.ServeDHCP.findLease_skip (lb : LeaseBackend) (now : Time) (p : Packet)
    (options : Options) (req : IP) :
    ∀ (strats : List Provision.Strategy) (k : Nat) (bks : Nat → DataTracker),
      k ≤ strats.length →
      (∀ j (hj : j < strats.length), j < k →
        (lb.FindLease now (bks j) (strats.get ⟨j, hj⟩).Name
            ((strats.get ⟨j, hj⟩).GenToken p options) req).err = none ∧
        (lb.FindLease now (bks j) (strats.get ⟨j, hj⟩).Name
            ((strats.get ⟨j, hj⟩).GenToken p options) req).lease = none ∧
        bks (j + 1) = (lb.FindLease now (bks j) (strats.get ⟨j, hj⟩).Name
            ((strats.get ⟨j, hj⟩).GenToken p options) req).bk) →
      DhcpHandler.ServeDHCP.findLease lb now p options req strats (bks 0) =
        DhcpHandler.ServeDHCP.findLease lb now p options req (strats.drop k) (bks k)
  | _, 0, _, _, _ => rfl
  | [], k + 1, _, hk, _ => absurd hk (Nat.not_succ_le_zero k)
  | s :: rest, k + 1, bks, hk, htrace => by
    have h0 := htrace 0 (Nat.succ_pos _) (Nat.succ_pos k)
    have h0e : (lb.FindLease now (bks 0) s.Name (s.GenToken p options) req).err = none := h0.1
    have h0l : (lb.FindLease now (bks 0) s.Name (s.GenToken p options) req).lease = none :=
      h0.2.1
    have h0b : bks 1 = (lb.FindLease now (bks 0) s.Name (s.GenToken p options) req).bk :=
      h0.2.2
    have ih := DhcpHandler.ServeDHCP.findLease_skip lb now p options req rest k
      (fun j => bks (j + 1)) (Nat.le_of_succ_le_succ hk)
      (fun j hj hjk => htrace (j + 1) (Nat.succ_lt_succ hj) (Nat.succ_lt_succ hjk))
    rw [DhcpHandler.ServeDHCP.findLease_cons, h0e, h0l, ← h0b]
    exact ih

/-- A lease the loop over the strategies ends with is one `FindLease` returned,
without an error, for a configured strategy. -/
theorem DhcpHandler.ServeDHCP.findLease_lease (lb : LeaseBackend) (now : Time) (p : Packet)
    (options : Options) (req : IP) (l : Lease) (sub : Option Subnet) (res : Option Reservation)
    (bk' : DataTracker) :
    ∀ (strats : List Provision.Strategy) (bk : DataTracker),
      DhcpHandler.ServeDHCP.findLease lb now p options req strats bk = Found.lease l sub res bk' →
      ∃ s ∈ strats, ∃ bk0,
        (lb.FindLease now bk0 s.Name (s.GenToken p options) req).err = none ∧
        (lb.FindLease now bk0 s.Name (s.GenToken p options) req).lease = some l
  | [], bk, h => by simp [DhcpHandler.ServeDHCP.findLease] at h
  | s :: rest, bk, h => by
    rw [DhcpHandler.ServeDHCP.findLease_cons] at h
    cases he : (lb.FindLease now bk s.Name (s.GenToken p options) req).err with
    | some err => rw [he] at h; cases h
    | none =>
      rw [he] at h
      dsimp only at h
      cases hl : (lb.FindLease now bk s.Name (s.GenToken p options) req).lease with
      | some l0 =>
        rw [hl] at h
        dsimp only at h
        cases h
        exact ⟨s, List.mem_cons_self _ _, bk, he, hl⟩
      | none =>
        rw [hl] at h
        dsimp only at h
        obtain ⟨s', hs', bk0, h1, h2⟩ :=
          DhcpHandler.ServeDHCP.findLease_lease lb now p options req l sub res bk' rest _ h
        exact ⟨s', List.mem_cons_of_mem _ hs', bk0, h1, h2⟩

/-- C9: for a Request whose server identifier, if any, lies in a network the
interface listens on. The reply is a NAK when the requested address is not a
global unicast address. Otherwise the strategies are tried in order, each call
of `FindLease` getting the tracker the call before left: when `FindLease`
returned neither an error nor a lease for the strategies before the k-th, the
reply is a NAK if it returns an error for the k-th, and an ACK if it returns a
lease without an error for the k-th; when it returned neither for every
strategy, there is no reply if the state is INIT-REBOOT and the reply is a NAK
otherwise. The reply is an ACK only when the requested address is a global
unicast address and `FindLease` returned a lease without an error for a
configured strategy. -/
theorem DhcpHandler.ServeDHCP_request_by_strategy (lb : LeaseBackend) (h : DhcpHandler)
    (now : Time) (p : Packet) (options : Options)
    (hpass : (options.lookup OptionServerIdentifier).isSome = true →
      h.listenOn ((options.lookup OptionServerIdentifier).getD []) = true) :
    (IP.IsGlobalUnicast (reqAddr p Request options).1 = false →
      (DhcpHandler.ServeDHCP lb h now p Request options).1.map Packet.MessageType =
        some (some [NAK])) ∧
    (IP.IsGlobalUnicast (reqAddr p Request options).1 = true →
      ∀ (k : Nat) (bks : Nat → DataTracker), bks 0 = h.bk → k ≤ h.strats.length →
        (∀ j (hj : j < h.strats.length), j < k →
          (lb.FindLease now (bks j) (h.strats.get ⟨j, hj⟩).Name
              ((h.strats.get ⟨j, hj⟩).GenToken p options) (reqAddr p Request options).1).err =
            none ∧
          (lb.FindLease now (bks j) (h.strats.get ⟨j, hj⟩).Name
              ((h.strats.get ⟨j, hj⟩).GenToken p options) (reqAddr p Request options).1).lease =
            none ∧
          bks (j + 1) = (lb.FindLease now (bks j) (h.strats.get ⟨j, hj⟩).Name
              ((h.strats.get ⟨j, hj⟩).GenToken p options) (reqAddr p Request options).1).bk) →
        (∀ hk : k < h.strats.length,
          ((lb.FindLease now (bks k) (h.strats.get ⟨k, hk⟩).Name
              ((h.strats.get ⟨k, hk⟩).GenToken p options) (reqAddr p Request options).1).err ≠
              none →
            (DhcpHandler.ServeDHCP lb h now p Request options).1.map Packet.MessageType =
              some (some [NAK])) ∧
          ((lb.FindLease now (bks k) (h.strats.get ⟨k, hk⟩).Name
              ((h.strats.get ⟨k, hk⟩).GenToken p options) (reqAddr p Request options).1).err =
              none →
            (lb.FindLease now (bks k) (h.strats.get ⟨k, hk⟩).Name
              ((h.strats.get ⟨k, hk⟩).GenToken p options) (reqAddr p Request options).1).lease ≠
              none →
            (DhcpHandler.ServeDHCP lb h now p Request options).1.map Packet.MessageType =
              some (some [ACK]))) ∧
        (k = h.strats.length →
          ((reqAddr p Request options).2 = reqInitReboot →
            (DhcpHandler.ServeDHCP lb h now p Request options).1 = none) ∧
          ((reqAddr p Request options).2 ≠ reqInitReboot →
            (DhcpHandler.ServeDHCP lb h now p Request options).1.map Packet.MessageType =
              some (some [NAK])))) ∧
    ((DhcpHandler.ServeDHCP lb h now p Request options).1.map Packet.MessageType =
        some (some [ACK]) →
      IP.IsGlobalUnicast (reqAddr p Request options).1 = true ∧
      ∃ s ∈ h.strats, ∃ (bk : DataTracker) (l : Lease),
        (lb.FindLease now bk s.Name (s.GenToken p options) (reqAddr p Request options).1).err =
          none ∧
        (lb.FindLease now bk s.Name (s.GenToken p options) (reqAddr p Request options).1).lease =
          some l) := by
  have hreply := DhcpHandler.ServeDHCP_request_reply lb h now p options hpass
  refine ⟨?_, ?_, ?_⟩
  · intro hgu
    rw [hreply, hgu]
    rfl
  · intro hgu k bks hb0 hkl htrace
    have hskip := DhcpHandler.ServeDHCP.findLease_skip lb now p options
      (reqAddr p Request options).1 h.strats k bks hkl htrace
    rw [hb0] at hskip
    rw [hreply, hgu, if_pos rfl, hskip]
    refine ⟨?_, ?_⟩
    · intro hk
      have hdrop : h.strats.drop k = h.strats.get ⟨k, hk⟩ :: h.strats.drop (k + 1) := by
        rw [List.get_eq_getElem]
        exact List.drop_eq_getElem_cons hk
      rw [hdrop]
      refine ⟨?_, ?_⟩
      · intro herr
        cases he : (lb.FindLease now (bks k) (h.strats.get ⟨k, hk⟩).Name
            ((h.strats.get ⟨k, hk⟩).GenToken p options) (reqAddr p Request options).1).err with
        | none => exact absurd he herr
        | some err => simp only [DhcpHandler.ServeDHCP.findLease, he]
      · intro herr hlease
        cases hl : (lb.FindLease now (bks k) (h.strats.get ⟨k, hk⟩).Name
            ((h.strats.get ⟨k, hk⟩).GenToken p options) (reqAddr p Request options).1).lease with
        | none => exact absurd hl hlease
        | some l => simp only [DhcpHandler.ServeDHCP.findLease, herr, hl]
    · intro hk
      rw [hk, List.drop_length]
      refine ⟨?_, ?_⟩
      · intro hst
        have hmap : (DhcpHandler.ServeDHCP lb h now p Request options).1.map Packet.MessageType =
            none := by
          rw [hreply, hgu, if_pos rfl, hskip, hk, List.drop_length]
          simp [DhcpHandler.ServeDHCP.findLease, hst]
        exact Option.map_eq_none'.1 hmap
      · intro hst
        simp [DhcpHandler.ServeDHCP.findLease, hst]
  · intro hack
    rw [hreply] at hack
    cases hgu : IP.IsGlobalUnicast (reqAddr p Request options).1 with
    | false =>
      rw [hgu] at hack
      simp [NAK, ACK] at hack
    | true =>
      rw [hgu, if_pos rfl] at hack
      refine ⟨rfl, ?_⟩
      cases hf : DhcpHandler.ServeDHCP.findLease lb now p options (reqAddr p Request options).1
          h.strats h.bk with
      | failed l err bk =>
        rw [hf] at hack
        simp [NAK, ACK] at hack
      | nothing bk =>
        rw [hf] at hack
        by_cases hst : (reqAddr p Request options).2 = reqInitReboot
        · simp [hst] at hack
        · simp [hst, NAK, ACK] at hack
      | lease l sub res bk =>
        obtain ⟨s, hs, bk0, h1, h2⟩ :=
          DhcpHandler.ServeDHCP.findLease_lease lb now p options _ l sub res bk h.strats h.bk hf
        exact ⟨s, hs, bk0, l, h1, h2⟩

/-- C9 at the handler that listens on 10.0.0.1/24 with the MAC strategy and the
lease of aa:bb:cc:dd:ee:ff at 10.0.0.12: the Request of that client is answered
with an ACK, `FindLease` returning the lease; the Request of another client for
the same address is answered with a NAK, `FindLease` returning an error; a
Request for 10.0.0.13, which is not leased, gets a NAK in the state SELECTING. -/
theorem DhcpHandler.ServeDHCP_request_by_strategy_witness :
    ((Example.selectingUs.lookup OptionServerIdentifier).isSome = true →
      Example.handler.listenOn ((Example.selectingUs.lookup OptionServerIdentifier).getD []) =
        true) ∧
    (DhcpHandler.ServeDHCP Example.backend Example.handler 0 Example.packet Request
        Example.selectingUs).1.map Packet.MessageType = some (some [ACK]) ∧
    (DhcpHandler.ServeDHCP Example.backend Example.handler 0
        { Example.packet with CHAddr := [0, 1, 2, 3, 4, 5] } Request
        Example.selectingUs).1.map Packet.MessageType = some (some [NAK]) ∧
    (DhcpHandler.ServeDHCP Example.backend Example.handler 0 Example.packet Request
        [(53, [3]), (54, [10, 0, 0, 1]), (50, [10, 0, 0, 13])]).1.map Packet.MessageType =
      some (some [NAK]) :=
  ⟨by decide,
    (((DhcpHandler.ServeDHCP_request_by_strategy Example.backend Example.handler 0
      Example.packet Example.selectingUs (by decide)).2.1 (by decide) 0
      (fun _ => Example.handler.bk) rfl (by decide)
      (fun j _ hj => absurd hj (Nat.not_lt_zero j))).1 (by decide)).2 (by decide) (by decide),
    (((DhcpHandler.ServeDHCP_request_by_strategy Example.backend Example.handler 0
      { Example.packet with CHAddr := [0, 1, 2, 3, 4, 5] } Example.selectingUs
      (by decide)).2.1 (by decide) 0
      (fun _ => Example.handler.bk) rfl (by decide)
      (fun j _ hj => absurd hj (Nat.not_lt_zero j))).1 (by decide)).1 (by decide),
    (((DhcpHandler.ServeDHCP_request_by_strategy Example.backend Example.handler 0
      Example.packet [(53, [3]), (54, [10, 0, 0, 1]), (50, [10, 0, 0, 13])]
      (by decide)).2.1 (by decide) 1
      (fun _ => Example.handler.bk) rfl (by decide)
      (fun j hj hj1 => by
        have hj0 : j = 0 := by omega
        subst hj0
        exact ⟨rfl, rfl, rfl⟩)).2 (by decide)).2 (by decide)⟩

/-- The four outcomes of a Request that passes the check, at the handler that
listens on 10.0.0.1/24: an ACK for the client of the lease, a NAK for another
client, a NAK for an address that is not leased, and no reply for that address
when the client is in INIT-REBOOT. -/
theorem DhcpHandler.ServeDHCP_request_outcomes :
    (DhcpHandler.ServeDHCP Example.backend Example.handler 0 Example.packet Request
        Example.selectingUs).1.map Packet.MessageType = some (some [ACK]) ∧
    (DhcpHandler.ServeDHCP Example.backend Example.handler 0
        { Example.packet with CHAddr := [0, 1, 2, 3, 4, 5] } Request
        Example.selectingUs).1.map Packet.MessageType = some (some [NAK]) ∧
    (DhcpHandler.ServeDHCP Example.backend Example.handler 0 Example.packet Request
        [(53, [3]), (54, [10, 0, 0, 1]), (50, [10, 0, 0, 13])]).1.map Packet.MessageType =
      some (some [NAK]) ∧
    (DhcpHandler.ServeDHCP Example.backend Example.handler 0 Example.packet Request
        [(53, [3]), (50, [10, 0, 0, 13])]).1 = none ∧
    (DhcpHandler.ServeDHCP Example.backend Example.handler 0 Example.packet Request
        [(53, [3]), (50, [255, 255, 255, 255])]).1.map Packet.MessageType =
      some (some [NAK]) := by
  refine ⟨by decide, by decide, by decide, by decide, by decide⟩

/-- A Request with a server identifier outside every network the interface
listens on gets no reply. -/
theorem DhcpHandler.ServeDHCP_request_other_network (lb : LeaseBackend) (h : DhcpHandler)
    (now : Time) (p : Packet) (options : Options) (server : IP)
    (h54 : options.lookup OptionServerIdentifier = some server)
    (hl : h.listenOn server = false) :
    (DhcpHandler.ServeDHCP lb h now p Request options).1 = none := by
  rw [DhcpHandler.ServeDHCP_request]
  unfold DhcpHandler.ServeDHCP.request
  simp [h54, hl]

/-- A Request with a server identifier inside a network the interface listens on
is answered, whether or not the identifier is an address of the interface. -/
theorem DhcpHandler.ServeDHCP_request_same_network (lb : LeaseBackend) (h : DhcpHandler)
    (now : Time) (p : Packet) (options : Options) (server : IP)
    (h54 : options.lookup OptionServerIdentifier = some server)
    (hl : h.listenOn server = true) :
    (DhcpHandler.ServeDHCP lb h now p Request options).1 ≠ none := by
  have hst : (reqAddr p Request options).2 ≠ reqInitReboot := by
    simp [reqAddr, h54, reqSelecting, reqInitReboot]
  rw [DhcpHandler.ServeDHCP_request]
  unfold DhcpHandler.ServeDHCP.request
  simp only [h54, Option.isSome_some, Option.getD_some, hl, Bool.not_true, Bool.and_false,
    Bool.false_eq_true, if_false]
  cases IP.IsGlobalUnicast (reqAddr p Request options).1
  · simp
  · simp only [Bool.not_true, Bool.false_eq_true, if_false]
    cases DhcpHandler.ServeDHCP.findLease lb now p options (reqAddr p Request options).1
        h.strats h.bk with
    | failed l err bk => simp
    | nothing bk => simp [hst]
    | lease l s r bk => simp

/-- C10, evaluated: the interface listens on 10.0.0.1 only; a Request that names
the server 10.0.0.77 and asks for 10.0.0.12 is not ignored, it is answered with
an ACK for 10.0.0.12. -/
theorem DhcpHandler.ServeDHCP_request_for_other_server :
    Example.handler.listenIPs = [[10, 0, 0, 1]] ∧
    Example.selectingOther.lookup OptionServerIdentifier = some [10, 0, 0, 77] ∧
    ((DhcpHandler.ServeDHCP Example.backend Example.handler 0 Example.packet Request
        Example.selectingOther).1.map Packet.MessageType) = some (some [ACK]) ∧
    ((DhcpHandler.ServeDHCP Example.backend Example.handler 0 Example.packet Request
        Example.selectingOther).1.map Packet.YIAddr) = some [10, 0, 0, 12] := by
  refine ⟨by decide, by decide, by decide, by decide⟩


/-! ## dhcp.go: `reqAddr` -/

/-- C11: for a Request the state is reqSelecting when option 54 is present,
reqInitReboot when option 54 is absent and option 50 is present, reqRenewing
when both are absent; for every other message type it is reqInit; the four
states are different; the address is the value of option 50 when it is present
and ciaddr otherwise. -/
theorem reqAddr_classifies (p : Packet) (msgType : Nat) (options : Options) :
    (reqAddr p msgType options).2 =
      (if msgType = 3 then
        if (options.lookup 54).isSome then reqSelecting
        else if (options.lookup 50).isSome then reqInitReboot
        else reqRenewing
       else reqInit) ∧
    (reqAddr p msgType options).1 = (options.lookup 50).getD p.CIAddr ∧
    [reqInit, reqSelecting, reqInitReboot, reqRenewing].Nodup ∧
    Request = 3 := by
  refine ⟨rfl, ?_, by decide, rfl⟩
  unfold reqAddr OptionRequestedIPAddress
  cases options.lookup 50 <;> rfl

/-- The states of the packets of one client: a Discover is in reqInit, a Request
with a server identifier in reqSelecting, a Request with a requested address
only in reqInitReboot and a Request with neither in reqRenewing, which asks for
ciaddr. -/
theorem reqAddr_examples :
    reqAddr Example.packet Discover [(53, [1])] = ([10, 0, 0, 12], reqInit) ∧
    reqAddr Example.packet Request Example.selectingUs = ([10, 0, 0, 12], reqSelecting) ∧
    reqAddr Example.packet Request [(53, [3]), (50, [10, 0, 0, 13])] =
      ([10, 0, 0, 13], reqInitReboot) ∧
    reqAddr Example.packet Request [(53, [3])] = ([10, 0, 0, 12], reqRenewing) ∧
    reqAddr Example.packet Decline [(53, [4]), (54, [10, 0, 0, 1]), (50, [10, 0, 0, 13])] =
      ([10, 0, 0, 13], reqInit) := by
  refine ⟨by decide, by decide, by decide, by decide, by decide⟩

/-! ## lease.go: `Expired`, `Expire`, `Invalidate`, `Hexaddr` -/

/-- C13: with the clock reading `t`, `Invalidate` empties the token and the
strategy, sets the expiry to `t` plus two seconds and keeps the address, so the
lease is expired at `now` exactly when `now` is later than that; `Expire` sets
the expiry to `t` and keeps the other fields; and a lease is expired at `now`
exactly when its expiry is before `now`. -/
theorem Lease.Invalidate_Expire_Expired (t now : Time) (l : Lease) :
    Lease.Invalidate t l =
      { Addr := l.Addr, Token := "", Strategy := "", ExpireTime := t + 2 * 1000000000 } ∧
    ((Lease.Invalidate t l).Expired now = true ↔ t + 2 * 1000000000 < now) ∧
    ((Lease.Invalidate t l).Expired now = false ↔ now ≤ t + 2 * 1000000000) ∧
    Lease.Expire t l =
      { Addr := l.Addr, Token := l.Token, Strategy := l.Strategy, ExpireTime := t } ∧
    (l.Expired now = true ↔ l.ExpireTime < now) := by
  refine ⟨rfl, ?_, ?_, rfl, ?_⟩
  · simp [Lease.Expired, Lease.Invalidate, Second]
  · simp [Lease.Expired, Lease.Invalidate, Second]
  · simp [Lease.Expired]

theorem hexDigit_eq_hexChar : ∀ k < 16, hexDigit.getD k '0' = hexChar k := by decide

theorem Hexaddr_byte (b : Nat) (hb : b < 256) :
    hexDigit.getD ((b % 256) >>> 4) '0' = hexChar (b / 16) ∧
      hexDigit.getD ((b % 256) &&& 0xf) '0' = hexChar (b % 16) := by
  have h1 : (b % 256) >>> 4 = b / 16 := by
    rw [Nat.mod_eq_of_lt hb, Nat.shiftRight_eq_div_pow]
  have h2 : (b % 256) &&& 0xf = b % 16 := by
    rw [Nat.mod_eq_of_lt hb]
    exact Nat.and_pow_two_sub_one_eq_mod b 4
  rw [h1, h2]
  exact ⟨hexDigit_eq_hexChar _ (by omega), hexDigit_eq_hexChar _ (by omega)⟩

theorem hexChar_mem (k : Nat) (hk : k < 16) : hexChar k ∈ "0123456789ABCDEF".toList := by
  revert k
  decide

/-- C14: for an IPv4 address with the bytes b0.b1.b2.b3, in its 4-byte or its
16-byte form, `Hexaddr` is the string of the eight uppercase hexadecimal
digits, the high and then the low digit of b0, b1, b2 and b3 in this order; it
has 8 characters, all among 0-9 and A-F; 10.0.0.5 gives "0A000005";
`Machine.HexAddress` is `Hexaddr` of the address of the machine and `Lease.Key`
is `Hexaddr` of the address of the lease. -/
theorem Hexaddr_ipv4 (b0 b1 b2 b3 : Nat) (h0 : b0 < 256) (h1 : b1 < 256) (h2 : b2 < 256)
    (h3 : b3 < 256) :
    Hexaddr [b0, b1, b2, b3] =
      String.mk [hexChar (b0 / 16), hexChar (b0 % 16), hexChar (b1 / 16), hexChar (b1 % 16),
        hexChar (b2 / 16), hexChar (b2 % 16), hexChar (b3 / 16), hexChar (b3 % 16)] ∧
    Hexaddr (IPv4 b0 b1 b2 b3) = Hexaddr [b0, b1, b2, b3] ∧
    (Hexaddr [b0, b1, b2, b3]).length = 8 ∧
    (∀ c ∈ (Hexaddr [b0, b1, b2, b3]).toList, c ∈ "0123456789ABCDEF".toList) ∧
    Hexaddr [10, 0, 0, 5] = "0A000005" ∧
    (∀ n : Machine, n.HexAddress = Hexaddr n.Address) ∧
    (∀ l : Lease, l.Key = Hexaddr l.Addr) := by
  have key : Hexaddr [b0, b1, b2, b3] =
      String.mk [hexChar (b0 / 16), hexChar (b0 % 16), hexChar (b1 / 16), hexChar (b1 % 16),
        hexChar (b2 / 16), hexChar (b2 % 16), hexChar (b3 / 16), hexChar (b3 % 16)] := by
    have e0 := Hexaddr_byte b0 h0
    have e1 := Hexaddr_byte b1 h1
    have e2 := Hexaddr_byte b2 h2
    have e3 := Hexaddr_byte b3 h3
    simp only [Hexaddr, IP.To4, IPv4len, List.length_cons, List.length_nil, if_true,
      List.flatMap_cons, List.flatMap_nil, List.cons_append, List.nil_append, List.append_nil,
      e0.1, e0.2, e1.1, e1.2, e2.1, e2.2, e3.1, e3.2]
  refine ⟨key, ?_, ?_, ?_, by decide, fun _ => rfl, fun _ => rfl⟩
  · simp [Hexaddr, IP.To4, IPv4, v4InV6Prefix, IPv4len, IPv6len]
  · rw [key]; rfl
  · rw [key]
    intro c hc
    have hc' : c ∈ [hexChar (b0 / 16), hexChar (b0 % 16), hexChar (b1 / 16), hexChar (b1 % 16),
        hexChar (b2 / 16), hexChar (b2 % 16), hexChar (b3 / 16), hexChar (b3 % 16)] := hc
    simp only [List.mem_cons, List.mem_nil_iff, or_false] at hc'
    rcases hc' with rfl | rfl | rfl | rfl | rfl | rfl | rfl | rfl <;>
      exact hexChar_mem _ (by omega)

/-- C14 at 192.168.124.255, which gives "C0A87CFF". -/
theorem Hexaddr_ipv4_witness :
    (192 < 256 ∧ 168 < 256 ∧ 124 < 256 ∧ 255 < 256) ∧
    Hexaddr [192, 168, 124, 255] = "C0A87CFF" ∧
    Hexaddr (IPv4 192 168 124 255) = "C0A87CFF" :=
  have h := Hexaddr_ipv4 192 168 124 255 (by decide) (by decide) (by decide) (by decide)
  ⟨by decide, h.1.trans (by decide), h.2.1.trans (h.1.trans (by decide))⟩


/-! ## dhcp.go: the Decline and Release cases of `ServeDHCP` -/

/-- Changing the found lease in place changes the first lease with the key, and
no other lease; without a lease with the key nothing changes. -/
theorem updateFound_spec (key : String) (f : Lease → Lease) (ls : List Lease) :
    (ls.find? (fun l => l.Key == key) = none ∧ updateFound key f ls = ls) ∨
    ∃ pre lease post, ls = pre ++ lease :: post ∧ (∀ x ∈ pre, x.Key ≠ key) ∧
      lease.Key = key ∧ ls.find? (fun l => l.Key == key) = some lease ∧
      updateFound key f ls = pre ++ f lease :: post := by
  induction ls with
  | nil => exact Or.inl ⟨rfl, rfl⟩
  | cons x rest ih =>
    by_cases hx : x.Key = key
    · refine Or.inr ⟨[], x, rest, rfl, by simp, hx, ?_, ?_⟩
      · simp [List.find?, hx]
      · simp [updateFound, hx]
    · have hx' : (x.Key == key) = false := by simpa using hx
      rcases ih with ⟨hn, hu⟩ | ⟨pre, lease, post, hl, hpre, hk, hf, hu⟩
      · refine Or.inl ⟨?_, ?_⟩
        · simp [List.find?, hx', hn]
        · simp [updateFound, hx', hu]
      · refine Or.inr ⟨x :: pre, lease, post, by simp [hl], ?_, hk, ?_, ?_⟩
        · intro y hy
          rcases List.mem_cons.1 hy with rfl | hy
          · exact hx
          · exact hpre y hy
        · simp [List.find?, hx', hf]
        · simp [updateFound, hx', hu]

theorem DhcpHandler.ownsLease_iff (h : DhcpHandler) (p : Packet) (options : Options) (a : IP) :
    h.ownsLease p options a = true ↔
      ∃ lease, h.bk.leases.find? (fun l => l.Key == Hexaddr a) = some lease ∧
        ∃ stratfn, h.Strategy lease.Strategy = some stratfn ∧ stratfn p options = lease.Token := by
  unfold DhcpHandler.ownsLease DhcpHandler.Strategy
  cases h.bk.leases.find? (fun l => l.Key == Hexaddr a) with
  | none => simp
  | some lease =>
    cases hs : h.strats.find? (fun s => s.Name == lease.Strategy) with
    | none => simp [hs]
    | some s => simp [hs]

theorem DhcpHandler.ServeDHCP.giveUp_eq (h : DhcpHandler) (p : Packet) (options : Options)
    (a : IP) (change : Lease → Lease) :
    DhcpHandler.ServeDHCP.giveUp h p options a change =
      (none, if h.ownsLease p options a then h.bk.updateLease (Hexaddr a) change else h.bk) := by
  unfold DhcpHandler.ServeDHCP.giveUp DhcpHandler.ownsLease DhcpHandler.Strategy
  cases h.bk.leases.find? (fun l => l.Key == Hexaddr a) with
  | none => simp
  | some lease =>
    cases hs : h.strats.find? (fun s => s.Name == lease.Strategy) with
    | none => simp [hs]
    | some s =>
      by_cases ht : s.GenToken p options = lease.Token <;> simp [hs, ht]

/-- The first element of a list that passes a test, shown by the split of the
list around it, is what `find?` returns. -/
theorem List.find?_append_cons_of_first {α : Type} (f : α → Bool) (x : α) (post : List α)
    (hx : f x = true) :
    ∀ pre : List α, (∀ y ∈ pre, f y = false) → (pre ++ x :: post).find? f = some x
  | [], _ => by simp [List.find?_cons, hx]
  | y :: pre, hpre => by
    have hy : f y = false := hpre y (List.mem_cons_self y pre)
    have ih := List.find?_append_cons_of_first f x post hx pre
      (fun z hz => hpre z (List.mem_cons_of_mem y hz))
    simp only [List.cons_append, List.find?_cons, hy]
    exact ih

/-- Changing the found lease in place changes the first lease with the key, where
it stands, and no other lease. -/
theorem updateFound_append_cons (key : String) (f : Lease → Lease) (lease : Lease)
    (post : List Lease) (hk : lease.Key = key) :
    ∀ pre : List Lease, (∀ x ∈ pre, x.Key ≠ key) →
      updateFound key f (pre ++ lease :: post) = pre ++ f lease :: post
  | [], _ => by simp [updateFound, hk]
  | y :: pre, hpre => by
    have hy : y.Key ≠ key := hpre y (List.mem_cons_self y pre)
    have ih := updateFound_append_cons key f lease post hk pre
      (fun z hz => hpre z (List.mem_cons_of_mem y hz))
    have hy' : (y.Key == key) = false := by simpa using hy
    show updateFound key f (y :: (pre ++ lease :: post)) = y :: (pre ++ f lease :: post)
    unfold updateFound
    rw [hy', ih]
    rfl

/-- C12: a Decline and a Release get no reply. When the first stored lease keyed
`Hexaddr a`, for the address `a` of the packet (option 50 if present, ciaddr
otherwise), exists, the first configured strategy with the name of its Strategy
exists and gives the Token of the lease for the packet, the Decline leaves the
store with that lease replaced, where it stands, by its invalidated form (empty
token and strategy, expiry in two seconds) and the Release with that lease
replaced by its expired form, every other lease and every other store being as
before. When no stored lease has the key, when no configured strategy has the
name of the Strategy of the lease, or when that strategy gives another token,
the tracker stays as it was. -/
theorem DhcpHandler.ServeDHCP_decline_release (lb : LeaseBackend) (h : DhcpHandler) (now : Time)
    (p : Packet) (options : Options) :
    (DhcpHandler.ServeDHCP lb h now p Decline options).1 = none ∧
    (DhcpHandler.ServeDHCP lb h now p Release options).1 = none ∧
    (∀ (pre : List Lease) (lease : Lease) (post : List Lease) (spre : List Provision.Strategy)
        (s : Provision.Strategy) (spost : List Provision.Strategy),
      h.bk.leases = pre ++ lease :: post →
      (∀ x ∈ pre, x.Key ≠ Hexaddr ((options.lookup 50).getD p.CIAddr)) →
      lease.Key = Hexaddr ((options.lookup 50).getD p.CIAddr) →
      h.strats = spre ++ s :: spost →
      (∀ x ∈ spre, x.Name ≠ lease.Strategy) →
      s.Name = lease.Strategy →
      s.GenToken p options = lease.Token →
      (DhcpHandler.ServeDHCP lb h now p Decline options).2 =
        { h.bk with
          leases := pre ++
            { lease with ExpireTime := now + 2 * Second, Token := "", Strategy := "" } :: post } ∧
      (DhcpHandler.ServeDHCP lb h now p Release options).2 =
        { h.bk with leases := pre ++ { lease with ExpireTime := now } :: post }) ∧
    ((∀ x ∈ h.bk.leases, x.Key ≠ Hexaddr ((options.lookup 50).getD p.CIAddr)) →
      (DhcpHandler.ServeDHCP lb h now p Decline options).2 = h.bk ∧
      (DhcpHandler.ServeDHCP lb h now p Release options).2 = h.bk) ∧
    (∀ (pre : List Lease) (lease : Lease) (post : List Lease),
      h.bk.leases = pre ++ lease :: post →
      (∀ x ∈ pre, x.Key ≠ Hexaddr ((options.lookup 50).getD p.CIAddr)) →
      lease.Key = Hexaddr ((options.lookup 50).getD p.CIAddr) →
      (∀ s ∈ h.strats, s.Name ≠ lease.Strategy) →
      (DhcpHandler.ServeDHCP lb h now p Decline options).2 = h.bk ∧
      (DhcpHandler.ServeDHCP lb h now p Release options).2 = h.bk) ∧
    (∀ (pre : List Lease) (lease : Lease) (post : List Lease) (spre : List Provision.Strategy)
        (s : Provision.Strategy) (spost : List Provision.Strategy),
      h.bk.leases = pre ++ lease :: post →
      (∀ x ∈ pre, x.Key ≠ Hexaddr ((options.lookup 50).getD p.CIAddr)) →
      lease.Key = Hexaddr ((options.lookup 50).getD p.CIAddr) →
      h.strats = spre ++ s :: spost →
      (∀ x ∈ spre, x.Name ≠ lease.Strategy) →
      s.Name = lease.Strategy →
      s.GenToken p options ≠ lease.Token →
      (DhcpHandler.ServeDHCP lb h now p Decline options).2 = h.bk ∧
      (DhcpHandler.ServeDHCP lb h now p Release options).2 = h.bk) := by
  have ha : ∀ msgType, (reqAddr p msgType options).1 = (options.lookup 50).getD p.CIAddr := by
    intro msgType
    unfold reqAddr OptionRequestedIPAddress
    cases options.lookup 50 <;> rfl
  have hd : DhcpHandler.ServeDHCP lb h now p Decline options =
      DhcpHandler.ServeDHCP.giveUp h p options ((options.lookup 50).getD p.CIAddr)
        (Lease.Invalidate now) := by
    simp [DhcpHandler.ServeDHCP, ha]
  have hr : DhcpHandler.ServeDHCP lb h now p Release options =
      DhcpHandler.ServeDHCP.giveUp h p options ((options.lookup 50).getD p.CIAddr)
        (Lease.Expire now) := by
    simp [DhcpHandler.ServeDHCP, ha, Release, Decline]
  have hfind : ∀ (pre : List Lease) (lease : Lease) (post : List Lease),
      h.bk.leases = pre ++ lease :: post →
      (∀ x ∈ pre, x.Key ≠ Hexaddr ((options.lookup 50).getD p.CIAddr)) →
      lease.Key = Hexaddr ((options.lookup 50).getD p.CIAddr) →
      h.bk.leases.find? (fun l => l.Key == Hexaddr ((options.lookup 50).getD p.CIAddr)) =
        some lease := by
    intro pre lease post hl hpre hk
    rw [hl]
    exact List.find?_append_cons_of_first _ lease post (by simpa using hk) pre
      (fun y hy => by simpa using hpre y hy)
  have hstrat : ∀ (name : String) (spre : List Provision.Strategy) (s : Provision.Strategy)
      (spost : List Provision.Strategy), h.strats = spre ++ s :: spost →
      (∀ x ∈ spre, x.Name ≠ name) → s.Name = name →
      h.Strategy name = some s.GenToken := by
    intro name spre s spost hs hspre hn
    unfold DhcpHandler.Strategy
    rw [hs, List.find?_append_cons_of_first _ s spost (by simpa using hn) spre
      (fun y hy => by simpa using hspre y hy)]
    rfl
  have hnone : ∀ change, (DhcpHandler.ServeDHCP.giveUp h p options
      ((options.lookup 50).getD p.CIAddr) change).1 = none := by
    intro change
    rw [DhcpHandler.ServeDHCP.giveUp_eq]
  refine ⟨by rw [hd]; exact hnone _, by rw [hr]; exact hnone _, ?_, ?_, ?_, ?_⟩
  · intro pre lease post spre s spost hl hpre hk hs hspre hn ht
    have hupd : ∀ change : Lease → Lease,
        (DhcpHandler.ServeDHCP.giveUp h p options ((options.lookup 50).getD p.CIAddr) change).2 =
          { h.bk with leases := pre ++ change lease :: post } := by
      intro change
      unfold DhcpHandler.ServeDHCP.giveUp
      rw [hfind pre lease post hl hpre hk]
      dsimp only
      rw [hstrat lease.Strategy spre s spost hs hspre hn]
      dsimp only
      rw [if_pos ht]
      unfold DataTracker.updateLease
      rw [hl, updateFound_append_cons _ change lease post hk pre hpre]
    rw [hd, hr]
    exact ⟨hupd (Lease.Invalidate now), hupd (Lease.Expire now)⟩
  · intro hno
    have hf : h.bk.leases.find? (fun l => l.Key == Hexaddr ((options.lookup 50).getD p.CIAddr)) =
        none := by
      rw [List.find?_eq_none]
      intro x hx
      simpa using hno x hx
    have hsame : ∀ change : Lease → Lease,
        (DhcpHandler.ServeDHCP.giveUp h p options ((options.lookup 50).getD p.CIAddr) change).2 =
          h.bk := by
      intro change
      unfold DhcpHandler.ServeDHCP.giveUp
      rw [hf]
    rw [hd, hr]
    exact ⟨hsame _, hsame _⟩
  · intro pre lease post hl hpre hk hno
    have hs : h.Strategy lease.Strategy = none := by
      unfold DhcpHandler.Strategy
      have : h.strats.find? (fun s => s.Name == lease.Strategy) = none := by
        rw [List.find?_eq_none]
        intro x hx
        simpa using hno x hx
      rw [this]
      rfl
    have hsame : ∀ change : Lease → Lease,
        (DhcpHandler.ServeDHCP.giveUp h p options ((options.lookup 50).getD p.CIAddr) change).2 =
          h.bk := by
      intro change
      unfold DhcpHandler.ServeDHCP.giveUp
      rw [hfind pre lease post hl hpre hk]
      dsimp only
      rw [hs]
    rw [hd, hr]
    exact ⟨hsame _, hsame _⟩
  · intro pre lease post spre s spost hl hpre hk hs hspre hn ht
    have hsame : ∀ change : Lease → Lease,
        (DhcpHandler.ServeDHCP.giveUp h p options ((options.lookup 50).getD p.CIAddr) change).2 =
          h.bk := by
      intro change
      unfold DhcpHandler.ServeDHCP.giveUp
      rw [hfind pre lease post hl hpre hk]
      dsimp only
      rw [hstrat lease.Strategy spre s spost hs hspre hn]
      dsimp only
      rw [if_neg ht]
    rw [hd, hr]
    exact ⟨hsame _, hsame _⟩

/-- The fifth scenario of the specification and its counterparts: the Decline of
the client of the lease of 10.0.0.12 at second 5 empties the token of the lease
and sets its expiry to second 7; its Release sets the expiry to second 5; the
Decline of another client changes nothing. -/
theorem DhcpHandler.ServeDHCP_decline_scenario :
    (DhcpHandler.ServeDHCP Example.backend Example.handler (5 * Second) Example.packet Decline
        [(53, [4]), (50, [10, 0, 0, 12])]).2.leases =
      [{ Addr := [10, 0, 0, 12], Token := "", Strategy := "", ExpireTime := 7 * Second }] ∧
    (DhcpHandler.ServeDHCP Example.backend Example.handler (5 * Second) Example.packet Release
        [(53, [7])]).2.leases =
      [{ Addr := [10, 0, 0, 12], Token := "aa:bb:cc:dd:ee:ff", Strategy := "MAC",
         ExpireTime := 5 * Second }] ∧
    (DhcpHandler.ServeDHCP Example.backend Example.handler (5 * Second)
        { Example.packet with CHAddr := [0, 1, 2, 3, 4, 5] } Decline
        [(53, [4]), (50, [10, 0, 0, 12])]).2.leases = Example.handler.bk.leases := by
  refine ⟨by decide, by decide, by decide⟩


/-! ## dhcp.go: `buildOptions` -/

theorem Options.lookup_map_other (c c' : Nat) (v : List Nat) (hc : c' ≠ c) (o : Options) :
    (o.map (fun kv => if kv.1 = c then (c, v) else kv)).lookup c' = o.lookup c' := by
  induction o with
  | nil => rfl
  | cons kv rest ih =>
    obtain ⟨k, x⟩ := kv
    by_cases hk : k = c
    · subst hk
      have h1 : (c' == k) = false := by simpa using hc
      simp [List.lookup_cons, h1, ih]
    · have h1 : (k == c) = false := by simpa using hk
      simp [List.lookup_cons, hk, ih]

theorem Options.lookup_map_same (c : Nat) (v : List Nat) (o : Options)
    (h : (o.lookup c).isSome = true) :
    (o.map (fun kv => if kv.1 = c then (c, v) else kv)).lookup c = some v := by
  induction o with
  | nil => simp at h
  | cons kv rest ih =>
    obtain ⟨k, x⟩ := kv
    by_cases hk : k = c
    · subst hk
      simp [List.lookup_cons]
    · have h2 : (c == k) = false := by simpa using (Ne.symm hk)
      rw [List.lookup_cons, h2] at h
      simp [List.lookup_cons, hk, h2, ih h]

theorem Options.lookup_append_single (c c' : Nat) (v : List Nat) (o : Options) :
    (o ++ [(c, v)]).lookup c' =
      match o.lookup c' with
      | some x => some x
      | none => if c' = c then some v else none := by
  induction o with
  | nil =>
    by_cases hc : c' = c
    · simp [List.lookup_cons, hc]
    · have h1 : (c' == c) = false := by simpa using hc
      simp [List.lookup_cons, h1, hc]
  | cons kv rest ih =>
    obtain ⟨k, x⟩ := kv
    by_cases hk : c' = k
    · simp [List.lookup_cons, hk]
    · have h1 : (c' == k) = false := by simpa using hk
      rw [List.cons_append, List.lookup_cons, List.lookup_cons, h1]
      exact ih

/-- After `o[c] = v` the map gives `v` for `c` and what it gave before for every
other code. -/
theorem Options.lookup_set (o : Options) (c c' : Nat) (v : List Nat) :
    (Options.set o c v).lookup c' = if c' = c then some v else o.lookup c' := by
  unfold Options.set
  simp only [beq_iff_eq]
  by_cases hs : (o.lookup c).isSome = true
  · simp only [hs, if_true]
    by_cases hc : c' = c
    · subst hc
      rw [Options.lookup_map_same _ v o hs, if_pos rfl]
    · rw [Options.lookup_map_other c c' v hc o, if_neg hc]
  · simp only [hs, Bool.false_eq_true, if_false, Options.lookup_append_single]
    by_cases hc : c' = c
    · subst hc
      have hn : o.lookup c' = none := by
        cases hl : o.lookup c' with
        | none => rfl
        | some x => simp [hl] at hs
      simp [hn]
    · cases o.lookup c' <;> simp [hc]

/-- After the directives have been laid over a map, a code has the value the
directives render for it, or else the value it had. -/
theorem DhcpHandler.buildOptions.lookup_overlay (lb : LeaseBackend) (srcOpts : Options) (c : Nat)
    (ds : List DhcpOption) :
    ∀ opts : Options,
      (DhcpHandler.buildOptions.overlay lb srcOpts ds opts).lookup c =
        match DhcpHandler.buildOptions.rendered lb srcOpts ds c with
        | some v => some v
        | none => opts.lookup c := by
  induction ds with
  | nil => intro opts; rfl
  | cons opt rest ih =>
    intro opts
    unfold DhcpHandler.buildOptions.overlay DhcpHandler.buildOptions.rendered
    by_cases hv : opt.Value = ""
    · simp only [hv, if_true, ih]
      cases DhcpHandler.buildOptions.rendered lb srcOpts rest c <;> rfl
    · simp only [hv, if_false]
      cases hr : lb.RenderToDHCP opt srcOpts with
      | error e =>
        simp only [ih]
        cases DhcpHandler.buildOptions.rendered lb srcOpts rest c <;> rfl
      | ok cv =>
        obtain ⟨c', v⟩ := cv
        simp only [ih, Options.lookup_set]
        cases DhcpHandler.buildOptions.rendered lb srcOpts rest c with
        | some x => rfl
        | none =>
          by_cases hc : c = c'
          · simp [hc]
          · have hc' : ¬c' = c := fun h => hc h.symm
            simp [hc, hc']

theorem DhcpHandler.buildOptions.lookup_derived (leaseTime c : Nat) :
    (Options.set (Options.set [] OptionRenewalTimeValue (putUint32 (leaseTime / 2)))
        OptionRebindingTimeValue (putUint32 (leaseTime * 3 % 4294967296 / 4))).lookup c =
      DhcpHandler.buildOptions.derived leaseTime c := by
  simp only [Options.lookup_set, DhcpHandler.buildOptions.derived, OptionRenewalTimeValue,
    OptionRebindingTimeValue, List.lookup_nil]
  by_cases h58 : c = 58
  · subst h58; simp
  · by_cases h59 : c = 59 <;> simp [h58, h59]

/-- The value `buildOptions` returns for a code: the one the configuration gives
it, or else the derived one. -/
theorem DhcpHandler.buildOptions.lookup_eq (lb : LeaseBackend) (h : DhcpHandler) (p : Packet)
    (l : Lease) (s : Option Subnet) (r : Option Reservation) (c : Nat) :
    (DhcpHandler.buildOptions lb h p l s r).1.lookup c =
      match DhcpHandler.buildOptions.configured lb p.ParseOptions s r c with
      | some v => some v
      | none => DhcpHandler.buildOptions.derived (DhcpHandler.buildOptions.leaseTime lb l s) c := by
  unfold DhcpHandler.buildOptions DhcpHandler.buildOptions.configured
  cases r with
  | none =>
    cases s with
    | none => simp [DhcpHandler.buildOptions.lookup_derived]
    | some sub =>
      simp only [DhcpHandler.buildOptions.lookup_overlay,
        DhcpHandler.buildOptions.lookup_derived, Option.bind]
  | some res =>
    cases s with
    | none =>
      simp only [DhcpHandler.buildOptions.lookup_overlay,
        DhcpHandler.buildOptions.lookup_derived, Option.bind]
      cases DhcpHandler.buildOptions.rendered lb p.ParseOptions res.Options c <;> rfl
    | some sub =>
      simp only [DhcpHandler.buildOptions.lookup_overlay,
        DhcpHandler.buildOptions.lookup_derived, Option.bind]
      cases DhcpHandler.buildOptions.rendered lb p.ParseOptions res.Options c <;> rfl


theorem DhcpHandler.buildOptions_duration (lb : LeaseBackend) (h : DhcpHandler) (p : Packet)
    (l : Lease) (s : Option Subnet) (r : Option Reservation) :
    (DhcpHandler.buildOptions lb h p l s r).2.1 = DhcpHandler.buildOptions.leaseTime lb l s := rfl

/-- Without a subnet and a reservation the lease time is 7200 seconds: options
58 and 59 hold 3600 and 5400, whatever the handler, the packet and the lease. -/
theorem DhcpHandler.buildOptions_default_times (lb : LeaseBackend) (h : DhcpHandler)
    (p : Packet) (l : Lease) :
    (DhcpHandler.buildOptions lb h p l none none).1.lookup 58 = some (putUint32 3600) ∧
    (DhcpHandler.buildOptions lb h p l none none).1.lookup 59 = some (putUint32 5400) ∧
    (DhcpHandler.buildOptions lb h p l none none).2.1 = 7200 := by
  refine ⟨?_, ?_, rfl⟩
  · rw [DhcpHandler.buildOptions.lookup_eq]
    simp only [DhcpHandler.buildOptions.configured, DhcpHandler.buildOptions.derived,
      DhcpHandler.buildOptions.leaseTime, Option.bind]
    rfl
  · rw [DhcpHandler.buildOptions.lookup_eq]
    simp only [DhcpHandler.buildOptions.configured, DhcpHandler.buildOptions.derived,
      DhcpHandler.buildOptions.leaseTime, Option.bind]
    rfl

/-- C16, refuted: the subnet has a directive for option 58 that renders to 600;
the lease time is 60 seconds, and `buildOptions` returns the 600 of the
directive for option 58, not the 30 computed from the lease time. -/
theorem DhcpHandler.buildOptions_subnet_overrides_renewal :
    (DhcpHandler.buildOptions Example.renderBackend Example.handler Example.packet
        Example.lease12 (some Example.tunedSubnet) none).2.1 = 60 ∧
    (DhcpHandler.buildOptions Example.renderBackend Example.handler Example.packet
        Example.lease12 (some Example.tunedSubnet) none).1.lookup 58 = some (putUint32 600) ∧
    putUint32 600 ≠ putUint32 (60 / 2) := by
  refine ⟨by decide, by decide, by decide⟩

/-- C16, amended: for every code, 58 and 59 included, `buildOptions` returns the
value the directives of the reservation render for the code if they render one,
otherwise the value the directives of the subnet render for it if they render
one, and otherwise the value derived from the lease time for the codes 58 and
59 and no value for the other codes. -/
theorem DhcpHandler.buildOptions_option_precedence (lb : LeaseBackend) (h : DhcpHandler)
    (p : Packet) (l : Lease) (s : Option Subnet) (r : Option Reservation) (c : Nat) :
    (DhcpHandler.buildOptions lb h p l s r).1.lookup c =
      match r.bind (fun res => DhcpHandler.buildOptions.rendered lb p.ParseOptions res.Options c) with
      | some v => some v
      | none =>
        match s.bind
            (fun sub => DhcpHandler.buildOptions.rendered lb p.ParseOptions sub.Options c) with
        | some v => some v
        | none =>
          if c = 58 then some (putUint32 ((DhcpHandler.buildOptions lb h p l s r).2.1 / 2))
          else if c = 59 then
            some (putUint32 ((DhcpHandler.buildOptions lb h p l s r).2.1 * 3 % 4294967296 / 4))
          else none := by
  rw [DhcpHandler.buildOptions.lookup_eq, DhcpHandler.buildOptions_duration]
  unfold DhcpHandler.buildOptions.configured DhcpHandler.buildOptions.derived
  cases r.bind (fun res => DhcpHandler.buildOptions.rendered lb p.ParseOptions res.Options c) with
  | some v => rfl
  | none =>
    cases s.bind
        (fun sub => DhcpHandler.buildOptions.rendered lb p.ParseOptions sub.Options c) with
    | some v => rfl
    | none => rfl

/-- The precedence at work: the reservation's directive for option 58 wins over
the subnet's, the subnet's directive for option 6 is kept, and option 59 is the
derived one. -/
theorem DhcpHandler.buildOptions_precedence_example :
    (DhcpHandler.buildOptions Example.renderBackend Example.handler Example.packet
        Example.lease12 (some Example.tunedSubnet)
        (some { Example.tunedReservation with Options := [{ Code := 58, Value := "900" }] })).1 =
      [(58, putUint32 900), (59, putUint32 45), (6, [10, 0, 0, 1])] := by
  decide


/-! ## dhcp.go: the replies of the Request and Discover cases -/

/-- The next server of the ACK by cases: the reservation's when it is a global
unicast address, else the subnet's when it is one, else the listen address. -/
theorem DhcpHandler.chosenNextServer_examples :
    Example.handler.chosenNextServer Example.lease12 (some Example.bootSubnet)
        (some { Example.tunedReservation with NextServer := [10, 0, 0, 3] }) = [10, 0, 0, 3] ∧
    Example.handler.chosenNextServer Example.lease12
        (some { Example.bootSubnet with NextServer := [10, 0, 0, 2] })
        (some Example.tunedReservation) = [10, 0, 0, 2] ∧
    Example.handler.chosenNextServer Example.lease12 (some Example.subnet24)
        (some Example.tunedReservation) = [10, 0, 0, 1] ∧
    Example.handler.chosenNextServer Example.lease12 none none = [10, 0, 0, 1] := by
  refine ⟨by decide, by decide, by decide, by decide⟩

theorem DhcpHandler.ServeDHCP.discover_siaddr (lb : LeaseBackend) (h : DhcpHandler) (now : Time)
    (p : Packet) (options : Options) (req : IP) (strats : List Provision.Strategy) :
    ∀ bk : DataTracker,
      (DhcpHandler.ServeDHCP.discover lb h now p options req strats bk).1.map Packet.SIAddr =
        (DhcpHandler.ServeDHCP.discover lb h now p options req strats bk).1.map
          (fun _ => [0, 0, 0, 0]) := by
  induction strats with
  | nil => intro bk; rfl
  | cons s rest ih =>
    intro bk
    unfold DhcpHandler.ServeDHCP.discover
    dsimp only
    split
    · rfl
    · exact ih _

/-- The siaddr of every reply to a Discover is zero: the Discover case drops the
next server that `buildOptions` returns. -/
theorem DhcpHandler.ServeDHCP_discover_siaddr (lb : LeaseBackend) (h : DhcpHandler) (now : Time)
    (p : Packet) (options : Options) :
    (DhcpHandler.ServeDHCP lb h now p Discover options).1.map Packet.SIAddr =
      (DhcpHandler.ServeDHCP lb h now p Discover options).1.map (fun _ => [0, 0, 0, 0]) := by
  have hd : DhcpHandler.ServeDHCP lb h now p Discover options =
      DhcpHandler.ServeDHCP.discover lb h now p options (reqAddr p Discover options).1
        h.strats h.bk := by
    simp [DhcpHandler.ServeDHCP, Discover, Decline, Release, Request]
  rw [hd]
  exact DhcpHandler.ServeDHCP.discover_siaddr lb h now p options _ h.strats h.bk

/-- C18, evaluated: the subnet has the next server 10.0.0.1, a global unicast
address; the Discover of aa:bb:cc:dd:ee:ff is answered with an Offer for
10.0.0.10, the lease the allocator returns in that subnet, whose siaddr is
0.0.0.0 and not 10.0.0.1. -/
theorem DhcpHandler.ServeDHCP_discover_offer_without_siaddr :
    Example.bootSubnet.NextServer = [10, 0, 0, 1] ∧
    IP.IsGlobalUnicast Example.bootSubnet.NextServer = true ∧
    (DhcpHandler.ServeDHCP Example.offerBackend Example.bootHandler 0 Example.packet Discover
        [(53, [1])]).1.map Packet.MessageType = some (some [Offer]) ∧
    (DhcpHandler.ServeDHCP Example.offerBackend Example.bootHandler 0 Example.packet Discover
        [(53, [1])]).1.map Packet.YIAddr = some [10, 0, 0, 10] ∧
    (DhcpHandler.ServeDHCP Example.offerBackend Example.bootHandler 0 Example.packet Discover
        [(53, [1])]).1.map Packet.SIAddr = some [0, 0, 0, 0] := by
  refine ⟨rfl, by decide, by decide, by decide, by decide⟩


/-! ## dhcp.go: `Serve` -/

/-- Being equal to `net.IPv4zero` is being 0.0.0.0, in the 4-byte or the 16-byte
form. -/
theorem IP.Equal_IPv4zero (x : IP) : IP.Equal x IPv4zero = IP.Equal x [0, 0, 0, 0] := by
  by_cases h16 : x.length = 16
  · have hsplit : x = IPv4zero ↔ (x.take 12 = v4InV6Prefix ∧ x.drop 12 = [0, 0, 0, 0]) := by
      constructor
      · intro hx
        rw [hx]
        exact ⟨rfl, rfl⟩
      · rintro ⟨ht, hd⟩
        rw [← List.take_append_drop 12 x, ht, hd]
        rfl
    unfold IP.Equal
    have e1 : x.length = IPv4zero.length := by rw [h16]; rfl
    have e2 : ¬x.length = ([0, 0, 0, 0] : IP).length := by rw [h16]; decide
    have e3 : ¬(x.length = IPv4len ∧ ([0, 0, 0, 0] : IP).length = IPv6len) := by
      rw [h16]; decide
    have e4 : x.length = IPv6len ∧ ([0, 0, 0, 0] : IP).length = IPv4len := by
      rw [h16]; decide
    rw [if_pos e1, if_neg e2, if_neg e3, if_pos e4]
    by_cases hx : x = IPv4zero
    · have := hsplit.1 hx
      rw [decide_eq_true hx, decide_eq_true this.1, decide_eq_true this.2]
      rfl
    · have hn : ¬(x.take 12 = v4InV6Prefix ∧ x.drop 12 = [0, 0, 0, 0]) := fun h => hx (hsplit.2 h)
      by_cases ht : x.take 12 = v4InV6Prefix
      · have hd : ¬x.drop 12 = [0, 0, 0, 0] := fun h => hn ⟨ht, h⟩
        simp [hx, ht, hd]
      · simp [hx, ht]
  · by_cases h4 : x.length = 4
    · unfold IP.Equal
      have e1 : ¬x.length = IPv4zero.length := by rw [h4]; decide
      have e2 : x.length = IPv4len ∧ IPv4zero.length = IPv6len := by rw [h4]; decide
      have e3 : x.length = ([0, 0, 0, 0] : IP).length := by rw [h4]; rfl
      rw [if_neg e1, if_pos e2, if_pos e3]
      have hp : IPv4zero.take 12 = v4InV6Prefix := rfl
      have hd : IPv4zero.drop 12 = [0, 0, 0, 0] := rfl
      simp [hp, hd]
    · unfold IP.Equal
      have e1 : ¬x.length = IPv4zero.length := fun h => h16 h
      have e2 : ¬(x.length = IPv4len ∧ IPv4zero.length = IPv6len) := fun h => h4 h.1
      have e3 : ¬(x.length = IPv6len ∧ IPv4zero.length = IPv4len) := fun h => h16 h.1
      have e4 : ¬x.length = ([0, 0, 0, 0] : IP).length := fun h => h4 h
      have e5 : ¬(x.length = IPv4len ∧ ([0, 0, 0, 0] : IP).length = IPv6len) := fun h => h4 h.1
      have e6 : ¬(x.length = IPv6len ∧ ([0, 0, 0, 0] : IP).length = IPv4len) := fun h => h16 h.1
      rw [if_neg e1, if_neg e2, if_neg e3, if_neg e4, if_neg e5, if_neg e6]

/-- C19: the destination of every reply `Serve` sends, for a request whose
giaddr has its four bytes: giaddr and the source port when giaddr is not
0.0.0.0; otherwise 255.255.255.255 and the source port when the source address
is 0.0.0.0 or the broadcast flag of the request is set; otherwise the source
address and port of the packet. -/
theorem DhcpHandler.Serve_reply_destination (env : Env) (lb : LeaseBackend) (h : DhcpHandler)
    (now : Time) (d : Datagram) (hg : d.req.GIAddr.length = 4) :
    (DhcpHandler.Serve.step env lb h now d).1.map Prod.snd =
      (DhcpHandler.Serve.step env lb h now d).1.map (fun _ =>
        if d.req.GIAddr ≠ [0, 0, 0, 0] then
          ({ IP := d.req.GIAddr, Port := d.srcAddr.Port } : UDPAddr)
        else if IP.Equal d.srcAddr.IP [0, 0, 0, 0] = true ∨ d.req.Broadcast = true then
          { IP := IPv4 255 255 255 255, Port := d.srcAddr.Port }
        else d.srcAddr) := by
  have hdest : DhcpHandler.Serve.destination d.srcAddr d.req =
      (if d.req.GIAddr ≠ [0, 0, 0, 0] then
          ({ IP := d.req.GIAddr, Port := d.srcAddr.Port } : UDPAddr)
        else if IP.Equal d.srcAddr.IP [0, 0, 0, 0] = true ∨ d.req.Broadcast = true then
          { IP := IPv4 255 255 255 255, Port := d.srcAddr.Port }
        else d.srcAddr) := by
    have hz : IP.Equal d.req.GIAddr IPv4zero = decide (d.req.GIAddr = [0, 0, 0, 0]) := by
      rw [IP.Equal_IPv4zero]
      unfold IP.Equal
      rw [if_pos (by rw [hg]; rfl)]
    unfold DhcpHandler.Serve.destination
    rw [hz, IP.Equal_IPv4zero]
    by_cases hgz : d.req.GIAddr = [0, 0, 0, 0]
    · simp [hgz, IPv4bcast]
    · simp [hgz]
  unfold DhcpHandler.Serve.step
  split
  · rfl
  · split
    · rfl
    · dsimp only
      split
      · split
        · rfl
        · split
          · rfl
          · rw [hdest]
            split <;> rfl
      · rfl

/-- C19 at three datagrams of the client of the lease of 10.0.0.12: sent from
0.0.0.0 the Request is answered to 255.255.255.255 port 68; sent from 10.0.0.12
without the broadcast flag it is answered to 10.0.0.12 port 68; relayed by
10.0.1.1 it is answered to 10.0.1.1 and the source port. -/
theorem DhcpHandler.Serve_reply_destination_witness :
    Example.datagram.req.GIAddr.length = 4 ∧
    (DhcpHandler.Serve.step Env.quiet Example.backend Example.handler 0 Example.datagram).1.map
        Prod.snd = some { IP := IPv4 255 255 255 255, Port := 68 } ∧
    (DhcpHandler.Serve.step Env.quiet Example.backend Example.handler 0
        { Example.datagram with srcAddr := { IP := [10, 0, 0, 12], Port := 68 } }).1.map
        Prod.snd = some { IP := [10, 0, 0, 12], Port := 68 } ∧
    (DhcpHandler.Serve.step Env.quiet Example.backend Example.handler 0
        { Example.datagram with
          req := { Example.datagram.req with GIAddr := [10, 0, 1, 1] }
          srcAddr := { IP := [10, 0, 1, 1], Port := 67 } }).1.map
        Prod.snd = some { IP := [10, 0, 1, 1], Port := 67 } :=
  ⟨rfl,
    (DhcpHandler.Serve_reply_destination Env.quiet Example.backend Example.handler 0
      Example.datagram rfl).trans (by decide),
    by decide, by decide⟩


/-! ## machines.go: `AfterSave` -/

theorem Machine.AfterSave.profileTasks_eq (p : DataTracker) (names : List String) :
    ∀ profs : List Provision.Profile, names.map p.findProfile = profs.map some →
      Machine.AfterSave.profileTasks p names = some (profs.flatMap Provision.Profile.Tasks) := by
  induction names with
  | nil =>
    intro profs h
    cases profs with
    | nil => rfl
    | cons pr rest => simp at h
  | cons name rest ih =>
    intro profs h
    cases profs with
    | nil => simp at h
    | cons pr prest =>
      simp only [List.map_cons, List.cons.injEq] at h
      unfold Machine.AfterSave.profileTasks
      rw [h.1, ih prest h.2]
      rfl

/-- C20: when the boot environment of the machine is not the previous one, the
boot environment is `env`, the profiles of the list are `profs` in list order
and the global profile is `gprof`, `AfterSave` sets Tasks to the tasks of `env`,
then those of `profs` in order, then those of `gprof`, and CurrentTask to 0 when
that list is empty and to -1 otherwise. -/
theorem Machine.AfterSave_tasks (p : DataTracker) (n : Machine) (env : Provision.BootEnv)
    (profs : List Provision.Profile) (gprof : Provision.Profile)
    (hchg : n.oldBootEnv ≠ n.BootEnv)
    (henv : p.findBootEnv n.BootEnv = some env)
    (hprofs : n.Profiles.map p.findProfile = profs.map some)
    (hg : p.findProfile p.GlobalProfileName = some gprof) :
    ∃ r, Machine.AfterSave p n = some r ∧
      r.n.Tasks = env.Tasks ++ profs.flatMap Provision.Profile.Tasks ++ gprof.Tasks ∧
      r.n.CurrentTask = (if r.n.Tasks = [] then 0 else -1) ∧
      r.n.oldBootEnv = n.BootEnv ∧ r.n.BootEnv = n.BootEnv ∧ r.n.Profiles = n.Profiles := by
  unfold Machine.AfterSave
  rw [if_pos hchg, henv]
  simp only [Machine.AfterSave.profileTasks_eq p n.Profiles profs hprofs, hg]
  refine ⟨_, rfl, ?_, ?_, rfl, rfl, rfl⟩
  · simp
  · simp only [List.nil_append, List.length_eq_zero]

/-- C20 at the machine that was moved from local to ubuntu-install with the
profiles gpu and rack1: its tasks become those of the boot environment, of gpu,
of rack1 and of the global profile, and CurrentTask becomes -1. -/
theorem Machine.AfterSave_tasks_witness :
    (Example.m3.oldBootEnv ≠ Example.m3.BootEnv ∧
      Example.taskTracker.findBootEnv Example.m3.BootEnv =
        some { Example.ubuntu with Available := true, Tasks := ["partition", "install"] } ∧
      Example.m3.Profiles.map Example.taskTracker.findProfile =
        [{ Name := "gpu", Tasks := ["driver", "burnin"] },
         { Name := "rack1", Tasks := ["raid"] }].map some ∧
      Example.taskTracker.findProfile Example.taskTracker.GlobalProfileName =
        some { Name := "global", Tasks := ["report"] }) ∧
    ∃ r, Machine.AfterSave Example.taskTracker Example.m3 = some r ∧
      r.n.Tasks = ["partition", "install", "driver", "burnin", "raid", "report"] ∧
      r.n.CurrentTask = -1 :=
  have hw := Machine.AfterSave_tasks Example.taskTracker Example.m3
    { Example.ubuntu with Available := true, Tasks := ["partition", "install"] }
    [{ Name := "gpu", Tasks := ["driver", "burnin"] }, { Name := "rack1", Tasks := ["raid"] }]
    { Name := "global", Tasks := ["report"] } (by decide) (by decide) (by decide) (by decide)
  ⟨⟨by decide, by decide, by decide, by decide⟩,
    hw.elim fun r hr => ⟨r, hr.1, hr.2.1, hr.2.2.1.trans (by rw [hr.2.1]; decide)⟩⟩

/-- A machine whose boot environment and profiles have no task gets the empty
task list and CurrentTask 0. -/
theorem Machine.AfterSave_no_tasks :
    (Machine.AfterSave Example.machineTracker
        { Example.m1 with BootEnv := "ubuntu-install", oldBootEnv := "" }).map
      (fun r => (r.n.Tasks, r.n.CurrentTask, r.n.oldBootEnv, r.resave)) =
      some ([], 0, "ubuntu-install", true) := by
  decide

/-! ## lease.go: `OnCreate` and the empty token or strategy -/

/-- The field checks of `OnCreate` record an error for a lease whose token or
strategy is empty. -/
theorem Lease.OnCreate.fieldChecks_containsError (env : Env) (l : Lease)
    (h : l.Token = "" ∨ l.Strategy = "") :
    (Lease.OnCreate.fields env l).containsError = true := by
  unfold Lease.OnCreate.fields
  by_cases hs : l.Strategy = ""
  · simp [hs, Error.Errorf]
  · have ht : l.Token = "" := h.resolve_right hs
    simp [hs, ht, Error.Errorf]

/-- The error of the field checks of `OnCreate` has code 422 and the type
ValidationError. -/
theorem Lease.OnCreate.fieldChecks_code (env : Env) (l : Lease) :
    (Lease.OnCreate.fields env l).Code = 422 ∧
      (Lease.OnCreate.fields env l).Typ = ValidationError := by
  unfold Lease.OnCreate.fields
  have hall : ∀ (msgs : List String) (e : Error),
      (e.addAll msgs).Code = e.Code ∧ (e.addAll msgs).Typ = e.Typ := by
    intro msgs
    induction msgs with
    | nil => intro e; exact ⟨rfl, rfl⟩
    | cons m rest ih =>
      intro e
      have := ih (e.Errorf m)
      simpa [Error.addAll, Error.Errorf] using this
  have h0 := hall (env.validateIP4 l.Addr) { Code := 422, Typ := ValidationError }
  by_cases ht : l.Token = "" <;> by_cases hs : l.Strategy = "" <;>
    simp [ht, hs, Error.Errorf, h0.1, h0.2]

/-- Without a reservation for its address, `OnCreate` rejects every lease whose
token or strategy is empty, with an error of code 422 and type
ValidationError. -/
theorem Lease.OnCreate_rejects_empty_without_reservation (env : Env) (p : DataTracker)
    (l : Lease) (hres : Lease.Reservation p l = none) (h : l.Token = "" ∨ l.Strategy = "") :
    ∃ e, Lease.OnCreate env p l = some e ∧ e.Code = 422 ∧ e.Typ = ValidationError ∧
      e.containsError = true := by
  refine ⟨Lease.OnCreate.fields env l, ?_, (Lease.OnCreate.fieldChecks_code env l).1,
    (Lease.OnCreate.fieldChecks_code env l).2, Lease.OnCreate.fieldChecks_containsError env l h⟩
  unfold Lease.OnCreate
  simp [hres, Lease.OnCreate.fieldChecks_containsError env l h]

/-- With a reservation for its address, `OnCreate` accepts every lease, whatever
the field checks recorded. -/
theorem Lease.OnCreate_of_reservation (env : Env) (p : DataTracker) (l : Lease)
    (hres : (Lease.Reservation p l).isSome = true) : Lease.OnCreate env p l = none := by
  unfold Lease.OnCreate
  simp [hres]

/-- C30, evaluated: with a reservation for 10.0.0.5 in the store, `OnCreate`
accepts the lease for 10.0.0.5 whose token and strategy are both empty, although
the field checks have recorded an error for it; this holds whatever the address
validation reports. -/
theorem Lease.OnCreate_reservation_accepts_empty_token (env : Env) :
    Lease.OnCreate env Example.reservedTracker Example.emptyLease = none ∧
      (Lease.Reservation Example.reservedTracker Example.emptyLease).isSome = true ∧
      Example.emptyLease.Token = "" ∧ Example.emptyLease.Strategy = "" ∧
      (Lease.OnCreate.fields env Example.emptyLease).containsError = true := by
  have h : (Lease.Reservation Example.reservedTracker Example.emptyLease).isSome = true := by
    decide
  refine ⟨?_, h, rfl, rfl, ?_⟩
  · simp [Lease.OnCreate, h]
  · simp [Lease.OnCreate.fields, Example.emptyLease, Error.Errorf]


/-! ## machines.go: `AfterSave` without the global profile, and the nested save -/

/-- When the boot environment of the machine changed and no profile has the
configured name of the global profile, `AfterSave` fails. -/
theorem Machine.AfterSave_fails_without_global_profile (p : DataTracker) (n : Machine)
    (hchg : n.oldBootEnv ≠ n.BootEnv) (hg : p.findProfile p.GlobalProfileName = none) :
    Machine.AfterSave p n = none := by
  unfold Machine.AfterSave
  rw [if_pos hchg]
  cases p.findBootEnv n.BootEnv with
  | none => rfl
  | some env =>
    dsimp only
    cases Machine.AfterSave.profileTasks p n.Profiles with
    | none => rfl
    | some tasks => simp only [hg]

/-- C29, evaluated: the machine m4 passes `Validate` and `BeforeSave` in the
tracker that has no profile named global, the configured name of the global
profile, its boot environment changed from local to ubuntu-install, and its
profiles gpu and rack1 exist; `AfterSave` fails on it instead of setting the
tasks of the boot environment and of the two profiles. -/
theorem Machine.AfterSave_missing_global_profile :
    (Machine.Validate Env.quiet Example.noGlobalTracker Example.m4).2 = none ∧
    (Machine.BeforeSave Env.quiet Example.noGlobalTracker Example.m4).err = none ∧
    (Machine.BeforeSave Env.quiet Example.noGlobalTracker Example.m4).n = Example.m4 ∧
    Example.m4.oldBootEnv ≠ Example.m4.BootEnv ∧
    Example.noGlobalTracker.findProfile Example.noGlobalTracker.GlobalProfileName = none ∧
    Machine.AfterSave.profileTasks Example.noGlobalTracker Example.m4.Profiles =
      some ["driver", "burnin", "raid"] ∧
    Machine.AfterSave Example.noGlobalTracker Example.m4 = none ∧
    Machine.Save Env.quiet 2 Example.noGlobalTracker Example.m4 = SaveOutcome.failed := by
  refine ⟨by decide, by decide, by decide, by decide, by decide, by decide, by decide, by decide⟩


/-- `AfterSave` does nothing to a machine whose boot environment is the previous
one. -/
theorem Machine.AfterSave_of_unchanged (p : DataTracker) (n : Machine)
    (h : n.oldBootEnv = n.BootEnv) :
    Machine.AfterSave p n = some { n := n, resave := false } := by
  unfold Machine.AfterSave
  rw [if_neg (not_not.2 h)]

/-- What `AfterSave` leaves: the boot environment is kept and is the previous
boot environment from then on, and the machine is saved again exactly when the
boot environment had changed. -/
theorem Machine.AfterSave_result (p : DataTracker) (n : Machine) (r : AfterSaved)
    (h : Machine.AfterSave p n = some r) :
    r.n.BootEnv = n.BootEnv ∧ r.n.oldBootEnv = r.n.BootEnv ∧
      (r.resave = true ↔ n.oldBootEnv ≠ n.BootEnv) := by
  unfold Machine.AfterSave at h
  by_cases hchg : n.oldBootEnv = n.BootEnv
  · rw [if_neg (not_not.2 hchg)] at h
    cases h
    exact ⟨rfl, hchg, by simp [hchg]⟩
  · rw [if_pos hchg] at h
    cases hb : p.findBootEnv n.BootEnv with
    | none => rw [hb] at h; cases h
    | some env =>
      rw [hb] at h
      dsimp only at h
      cases ht : Machine.AfterSave.profileTasks p n.Profiles with
      | none => rw [ht] at h; cases h
      | some tasks =>
        rw [ht] at h
        dsimp only at h
        cases hg : p.findProfile p.GlobalProfileName with
        | none => rw [hg] at h; cases h
        | some gprof =>
          rw [hg] at h
          cases h
          exact ⟨rfl, rfl, by simp [hchg]⟩

/-- Assigning the default boot environment twice is assigning it once, also when
the machines store changed in between. -/
theorem Machine.Validate.defaulted_idem (p : DataTracker) (n : Machine) (x : Machine) :
    Machine.Validate.defaulted (p.storeMachine x) (Machine.Validate.defaulted p n) =
      Machine.Validate.defaulted p n := by
  unfold Machine.Validate.defaulted
  by_cases h : n.BootEnv = ""
  · rw [if_pos h]
    by_cases h2 : p.defaultBootEnv = ""
    · simp [h2, DataTracker.storeMachine]
    · simp [h2]
  · rw [if_neg h, if_neg h]

/-- `BeforeSave` leaves the virtual filesystem alone when the boot environment of
the machine is the previous one. -/
theorem Machine.BeforeSave_ops_of_unchanged (env : Env) (p : DataTracker) (n : Machine)
    (h : (Machine.Validate.defaulted p n).oldBootEnv = (Machine.Validate.defaulted p n).BootEnv) :
    (Machine.BeforeSave env p n).ops = [] := by
  unfold Machine.BeforeSave Machine.Validate
  cases (Machine.Validate.error env p n).OrNil with
  | some err => rfl
  | none =>
    dsimp only
    cases hf : p.findBootEnv (Machine.Validate.defaulted p n).BootEnv with
    | none => rfl
    | some be =>
      dsimp only
      rw [h, hf]
      split
      · simp [Machine.BeforeSave.render]
      · rfl


/-- A machine whose boot environment is the one `Validate` assigned keeps it when
it is validated again. -/
theorem Machine.Validate.defaulted_of_bootEnv (p : DataTracker) (n m x : Machine)
    (hb : m.BootEnv = (Machine.Validate.defaulted p n).BootEnv) :
    Machine.Validate.defaulted (p.storeMachine x) m = m := by
  unfold Machine.Validate.defaulted at hb ⊢
  by_cases hm : m.BootEnv = ""
  · rw [if_pos hm]
    have hd : p.defaultBootEnv = "" := by
      by_cases hn : n.BootEnv = ""
      · rw [if_pos hn] at hb
        exact hb.symm.trans hm
      · rw [if_neg hn] at hb
        exact absurd (hb.symm.trans hm) hn
    cases m
    simp only [DataTracker.storeMachine, hd] at hm ⊢
    simp [hm]
  · rw [if_neg hm]

theorem Machine.Save_succ (env : Env) (fuel : Nat) (p : DataTracker) (n : Machine) :
    Machine.Save env (fuel + 1) p n =
      match (Machine.BeforeSave env p n).err with
      | some e =>
        SaveOutcome.ended (Machine.BeforeSave env p n).n 1 (Machine.BeforeSave env p n).ops (some e)
      | none =>
        match Machine.AfterSave (p.storeMachine (Machine.BeforeSave env p n).n)
            (Machine.BeforeSave env p n).n with
        | none => SaveOutcome.failed
        | some r =>
          if r.resave then
            match Machine.Save env fuel (p.storeMachine (Machine.BeforeSave env p n).n) r.n with
            | SaveOutcome.ended m k ops _ =>
              SaveOutcome.ended m (k + 1) ((Machine.BeforeSave env p n).ops ++ ops) none
            | SaveOutcome.failed => SaveOutcome.failed
            | SaveOutcome.unfinished => SaveOutcome.unfinished
          else SaveOutcome.ended r.n 1 (Machine.BeforeSave env p n).ops none := rfl

/-- The save of a machine that keeps its boot environment is one save: it leaves
the machine and the virtual filesystem as they are and saves nothing again. -/
theorem Machine.Save_of_unchanged (env : Env) (fuel : Nat) (p : DataTracker) (n : Machine)
    (hd : Machine.Validate.defaulted p n = n) (h : n.oldBootEnv = n.BootEnv) :
    ∃ err, Machine.Save env (fuel + 1) p n = SaveOutcome.ended n 1 [] err := by
  have hn : (Machine.BeforeSave env p n).n = n := by rw [Machine.BeforeSave_machine, hd]
  have hops : (Machine.BeforeSave env p n).ops = [] :=
    Machine.BeforeSave_ops_of_unchanged env p n (by rw [hd]; exact h)
  rw [Machine.Save_succ, hn, hops]
  cases (Machine.BeforeSave env p n).err with
  | some e => exact ⟨some e, rfl⟩
  | none =>
    refine ⟨none, ?_⟩
    dsimp only
    rw [Machine.AfterSave_of_unchanged _ n h]
    rfl

/-- C21: once `AfterSave` has run, the previous boot environment of the machine
is its boot environment, and `AfterSave` run again, with whatever stores, leaves
the machine as it is and saves nothing again; the saves that a save of a machine
starts are over after at most two calls of `Save`, the second one being the one
`AfterSave` makes when the boot environment changed, and they leave the machine
as the first `AfterSave` set it, with the filesystem operations of the first
`BeforeSave` only. -/
theorem Machine.AfterSave_idempotent (env : Env) (p : DataTracker) (n : Machine) :
    (∀ r, Machine.AfterSave p n = some r →
      r.n.oldBootEnv = r.n.BootEnv ∧
      ∀ q : DataTracker, Machine.AfterSave q r.n = some { n := r.n, resave := false }) ∧
    (∀ fuel r, (Machine.BeforeSave env p n).err = none →
      Machine.AfterSave (p.storeMachine (Machine.BeforeSave env p n).n)
          (Machine.BeforeSave env p n).n = some r →
      Machine.Save env (fuel + 2) p n =
        SaveOutcome.ended r.n (if r.resave then 2 else 1) (Machine.BeforeSave env p n).ops none) ∧
    (∀ fuel, Machine.Save env (fuel + 2) p n ≠ SaveOutcome.unfinished) := by
  have hsave : ∀ fuel r, (Machine.BeforeSave env p n).err = none →
      Machine.AfterSave (p.storeMachine (Machine.BeforeSave env p n).n)
          (Machine.BeforeSave env p n).n = some r →
      Machine.Save env (fuel + 2) p n =
        SaveOutcome.ended r.n (if r.resave then 2 else 1)
          (Machine.BeforeSave env p n).ops none := by
    intro fuel r herr hafter
    have hr := Machine.AfterSave_result _ _ r hafter
    rw [Machine.Save_succ, herr]
    dsimp only
    rw [hafter]
    dsimp only
    cases hre : r.resave with
    | false => simp
    | true =>
      have hd : Machine.Validate.defaulted
          (p.storeMachine (Machine.BeforeSave env p n).n) r.n = r.n :=
        Machine.Validate.defaulted_of_bootEnv p n r.n _
          (by rw [hr.1, Machine.BeforeSave_machine])
      obtain ⟨err, hnested⟩ := Machine.Save_of_unchanged env fuel
        (p.storeMachine (Machine.BeforeSave env p n).n) r.n hd hr.2.1
      rw [hnested]
      simp
  refine ⟨?_, hsave, ?_⟩
  · intro r h
    have hr := Machine.AfterSave_result p n r h
    exact ⟨hr.2.1, fun q => Machine.AfterSave_of_unchanged q r.n hr.2.1⟩
  · intro fuel
    cases herr : (Machine.BeforeSave env p n).err with
    | some e =>
      rw [Machine.Save_succ, herr]
      simp
    | none =>
      cases hafter : Machine.AfterSave (p.storeMachine (Machine.BeforeSave env p n).n)
          (Machine.BeforeSave env p n).n with
      | none =>
        rw [Machine.Save_succ, herr]
        dsimp only
        rw [hafter]
        simp
      | some r =>
        rw [hsave fuel r herr hafter]
        simp

/-- C21 at the machine that was moved from local to ubuntu-install: the save
ends after two calls of `Save` with the tasks recomputed, CurrentTask -1 and the
renders of local deregistered and those of ubuntu-install registered once; a
further save of the machine it leaves is one call that changes nothing. -/
theorem Machine.Save_scenario :
    Machine.Save Env.quiet 5 Example.fullTracker Example.m4 =
      SaveOutcome.ended
        { Example.m4 with
          Tasks := ["partition", "install", "driver", "burnin", "raid", "report"],
          CurrentTask := -1, oldBootEnv := "ubuntu-install" }
        2
        [FSOp.deregister [],
         FSOp.register [some { id := "pxelinux", path := "/pxelinux.cfg/default" },
                        some { id := "elilo", path := "/elilo.conf" }]]
        none ∧
    Machine.Save Env.quiet 5 Example.fullTracker
        { Example.m4 with
          Tasks := ["partition", "install", "driver", "burnin", "raid", "report"],
          CurrentTask := -1, oldBootEnv := "ubuntu-install" } =
      SaveOutcome.ended
        { Example.m4 with
          Tasks := ["partition", "install", "driver", "burnin", "raid", "report"],
          CurrentTask := -1, oldBootEnv := "ubuntu-install" }
        1 [] none := by
  refine ⟨by decide, by decide⟩


/-! ## machines.go: `BeforeSave` and the virtual filesystem -/

theorem BootEnv.Render.paths_renderers (env : Env) (p : DataTracker) (m : Option Machine)
    (b : BootEnv) (tis : List TemplateInfo) :
    ∀ e e' : Error, (BootEnv.Render.paths env p m b tis e).1 =
      (BootEnv.Render.paths env p m b tis e').1 := by
  induction tis with
  | nil => intro e e'; rfl
  | cons ti rest ih =>
    intro e e'
    unfold BootEnv.Render.paths
    cases env.execPath p m b ti with
    | error err =>
      dsimp only
      rw [ih (e.Errorf _) (e'.Errorf _)]
    | ok out =>
      dsimp only
      rw [ih e e']

/-- The renderers of a render do not depend on the errors recorded before it. -/
theorem BootEnv.Render_renderers (env : Env) (p : DataTracker) (b : BootEnv)
    (m : Option Machine) (e e' : Error) :
    (b.Render env p m e).1 = (b.Render env p m e').1 := by
  unfold BootEnv.Render
  split
  · rfl
  · exact BootEnv.Render.paths_renderers env p m b b.Templates _ _

/-- The filesystem operations of the rendering part of `BeforeSave`. -/
theorem Machine.BeforeSave.render_ops (env : Env) (p : DataTracker) (n : Machine)
    (be : Provision.BootEnv) (oldEnv : Option Provision.BootEnv) (e : Error) :
    (Machine.BeforeSave.render env p n be oldEnv e).1 =
      match oldEnv with
      | some old =>
        if old.Name = be.Name then []
        else [FSOp.deregister (old.Render env p (some n) {}).1,
              FSOp.register (be.Render env p (some n) {}).1]
      | none => [FSOp.register (be.Render env p (some n) {}).1] := by
  unfold Machine.BeforeSave.render
  cases oldEnv with
  | none =>
    dsimp only
    rw [BootEnv.Render_renderers env p be (some n) e {}]
  | some old =>
    dsimp only
    by_cases hn : old.Name = be.Name
    · simp [hn]
    · rw [if_pos hn, if_neg hn]
      dsimp only
      rw [BootEnv.Render_renderers env p old (some n) e {},
        BootEnv.Render_renderers env p be (some n) _ {}]

/-- C22: when `BeforeSave` accepts the machine, the boot environment `be` of the
machine exists and the operations on the virtual filesystem are: none, when the
previous boot environment exists and has the name of `be`; the deregistration of
the renders of the previous boot environment for the machine followed by the
registration of those of `be`, when it exists under another name; the
registration of the renders of `be` only, when no previous boot environment
exists. When the boot environment is missing, has OnlyUnknown set or is not
available, or when `Validate` rejects the machine, `BeforeSave` rejects the
machine and the virtual filesystem is left alone. -/
theorem Machine.BeforeSave_filesystem (env : Env) (p : DataTracker) (n : Machine) :
    ((Machine.BeforeSave env p n).err = none →
      ∃ be, p.findBootEnv (Machine.BeforeSave env p n).n.BootEnv = some be ∧
        (Machine.BeforeSave env p n).ops =
          match p.findBootEnv (Machine.BeforeSave env p n).n.oldBootEnv with
          | some old =>
            if old.Name = be.Name then []
            else [FSOp.deregister (old.Render env p (some (Machine.BeforeSave env p n).n) {}).1,
                  FSOp.register (be.Render env p (some (Machine.BeforeSave env p n).n) {}).1]
          | none =>
            [FSOp.register (be.Render env p (some (Machine.BeforeSave env p n).n) {}).1]) ∧
    ((¬∃ be, p.findBootEnv (Machine.BeforeSave env p n).n.BootEnv = some be ∧
          be.Available = true ∧ be.OnlyUnknown = false) →
      (Machine.BeforeSave env p n).err ≠ none ∧ (Machine.BeforeSave env p n).ops = []) ∧
    ((Machine.Validate env p n).2 ≠ none →
      (Machine.BeforeSave env p n).err ≠ none ∧ (Machine.BeforeSave env p n).ops = []) := by
  refine ⟨?_, ?_, ?_⟩
  · intro h
    rw [Machine.BeforeSave_machine]
    unfold Machine.BeforeSave Machine.Validate at h ⊢
    cases hv : (Machine.Validate.error env p n).OrNil with
    | some err => rw [hv] at h; simp at h
    | none =>
      rw [hv] at h
      dsimp only at h ⊢
      cases hf : p.findBootEnv (Machine.Validate.defaulted p n).BootEnv with
      | none => rw [hf] at h; simp at h
      | some be =>
        rw [hf] at h
        dsimp only at h ⊢
        refine ⟨be, rfl, ?_⟩
        by_cases hflags : (Machine.BeforeSave.flags (Machine.Validate.defaulted p n) be
            { Code := 422, Typ := ValidationError }).ContainsError = true
        · simp [hflags, Error.OrNil, Error.ContainsError] at h
          simp [Error.ContainsError] at hflags
          simp [hflags] at h
        · simp only [Bool.not_eq_true] at hflags
          simp only [hflags, Bool.not_false, if_true]
          exact Machine.BeforeSave.render_ops env p _ be _ _
  · intro hbad
    have herr : (Machine.BeforeSave env p n).err ≠ none := fun h =>
      hbad (Machine.BeforeSave_accepts_good_bootenv env p n h)
    refine ⟨herr, ?_⟩
    rw [Machine.BeforeSave_machine] at hbad
    unfold Machine.BeforeSave Machine.Validate
    cases (Machine.Validate.error env p n).OrNil with
    | some err => rfl
    | none =>
      dsimp only
      cases hf : p.findBootEnv (Machine.Validate.defaulted p n).BootEnv with
      | none => rfl
      | some be =>
        dsimp only
        have hflags : (Machine.BeforeSave.flags (Machine.Validate.defaulted p n) be
            { Code := 422, Typ := ValidationError }).containsError = true := by
          rw [Machine.BeforeSave.flags_containsError]
          by_cases ho : be.OnlyUnknown = true
          · exact Or.inr (Or.inl ho)
          · by_cases ha : be.Available = true
            · exact absurd ⟨be, hf, ha, by simpa using ho⟩ hbad
            · exact Or.inr (Or.inr (by simpa using ha))
        simp [Error.ContainsError, hflags]
  · intro hv
    unfold Machine.BeforeSave
    cases hval : Machine.Validate env p n with
    | mk m verr =>
      rw [hval] at hv
      cases verr with
      | none => exact absurd rfl hv
      | some err => exact ⟨by simp, rfl⟩


/-- The cases of C22 evaluated: the machine moved from local to ubuntu-install
has the renders of local deregistered and those of ubuntu-install registered;
saved again with ubuntu-install as its previous boot environment it leaves the
filesystem alone; the new machine, which has no previous boot environment, has
its renders registered; the machine that asks for the boot environment for
unknown machines is rejected and leaves the filesystem alone. -/
theorem Machine.BeforeSave_filesystem_scenario :
    (Machine.BeforeSave Env.quiet Example.fullTracker Example.m4).ops =
      [FSOp.deregister [],
       FSOp.register [some { id := "pxelinux", path := "/pxelinux.cfg/default" },
                      some { id := "elilo", path := "/elilo.conf" }]] ∧
    (Machine.BeforeSave Env.quiet Example.fullTracker
        { Example.m4 with oldBootEnv := "ubuntu-install" }).err = none ∧
    (Machine.BeforeSave Env.quiet Example.fullTracker
        { Example.m4 with oldBootEnv := "ubuntu-install" }).ops = [] ∧
    (Machine.BeforeSave Env.quiet Example.machineTracker Example.m1).err = none ∧
    (Machine.BeforeSave Env.quiet Example.machineTracker Example.m1).ops =
      [FSOp.register [some { id := "pxelinux", path := "/pxelinux.cfg/default" },
                      some { id := "elilo", path := "/elilo.conf" }]] ∧
    (Machine.BeforeSave Env.quiet Example.machineTracker Example.m2).err ≠ none ∧
    (Machine.BeforeSave Env.quiet Example.machineTracker Example.m2).ops = [] := by
  refine ⟨by decide, by decide, by decide, by decide, by decide, by decide, by decide⟩


/-! ## bootenv.go: `BeforeDelete` -/

theorem BootEnv.BeforeDelete.active_containsError (pref : String → Option String) (b : BootEnv)
    (name : String) (e : Error) :
    (BootEnv.BeforeDelete.active pref b name e).containsError = true ↔
      (e.containsError = true ∨ pref name = some b.Name) := by
  unfold BootEnv.BeforeDelete.active
  cases hp : pref name with
  | none => simp
  | some v =>
    by_cases hv : v = b.Name
    · simp [hv, Error.Errorf]
    · simp [hv]

theorem BootEnv.BeforeDelete.active_code (pref : String → Option String) (b : BootEnv)
    (name : String) (e : Error) :
    (BootEnv.BeforeDelete.active pref b name e).Code = e.Code ∧
      (BootEnv.BeforeDelete.active pref b name e).Typ = e.Typ := by
  unfold BootEnv.BeforeDelete.active
  cases pref name with
  | none => exact ⟨rfl, rfl⟩
  | some v =>
    by_cases hv : v = b.Name
    · simp [hv, Error.Errorf]
    · simp [hv]

theorem BootEnv.BeforeDelete.machines_containsError (b : BootEnv) (ms : List Machine) :
    ∀ e : Error, (BootEnv.BeforeDelete.machines b e ms).containsError = true ↔
      (e.containsError = true ∨ ∃ m ∈ ms, m.BootEnv = b.Name) := by
  induction ms with
  | nil => intro e; simp [BootEnv.BeforeDelete.machines]
  | cons m rest ih =>
    intro e
    unfold BootEnv.BeforeDelete.machines
    by_cases hm : m.BootEnv = b.Name
    · rw [if_neg (not_not.2 hm), ih]
      simp [Error.Errorf, hm]
    · rw [if_pos hm, ih]
      simp [hm]

theorem BootEnv.BeforeDelete.machines_code (b : BootEnv) (ms : List Machine) :
    ∀ e : Error, (BootEnv.BeforeDelete.machines b e ms).Code = e.Code ∧
      (BootEnv.BeforeDelete.machines b e ms).Typ = e.Typ := by
  induction ms with
  | nil => intro e; exact ⟨rfl, rfl⟩
  | cons m rest ih =>
    intro e
    unfold BootEnv.BeforeDelete.machines
    by_cases hm : m.BootEnv = b.Name
    · rw [if_neg (not_not.2 hm)]
      exact ih _
    · rw [if_pos hm]
      exact ih e

/-- C23, evaluated: the boot environment ignore is the active unknownBootEnv
preference. While it has OnlyUnknown set `BeforeDelete` refuses its deletion,
with code 409; `BeforeSave` accepts the update that clears OnlyUnknown, and
`BeforeDelete` then accepts the deletion of the boot environment, which still is
the active unknownBootEnv preference, instead of refusing it. -/
theorem BootEnv.BeforeDelete_ignores_other_preference :
    Example.prefs "unknownBootEnv" = some Example.unknownEnv.Name ∧
    (BootEnv.BeforeDelete Example.prefs { machines := [] } Example.unknownEnv).map
      (fun e => e.Code) = some 409 ∧
    (BootEnv.BeforeSave Env.quiet {} { Example.unknownEnv with OnlyUnknown := false }).2 = none ∧
    (BootEnv.BeforeSave Env.quiet {} { Example.unknownEnv with OnlyUnknown := false }).1.Name =
      "ignore" ∧
    (BootEnv.BeforeSave Env.quiet {} { Example.unknownEnv with OnlyUnknown := false }).1.OnlyUnknown =
      false ∧
    BootEnv.BeforeDelete Example.prefs { machines := [] }
      (BootEnv.BeforeSave Env.quiet {} { Example.unknownEnv with OnlyUnknown := false }).1 = none := by
  refine ⟨by decide, by decide, by decide, by decide, by decide, by decide⟩

/-- What `BeforeDelete` looks at: it fails, with an error of code 409 and type
StillInUseError, exactly for a boot environment with OnlyUnknown set whose name
is the active unknownBootEnv preference, and for a boot environment without
OnlyUnknown whose name is the active defaultBootEnv preference or the boot
environment of a stored machine. -/
theorem BootEnv.BeforeDelete_still_in_use (pref : String → Option String) (p : DataTracker)
    (b : BootEnv) :
    ((∃ e, BootEnv.BeforeDelete pref p b = some e ∧ e.Code = 409 ∧ e.Typ = StillInUseError ∧
        e.containsError = true) ↔ BootEnv.inUse pref p b) ∧
    (BootEnv.BeforeDelete pref p b = none ↔ ¬BootEnv.inUse pref p b) := by
  unfold BootEnv.BeforeDelete BootEnv.inUse
  cases hu : b.OnlyUnknown with
  | true =>
    have hc := BootEnv.BeforeDelete.active_containsError pref b "unknownBootEnv"
      { Code := 409, Typ := StillInUseError }
    have hcode := BootEnv.BeforeDelete.active_code pref b "unknownBootEnv"
      { Code := 409, Typ := StillInUseError }
    simp only [Bool.false_eq_true, false_or] at hc
    simp only [if_true]
    constructor
    · constructor
      · rintro ⟨e, he, -⟩
        exact hc.1 ((Error.OrNil_eq_some _ _).1 he).1
      · intro h
        exact ⟨_, (Error.OrNil_eq_some _ _).2 ⟨hc.2 h, rfl⟩, hcode.1, hcode.2, hc.2 h⟩
    · rw [Error.OrNil_eq_none, ← hc]
      simp
  | false =>
    have hc := BootEnv.BeforeDelete.active_containsError pref b "defaultBootEnv"
      { Code := 409, Typ := StillInUseError }
    have hcode := BootEnv.BeforeDelete.active_code pref b "defaultBootEnv"
      { Code := 409, Typ := StillInUseError }
    have hm := BootEnv.BeforeDelete.machines_containsError b p.machines
      (BootEnv.BeforeDelete.active pref b "defaultBootEnv" { Code := 409, Typ := StillInUseError })
    have hmcode := BootEnv.BeforeDelete.machines_code b p.machines
      (BootEnv.BeforeDelete.active pref b "defaultBootEnv" { Code := 409, Typ := StillInUseError })
    simp only [Bool.false_eq_true, false_or] at hc
    rw [hc] at hm
    simp only [Bool.false_eq_true, if_false]
    constructor
    · constructor
      · rintro ⟨e, he, -⟩
        exact hm.1 ((Error.OrNil_eq_some _ _).1 he).1
      · intro h
        exact ⟨_, (Error.OrNil_eq_some _ _).2 ⟨hm.2 h, rfl⟩, hmcode.1.trans hcode.1,
          hmcode.2.trans hcode.2, hm.2 h⟩
    · rw [Error.OrNil_eq_none, ← hm]
      simp

/-- The deletions the specification names: the boot environment that is the
active defaultBootEnv preference, the one for unknown machines that is the
active unknownBootEnv preference, and the one a stored machine uses are refused
with code 409; an unused boot environment is deleted. -/
theorem BootEnv.BeforeDelete_scenario :
    (BootEnv.BeforeDelete Example.prefs { machines := [] } { Name := "local" }).map
        (fun e => (e.Code, e.Typ, e.Messages)) =
      some (409, "StillInUseError",
        ["BootEnv local is the active defaultBootEnv, cannot remove it"]) ∧
    (BootEnv.BeforeDelete Example.prefs { machines := [] } Example.unknownEnv).map
        (fun e => (e.Code, e.Typ, e.Messages)) =
      some (409, "StillInUseError",
        ["BootEnv ignore is the active unknownBootEnv, cannot remove it"]) ∧
    (BootEnv.BeforeDelete Example.prefs { machines := [Example.m4] } Example.ubuntu).map
        (fun e => (e.Code, e.Typ, e.Messages)) =
      some (409, "StillInUseError",
        ["Bootenv ubuntu-install in use by Machine m1.example.com"]) ∧
    BootEnv.BeforeDelete Example.prefs { machines := [Example.m4] }
      { Name := "centos-install" } = none := by
  refine ⟨by decide, by decide, by decide, by decide⟩


/-! ## machines.go: `GetParam` -/

theorem Machine.getProfile_eq (p : DataTracker) (key : String) :
    Machine.getProfile p key = p.findProfile key := by
  unfold Machine.getProfile
  cases p.findProfile key <;> rfl

theorem Machine.GetParam.profiles_eq
    (pg : Provision.Profile → String → Bool → Option Value × Bool) (p : DataTracker)
    (key : String) (names : List String) :
    Machine.GetParam.profiles pg p key names =
      (((names.filterMap p.findProfile).map (fun prof => pg prof key false)).find?
        (fun r => r.2)).map (fun r => (r.1, true)) := by
  induction names with
  | nil => rfl
  | cons e rest ih =>
    unfold Machine.GetParam.profiles
    rw [Machine.getProfile_eq]
    cases hf : p.findProfile e with
    | none =>
      dsimp only
      rw [ih, List.filterMap_cons_none hf]
    | some prof =>
      dsimp only
      rw [List.filterMap_cons_some hf, List.map_cons, List.find?_cons]
      cases hr : (pg prof key false).2 with
      | true => simp
      | false => simp [ih]

/-- C28: with `searchProfiles` set, `GetParam` returns the value of the first
place that defines the key, the places being the parameters of the machine
itself, then the profiles of the list that exist, in list order, then the global
profile if it exists, and `(nil, false)` when no place defines it; without
`searchProfiles` only the parameters of the machine itself are consulted. -/
theorem Machine.GetParam_first_defined
    (pg : Provision.Profile → String → Bool → Option Value × Bool) (p : DataTracker)
    (n : Machine) (key : String) :
    Machine.GetParam pg p n key true =
      Machine.GetParam.firstDefined (Machine.GetParam.sources pg p n key) ∧
    Machine.GetParam pg p n key false =
      Machine.GetParam.firstDefined [mapIndex n.Profile.Params key] := by
  constructor
  · unfold Machine.GetParam Machine.GetParam.firstDefined Machine.GetParam.sources mapIndex
      Machine.GetParams
    cases hown : n.Profile.Params.lookup key with
    | some v => simp
    | none =>
      simp only [if_true, List.singleton_append, List.append_assoc, List.cons_append,
        List.nil_append]
      rw [List.find?_cons_of_neg _ (by simp), Machine.GetParam.profiles_eq, List.find?_append,
        Machine.getProfile_eq]
      generalize ((n.Profiles.filterMap p.findProfile).map
          (fun prof => pg prof key false)).find? (fun r => r.2) = fa
      cases fa with
      | some r => rfl
      | none =>
        cases hg : p.findProfile p.GlobalProfileName with
        | none => rfl
        | some gp =>
          cases hk : gp.Params.lookup key with
          | none => simp [hk]
          | some v => simp [hk]
  · unfold Machine.GetParam Machine.GetParam.firstDefined mapIndex Machine.GetParams
    cases hown : n.Profile.Params.lookup key with
    | some v => simp
    | none => simp

/-- The lookups of C28 evaluated: the parameter of the machine itself is found
with and without the profiles; ntp is taken from gpu, the first profile of the
list, the missing profile being skipped for rack; dns comes from the global
profile; an unknown key gives `(nil, false)`; without the profiles ntp is not
found. -/
theorem Machine.GetParam_scenario :
    Machine.GetParam Example.profileGetParam Example.paramTracker Example.m5 "asset" true =
      (some (Value.int 42), true) ∧
    Machine.GetParam Example.profileGetParam Example.paramTracker Example.m5 "asset" false =
      (some (Value.int 42), true) ∧
    Machine.GetParam Example.profileGetParam Example.paramTracker Example.m5 "ntp" true =
      (some (Value.string "ntp2"), true) ∧
    Machine.GetParam Example.profileGetParam Example.paramTracker Example.m5 "rack" true =
      (some (Value.string "r1"), true) ∧
    Machine.GetParam Example.profileGetParam Example.paramTracker Example.m5 "dns" true =
      (some (Value.string "10.0.0.2"), true) ∧
    Machine.GetParam Example.profileGetParam Example.paramTracker Example.m5 "none" true =
      (none, false) ∧
    Machine.GetParam Example.profileGetParam Example.paramTracker Example.m5 "ntp" false =
      (none, false) := by
  refine ⟨by decide, by decide, by decide, by decide, by decide, by decide, by decide⟩


/-! ## The comparison of strings -/

theorem compareBytes_swap : ∀ a b : List Nat, compareBytes b a = (compareBytes a b).swap
  | [], [] => rfl
  | [], _ :: _ => rfl
  | _ :: _, [] => rfl
  | x :: a, y :: b => by
    unfold compareBytes
    by_cases hxy : x < y
    · have hyx : ¬y < x := by omega
      simp [hxy, hyx, Ordering.swap]
    · by_cases hyx : y < x
      · simp [hxy, hyx, Ordering.swap]
      · simp [hxy, hyx, compareBytes_swap a b]

theorem compareBytes_self : ∀ a : List Nat, compareBytes a a = Ordering.eq
  | [] => rfl
  | x :: a => by
    unfold compareBytes
    simp [compareBytes_self a]

theorem compareBytes_trans : ∀ a b c : List Nat, compareBytes a b = Ordering.lt →
    compareBytes b c = Ordering.lt → compareBytes a c = Ordering.lt
  | [], [], _, h, _ => by simp [compareBytes] at h
  | [], _ :: _, [], _, h => by simp [compareBytes] at h
  | [], _ :: _, _ :: _, _, _ => rfl
  | _ :: _, [], _, h, _ => by simp [compareBytes] at h
  | _ :: _, _ :: _, [], _, h => by simp [compareBytes] at h
  | x :: a, y :: b, z :: c, h1, h2 => by
    unfold compareBytes at h1 h2 ⊢
    by_cases hxy : x < y
    · by_cases hyz : y < z
      · have hxz : x < z := by omega
        simp [hxz]
      · by_cases hzy : z < y
        · simp [hyz, hzy] at h2
        · have hyz' : y = z := by omega
          subst hyz'
          simp [hxy]
    · by_cases hyx : y < x
      · simp [hxy, hyx] at h1
      · have hxy' : x = y := by omega
        subst hxy'
        simp only [hxy, if_false] at h1
        by_cases hxz : x < z
        · simp [hxz]
        · by_cases hzx : z < x
          · simp [hxz, hzx] at h2
          · simp only [hxz, hzx, if_false] at h2 ⊢
            exact compareBytes_trans a b c h1 h2

/-- On strings `a >= b` is the negation of `a < b`. -/
theorem strGreaterEq_eq (a b : String) : strGreaterEq a b = !strLess a b := by
  unfold strGreaterEq strLess
  cases compareBytes (stringBytes a) (stringBytes b) <;> rfl

/-- On strings `a > b` is `b < a`. -/
theorem strGreater_eq (a b : String) : strGreater a b = strLess b a := by
  unfold strGreater strLess
  rw [compareBytes_swap (stringBytes a) (stringBytes b)]
  cases compareBytes (stringBytes a) (stringBytes b) <;> rfl

theorem strLess_irrefl (a : String) : strLess a a = false := by
  unfold strLess
  rw [compareBytes_self]
  rfl

theorem strLess_trans (a b c : String) (h1 : strLess a b = true) (h2 : strLess b c = true) :
    strLess a c = true := by
  unfold strLess at h1 h2 ⊢
  have h1' : compareBytes (stringBytes a) (stringBytes b) = Ordering.lt := by
    cases h : compareBytes (stringBytes a) (stringBytes b)
    · rfl
    · rw [h] at h1; exact absurd h1 (by decide)
    · rw [h] at h1; exact absurd h1 (by decide)
  have h2' : compareBytes (stringBytes b) (stringBytes c) = Ordering.lt := by
    cases h : compareBytes (stringBytes b) (stringBytes c)
    · rfl
    · rw [h] at h2; exact absurd h2 (by decide)
    · rw [h] at h2; exact absurd h2 (by decide)
  rw [compareBytes_trans _ _ _ h1' h2']
  rfl

/-! ## machines.go: the comparator of `ParameterMaker` -/

/-- The comparator on a machine without a value and any machine. -/
theorem Machine.ParameterMaker.less.values_nil (v : Option Value) :
    Machine.ParameterMaker.less.values v none = some false ∧
    Machine.ParameterMaker.less.values none v =
      some (match v with
            | none => false
            | some (Value.bool b) => b
            | some _ => true) := by
  unfold Machine.ParameterMaker.less.values
  rcases v with _ | (s | b | k | tag) <;> simp

/-- The comparator on two values of one type. -/
theorem Machine.ParameterMaker.less.values_typed :
    (∀ a b : String, Machine.ParameterMaker.less.values (some (Value.string a))
        (some (Value.string b)) = some (strLess a b)) ∧
    (∀ a b : Bool, Machine.ParameterMaker.less.values (some (Value.bool a))
        (some (Value.bool b)) = some (b && !a)) ∧
    (∀ a b : Int, Machine.ParameterMaker.less.values (some (Value.int a))
        (some (Value.int b)) = some (decide (a < b))) := by
  refine ⟨fun a b => ?_, fun a b => ?_, fun a b => ?_⟩ <;>
    simp [Machine.ParameterMaker.less.values, Value.assertString, Value.assertBool,
      Value.assertInt]

theorem Machine.ParameterMaker.less.values_self (v : Option Value) :
    Machine.ParameterMaker.less.values v v = some false := by
  rcases v with _ | (s | b | k | tag) <;>
    simp [Machine.ParameterMaker.less.values, Value.assertString, Value.assertBool,
      Value.assertInt, strLess_irrefl]

theorem Machine.ParameterMaker.less.values_defined (t : ValueType) (a b : Option Value)
    (ha : Value.nilOr t a = true) (hb : Value.nilOr t b = true) :
    (Machine.ParameterMaker.less.values a b).isSome = true := by
  cases t <;> rcases a with _ | (a | a | a | a) <;> rcases b with _ | (b | b | b | b) <;>
    simp_all [Machine.ParameterMaker.less.values, Value.assertString, Value.assertBool,
      Value.assertInt, Value.nilOr]

theorem Machine.ParameterMaker.less.values_trans (t : ValueType) (a b c : Option Value)
    (ha : Value.nilOr t a = true) (hb : Value.nilOr t b = true) (hc : Value.nilOr t c = true)
    (h1 : Machine.ParameterMaker.less.values a b = some true)
    (h2 : Machine.ParameterMaker.less.values b c = some true) :
    Machine.ParameterMaker.less.values a c = some true := by
  cases t
  · rcases a with _ | (a | a | a | a) <;> rcases b with _ | (b | b | b | b) <;>
      rcases c with _ | (c | c | c | c) <;>
      simp_all [Machine.ParameterMaker.less.values, Value.assertString, Value.assertBool,
        Value.assertInt, Value.nilOr]
    exact strLess_trans a b c h1 h2
  · rcases a with _ | (a | a | a | a) <;> rcases b with _ | (b | b | b | b) <;>
      rcases c with _ | (c | c | c | c) <;>
      simp_all [Machine.ParameterMaker.less.values, Value.assertString, Value.assertBool,
        Value.assertInt, Value.nilOr]
  · rcases a with _ | (a | a | a | a) <;> rcases b with _ | (b | b | b | b) <;>
      rcases c with _ | (c | c | c | c) <;>
      simp_all [Machine.ParameterMaker.less.values, Value.assertString, Value.assertBool,
        Value.assertInt, Value.nilOr]
    omega


/-- C24, evaluated: for the parameter asset, which the machine m5 defines as the
int 42 and the machine m1 does not define, the comparator puts m1, the machine
without a value, first: less(m5, m1) is false and less(m1, m5) is true. -/
theorem Machine.ParameterMaker_nil_before_int :
    Machine.ParameterMaker.value Example.profileGetParam Example.paramTracker "asset" Example.m5 =
      some (Value.int 42) ∧
    Machine.ParameterMaker.value Example.profileGetParam Example.paramTracker "asset" Example.m1 =
      none ∧
    (Machine.ParameterMaker Example.profileGetParam Example.paramTracker "asset").less
      Example.m5 Example.m1 = some false ∧
    (Machine.ParameterMaker Example.profileGetParam Example.paramTracker "asset").less
      Example.m1 Example.m5 = some true := by
  refine ⟨by decide, by decide, by decide, by decide⟩

/-- C24, amended: in the index of a parameter the machines without a value come
first. For a machine `j` without a value and any machine `i`, less(i, j) is
false; less(j, i) is true when the value of `i` is a string, an int or the bool
true, and false when it is the bool false, with which no value is tied. -/
theorem Machine.ParameterMaker_nil_first
    (pg : Provision.Profile → String → Bool → Option Value × Bool) (p : DataTracker)
    (parameter : String) (i j : Machine)
    (hj : Machine.ParameterMaker.value pg p parameter j = none) :
    (Machine.ParameterMaker pg p parameter).less i j = some false ∧
    (∀ s, Machine.ParameterMaker.value pg p parameter i = some (Value.string s) →
      (Machine.ParameterMaker pg p parameter).less j i = some true) ∧
    (∀ k, Machine.ParameterMaker.value pg p parameter i = some (Value.int k) →
      (Machine.ParameterMaker pg p parameter).less j i = some true) ∧
    (Machine.ParameterMaker.value pg p parameter i = some (Value.bool true) →
      (Machine.ParameterMaker pg p parameter).less j i = some true) ∧
    (Machine.ParameterMaker.value pg p parameter i = some (Value.bool false) →
      (Machine.ParameterMaker pg p parameter).less j i = some false) := by
  unfold Machine.ParameterMaker.value at hj
  have hnil := Machine.ParameterMaker.less.values_nil
    (Machine.GetParam pg p i parameter true).1
  refine ⟨?_, ?_, ?_, ?_, ?_⟩
  · show Machine.ParameterMaker.less.values _ _ = _
    rw [hj]
    exact hnil.1
  · intro s hs
    show Machine.ParameterMaker.less.values _ _ = _
    unfold Machine.ParameterMaker.value at hs
    rw [hj, hnil.2, hs]
  · intro k hk
    show Machine.ParameterMaker.less.values _ _ = _
    unfold Machine.ParameterMaker.value at hk
    rw [hj, hnil.2, hk]
  · intro hb
    show Machine.ParameterMaker.less.values _ _ = _
    unfold Machine.ParameterMaker.value at hb
    rw [hj, hnil.2, hb]
  · intro hb
    show Machine.ParameterMaker.less.values _ _ = _
    unfold Machine.ParameterMaker.value at hb
    rw [hj, hnil.2, hb]

/-- C24, amended, at the machine m1, which has no value for the parameter asset,
against the machines whose value is an int, a string and the bool false. -/
theorem Machine.ParameterMaker_nil_first_witness :
    Machine.ParameterMaker.value Example.profileGetParam Example.paramTracker "asset" Example.m1 =
      none ∧
    (Machine.ParameterMaker Example.profileGetParam Example.paramTracker "asset").less
      Example.m6 Example.m1 = some false ∧
    (Machine.ParameterMaker Example.profileGetParam Example.paramTracker "asset").less
      Example.m1 Example.m6 = some true ∧
    (Machine.ParameterMaker Example.profileGetParam Example.paramTracker "asset").less
      Example.m1 Example.m7 = some false :=
  have h6 := Machine.ParameterMaker_nil_first Example.profileGetParam Example.paramTracker
    "asset" Example.m6 Example.m1 (by decide)
  have h7 := Machine.ParameterMaker_nil_first Example.profileGetParam Example.paramTracker
    "asset" Example.m7 Example.m1 (by decide)
  ⟨by decide, h6.1, h6.2.1 "x" (by decide), h7.2.2.2.2 (by decide)⟩

/-- C26, evaluated: for the parameter asset, a string on the machine m6 and an
int on the machine m5, the comparator fails in both directions, on the type
assertion of the second value; and the machine m1, which has no value, is not
below the machine m7, whose value is the bool false. -/
theorem Machine.ParameterMaker_less_fails_on_mixed_types :
    Machine.ParameterMaker.value Example.profileGetParam Example.paramTracker "asset" Example.m6 =
      some (Value.string "x") ∧
    Machine.ParameterMaker.value Example.profileGetParam Example.paramTracker "asset" Example.m5 =
      some (Value.int 42) ∧
    (Machine.ParameterMaker Example.profileGetParam Example.paramTracker "asset").less
      Example.m6 Example.m5 = none ∧
    (Machine.ParameterMaker Example.profileGetParam Example.paramTracker "asset").less
      Example.m5 Example.m6 = none ∧
    Machine.ParameterMaker.value Example.profileGetParam Example.paramTracker "asset" Example.m7 =
      some (Value.bool false) ∧
    (Machine.ParameterMaker Example.profileGetParam Example.paramTracker "asset").less
      Example.m1 Example.m7 = some false := by
  refine ⟨by decide, by decide, by decide, by decide, by decide, by decide⟩

/-- C26, amended: on machines whose values for the parameter are `nil` or of one
common type among string, bool and int the comparator is defined; a machine
without a value is strictly below every machine with a value other than the
bool false, and tied with the bool false; strings are in the order of Go
strings, bools have false below true, ints are in the order of the integers;
the comparator is irreflexive, on every value, and transitive. -/
theorem Machine.ParameterMaker_less_order
    (pg : Provision.Profile → String → Bool → Option Value × Bool) (p : DataTracker)
    (parameter : String) :
    (∀ t i j, Value.nilOr t (Machine.ParameterMaker.value pg p parameter i) = true →
      Value.nilOr t (Machine.ParameterMaker.value pg p parameter j) = true →
      ((Machine.ParameterMaker pg p parameter).less i j).isSome = true) ∧
    (∀ i j, Machine.ParameterMaker.value pg p parameter i = none →
      Machine.ParameterMaker.value pg p parameter j ≠ none →
      Machine.ParameterMaker.value pg p parameter j ≠ some (Value.bool false) →
      (Machine.ParameterMaker pg p parameter).less i j = some true ∧
        (Machine.ParameterMaker pg p parameter).less j i = some false) ∧
    (∀ i j, Machine.ParameterMaker.value pg p parameter i = none →
      Machine.ParameterMaker.value pg p parameter j = some (Value.bool false) →
      (Machine.ParameterMaker pg p parameter).less i j = some false ∧
        (Machine.ParameterMaker pg p parameter).less j i = some false) ∧
    (∀ i j a b, Machine.ParameterMaker.value pg p parameter i = some (Value.string a) →
      Machine.ParameterMaker.value pg p parameter j = some (Value.string b) →
      (Machine.ParameterMaker pg p parameter).less i j = some (strLess a b)) ∧
    (∀ i j a b, Machine.ParameterMaker.value pg p parameter i = some (Value.bool a) →
      Machine.ParameterMaker.value pg p parameter j = some (Value.bool b) →
      (Machine.ParameterMaker pg p parameter).less i j = some (!a && b)) ∧
    (∀ i j a b, Machine.ParameterMaker.value pg p parameter i = some (Value.int a) →
      Machine.ParameterMaker.value pg p parameter j = some (Value.int b) →
      (Machine.ParameterMaker pg p parameter).less i j = some (decide (a < b))) ∧
    (∀ i, (Machine.ParameterMaker pg p parameter).less i i = some false) ∧
    (∀ t i j k, Value.nilOr t (Machine.ParameterMaker.value pg p parameter i) = true →
      Value.nilOr t (Machine.ParameterMaker.value pg p parameter j) = true →
      Value.nilOr t (Machine.ParameterMaker.value pg p parameter k) = true →
      (Machine.ParameterMaker pg p parameter).less i j = some true →
      (Machine.ParameterMaker pg p parameter).less j k = some true →
      (Machine.ParameterMaker pg p parameter).less i k = some true) := by
  have hless : ∀ i j, (Machine.ParameterMaker pg p parameter).less i j =
      Machine.ParameterMaker.less.values (Machine.ParameterMaker.value pg p parameter i)
        (Machine.ParameterMaker.value pg p parameter j) := fun _ _ => rfl
  refine ⟨?_, ?_, ?_, ?_, ?_, ?_, ?_, ?_⟩
  · intro t i j hi hj
    rw [hless]
    exact Machine.ParameterMaker.less.values_defined t _ _ hi hj
  · intro i j hi hj hf
    rw [hless, hless, hi]
    have hnil := Machine.ParameterMaker.less.values_nil
      (Machine.ParameterMaker.value pg p parameter j)
    refine ⟨?_, hnil.1⟩
    rw [hnil.2]
    rcases hv : Machine.ParameterMaker.value pg p parameter j with _ | (s | b | k | tag)
    · exact absurd hv hj
    · rfl
    · cases b
      · exact absurd hv hf
      · rfl
    · rfl
    · rfl
  · intro i j hi hj
    rw [hless, hless, hi]
    have hnil := Machine.ParameterMaker.less.values_nil
      (Machine.ParameterMaker.value pg p parameter j)
    refine ⟨?_, hnil.1⟩
    rw [hnil.2, hj]
  · intro i j a b hi hj
    rw [hless, hi, hj]
    exact Machine.ParameterMaker.less.values_typed.1 a b
  · intro i j a b hi hj
    rw [hless, hi, hj, Machine.ParameterMaker.less.values_typed.2.1 a b, Bool.and_comm]
  · intro i j a b hi hj
    rw [hless, hi, hj]
    exact Machine.ParameterMaker.less.values_typed.2.2 a b
  · intro i
    rw [hless]
    exact Machine.ParameterMaker.less.values_self _
  · intro t i j k hi hj hk h1 h2
    rw [hless] at h1 h2 ⊢
    exact Machine.ParameterMaker.less.values_trans t _ _ _ hi hj hk h1 h2


/-! ## machines.go, plugins.go: the range tests of the indexes -/

theorem Machine.ParameterMaker.tests_values (t : ValueType) (a r : Option Value)
    (ha : Value.nilOr t a = true) (hr : Value.nilOr t r = true) :
    Machine.ParameterMaker.gte.values a r =
      (Machine.ParameterMaker.less.values a r).map (fun b => !b) ∧
    Machine.ParameterMaker.gt.values a r = Machine.ParameterMaker.less.values r a := by
  cases t
  · rcases a with _ | (a | a | a | a) <;> rcases r with _ | (r | r | r | r) <;>
      simp_all [Machine.ParameterMaker.less.values, Machine.ParameterMaker.gte.values,
        Machine.ParameterMaker.gt.values, Value.assertString, Value.assertBool,
        Value.assertInt, Value.nilOr, strGreaterEq_eq, strGreater_eq]
  · rcases a with _ | (a | a | a | a) <;> rcases r with _ | (r | r | r | r) <;>
      simp_all [Machine.ParameterMaker.less.values, Machine.ParameterMaker.gte.values,
        Machine.ParameterMaker.gt.values, Value.assertString, Value.assertBool,
        Value.assertInt, Value.nilOr]
    cases a <;> cases r <;> simp
  · rcases a with _ | (a | a | a | a) <;> rcases r with _ | (r | r | r | r) <;>
      simp_all [Machine.ParameterMaker.less.values, Machine.ParameterMaker.gte.values,
        Machine.ParameterMaker.gt.values, Value.assertString, Value.assertBool,
        Value.assertInt, Value.nilOr]
    by_cases h : a < r
    · simp [h, Int.not_le.2 h]
    · simp [h, Int.not_lt.1 h]

/-- C27: the range tests of the machine indexes Uuid, Name, BootEnv, Address and
Runnable and of the plugin indexes Name and Provider agree with the comparator
of the index: `gte(s)` holds exactly when less(s, ref) is false and `gt(s)`
exactly when less(ref, s) is true. So do those of the index of a parameter on a
reference and a tested machine whose values are `nil` or of one common type
among string, bool and int, where the comparator and both tests are defined. -/
theorem Indexes_tests_agree :
    Machine.Indexes.Uuid.testsAgree ∧ Machine.Indexes.Name.testsAgree ∧
    Machine.Indexes.BootEnv.testsAgree ∧ Machine.Indexes.Address.testsAgree ∧
    Machine.Indexes.Runnable.testsAgree ∧
    Plugin.Indexes.Name.testsAgree ∧ Plugin.Indexes.Provider.testsAgree ∧
    (∀ (pg : Provision.Profile → String → Bool → Option Value × Bool) (p : DataTracker)
        (parameter : String) (t : ValueType) (ref s : Machine),
      Value.nilOr t (Machine.ParameterMaker.value pg p parameter ref) = true →
      Value.nilOr t (Machine.ParameterMaker.value pg p parameter s) = true →
      ∃ lt gt : Bool,
        (Machine.ParameterMaker pg p parameter).less s ref = some lt ∧
        (Machine.ParameterMaker pg p parameter).less ref s = some gt ∧
        ((Machine.ParameterMaker pg p parameter).tests ref).1 s = some (!lt) ∧
        ((Machine.ParameterMaker pg p parameter).tests ref).2 s = some gt) := by
  refine ⟨?_, ?_, ?_, ?_, ?_, ?_, ?_, ?_⟩
  · intro ref s
    exact ⟨strGreaterEq_eq _ _, strGreater_eq _ _⟩
  · intro ref s
    exact ⟨strGreaterEq_eq _ _, strGreater_eq _ _⟩
  · intro ref s
    exact ⟨strGreaterEq_eq _ _, strGreater_eq _ _⟩
  · intro ref s
    constructor
    · show decide (bigCmp _ _ ≠ -1) = !decide (bigCmp _ _ = -1)
      simp
    · show decide (bigCmp _ _ = 1) = decide (bigCmp _ _ = -1)
      unfold bigCmp
      by_cases h1 : addressNumber s.Address < addressNumber ref.Address
      · have h2 : ¬addressNumber ref.Address < addressNumber s.Address := by omega
        simp [h1, h2]
      · by_cases h2 : addressNumber ref.Address < addressNumber s.Address
        · simp [h1, h2]
        · simp [h1, h2]
  · intro ref s
    constructor
    · show (s.Runnable || s.Runnable == ref.Runnable) = !(!s.Runnable && ref.Runnable)
      cases s.Runnable <;> cases ref.Runnable <;> rfl
    · show (s.Runnable && !ref.Runnable) = (!ref.Runnable && s.Runnable)
      cases s.Runnable <;> cases ref.Runnable <;> rfl
  · intro ref s
    exact ⟨strGreaterEq_eq _ _, strGreater_eq _ _⟩
  · intro ref s
    exact ⟨strGreaterEq_eq _ _, strGreater_eq _ _⟩
  · intro pg p parameter t ref s href hs
    have hv := Machine.ParameterMaker.tests_values t _ _ hs href
    have hd1 := Machine.ParameterMaker.less.values_defined t _ _ hs href
    have hd2 := Machine.ParameterMaker.less.values_defined t _ _ href hs
    obtain ⟨lt, hlt⟩ := Option.isSome_iff_exists.1 hd1
    obtain ⟨gt, hgt⟩ := Option.isSome_iff_exists.1 hd2
    refine ⟨lt, gt, hlt, hgt, ?_, ?_⟩
    · show Machine.ParameterMaker.gte.values _ _ = _
      exact hv.1.trans (by
        show Option.map _ (Machine.ParameterMaker.less.values _ _) = _
        rw [hlt]; rfl)
    · show Machine.ParameterMaker.gt.values _ _ = _
      exact hv.2.trans hgt

/-- The tests of C27 evaluated: by name, m1.example.com is at or above
m0.example.com and above it, and is at or above itself without being above
itself; by address 10.0.0.5 is below 10.0.0.12; by the parameter asset the
machine with the int 42 is above the one without a value. -/
theorem Indexes_tests_scenario :
    (Machine.Indexes.Name.tests { Name := "m0.example.com" }).1 Example.m1 = true ∧
    (Machine.Indexes.Name.tests { Name := "m0.example.com" }).2 Example.m1 = true ∧
    (Machine.Indexes.Name.tests Example.m1).1 Example.m1 = true ∧
    (Machine.Indexes.Name.tests Example.m1).2 Example.m1 = false ∧
    Machine.Indexes.Address.less Example.m1 { Address := [10, 0, 0, 12] } = true ∧
    (Machine.Indexes.Address.tests { Address := [10, 0, 0, 12] }).1 Example.m1 = false ∧
    ((Machine.ParameterMaker Example.profileGetParam Example.paramTracker "asset").tests
      Example.m1).2 Example.m5 = some true ∧
    ((Machine.ParameterMaker Example.profileGetParam Example.paramTracker "asset").tests
      Example.m5).1 Example.m1 = some false := by
  refine ⟨by decide, by decide, by decide, by decide, by decide, by decide, by decide, by decide⟩


/-! ## dhcp.go: `respondFrom` -/

/-- The first element of a list that passes a test is what `find?` returns. -/
theorem List.find?_eq_get_of_first {α : Type} (f : α → Bool) :
    ∀ (l : List α) (k : Nat) (hk : k < l.length), f (l.get ⟨k, hk⟩) = true →
      (∀ j (hj : j < k), f (l.get ⟨j, hj.trans hk⟩) = false) →
      l.find? f = some (l.get ⟨k, hk⟩)
  | [], k, hk, _, _ => absurd hk (Nat.not_lt_zero k)
  | x :: rest, 0, _, hc, _ => by
    have hc' : f x = true := hc
    simp [List.find?_cons, hc']
  | x :: rest, k + 1, hk, hc, hfirst => by
    have hx : f x = false := hfirst 0 (Nat.succ_pos k)
    have hk' : k < rest.length := Nat.lt_of_succ_lt_succ hk
    have ih := List.find?_eq_get_of_first f rest k hk' hc
      (fun j hj => hfirst (j + 1) (Nat.succ_lt_succ hj))
    simp only [List.find?_cons, hx, List.get_cons_succ]
    exact ih

/-- The server identifier of a NAK is the address it was built with. -/
theorem DhcpHandler.nak_serverIdentifier (p : Packet) (addr : IP) :
    (DhcpHandler.nak p addr).Options.lookup OptionServerIdentifier = some addr := by
  simp [DhcpHandler.nak, ReplyPacket, OptionServerIdentifier, OptionDHCPMessageType,
    List.lookup]

/-- C25: `respondFrom(a)` returns the 4-byte form of the first address of the
interface whose network contains `a`; when no network of the interface contains
`a`, that of the first address of the interface; and when the interface has no
address, that of the configured OurAddress. Every NAK that answers a Request
carries `respondFrom` of the requested address as its server identifier, and so
the interface address that covers the requested address when there is one. -/
theorem DhcpHandler.respondFrom_covering (h : DhcpHandler) (a : IP) :
    (∀ k (hk : k < h.listenAddrs.length),
      (h.listenAddrs.get ⟨k, hk⟩).Contains a = true →
      (∀ j (hj : j < k), (h.listenAddrs.get ⟨j, hj.trans hk⟩).Contains a = false) →
      h.respondFrom a = IP.To4 (h.listenAddrs.get ⟨k, hk⟩).IP) ∧
    (∀ first rest, h.listenAddrs = first :: rest →
      (∀ addr ∈ h.listenAddrs, addr.Contains a = false) →
      h.respondFrom a = IP.To4 first.IP) ∧
    (h.listenAddrs = [] → h.respondFrom a = IP.To4 h.bk.OurAddress) ∧
    (∀ (lb : LeaseBackend) (now : Time) (p : Packet) (options : Options) (reply : Packet),
      (DhcpHandler.ServeDHCP lb h now p Request options).1 = some reply →
      reply.MessageType = some [NAK] →
      reply.Options.lookup OptionServerIdentifier =
        some (h.respondFrom (reqAddr p Request options).1)) := by
  refine ⟨?_, ?_, ?_, ?_⟩
  · intro k hk hc hfirst
    unfold DhcpHandler.respondFrom
    rw [List.find?_eq_get_of_first (fun addr => addr.Contains a) h.listenAddrs k hk hc hfirst]
  · intro first rest hl hnone
    unfold DhcpHandler.respondFrom
    have hf : h.listenAddrs.find? (fun addr => addr.Contains a) = none := by
      rw [List.find?_eq_none]
      intro addr hmem
      simp [hnone addr hmem]
    rw [hf, hl]
  · intro hl
    unfold DhcpHandler.respondFrom
    rw [hl]
    rfl
  · intro lb now p options reply hreply hnak
    rw [DhcpHandler.ServeDHCP_request] at hreply
    unfold DhcpHandler.ServeDHCP.request at hreply
    dsimp only at hreply
    split at hreply
    · cases hreply
    · split at hreply
      · cases hreply
        exact DhcpHandler.nak_serverIdentifier _ _
      · split at hreply
        · cases hreply
          exact DhcpHandler.nak_serverIdentifier _ _
        · split at hreply
          · cases hreply
          · cases hreply
            exact DhcpHandler.nak_serverIdentifier _ _
        · simp only [Option.some.injEq] at hreply
          subst hreply
          exfalso
          split at hnak
          · rw [Packet.SetSIAddr_messageType, ReplyPacket_messageType] at hnak
            exact absurd hnak (by decide)
          · rw [ReplyPacket_messageType] at hnak
            exact absurd hnak (by decide)

/-- The cases of C25 evaluated on the interface with the addresses 192.168.1.1/24
and 10.0.0.1/24: the answer for 10.0.0.12 comes from 10.0.0.1, the one for
8.8.8.8 from the first address, and without an address of the interface from
the configured one; the Request of another client for the leased address
10.0.0.12 gets a NAK whose server identifier is 10.0.0.1. -/
theorem DhcpHandler.respondFrom_scenario :
    Example.twoAddrHandler.respondFrom [10, 0, 0, 12] = [10, 0, 0, 1] ∧
    Example.twoAddrHandler.respondFrom [8, 8, 8, 8] = [192, 168, 1, 1] ∧
    DhcpHandler.respondFrom { Example.twoAddrHandler with addrs := [] } [10, 0, 0, 12] =
      [172, 16, 0, 1] ∧
    (DhcpHandler.ServeDHCP Example.backend Example.twoAddrHandler 0
        { Example.packet with CHAddr := [0, 1, 2, 3, 4, 5] } Request
        Example.selectingUs).1.map
      (fun reply => (reply.MessageType, reply.Options.lookup OptionServerIdentifier)) =
      some (some [NAK], some [10, 0, 0, 1]) := by
  refine ⟨by decide, by decide, by decide, by decide⟩

end Provision
